import Mathlib

/-!
# GIC interrupt controller driver (drivers/irqchip/irq-gic.c)

A shallow embedding of the driver's routing and lifecycle logic.

* A register is addressed by a base address, a register bank (the symbolic
  name of its byte offset) and a word index inside the bank: the C expression
  `base + GIC_DIST_ENABLE_SET + i * 4` is the triple `(base, GIC_DIST_ENABLE_SET, i)`.
* A `void __iomem *` is a natural number, `0` being `NULL`.
* `u32` values are natural numbers reduced modulo `2 ^ 32` at every read and write.
* Every register access and every call into an external handler is appended
  to `Machine.trace`, in program order.
* The hardware is the view of the executing CPU (banked registers are the
  bank of that CPU).
* Configuration: `CONFIG_SMP` and `CONFIG_BL_SWITCHER` are on,
  `CONFIG_GIC_NON_BANKED` is off (the bases are the common bases);
  `CONFIG_FIQ` and `CONFIG_TEGRA_APE_AGIC` are covered by the flags
  `fiq_enable` and `tegra_agic_suspended`, which stay `false` when the option
  is off.
-/

namespace GIC

/-- Register banks: the offsets of the distributor block (`GIC_DIST_*`) and of
the CPU interface block (`GIC_CPU_*`) used by the driver. -/
inductive Reg
  | GIC_DIST_CTRL
  | GIC_DIST_CTR
  | GIC_DIST_IGROUP
  | GIC_DIST_ENABLE_SET
  | GIC_DIST_ENABLE_CLEAR
  | GIC_DIST_PENDING_SET
  | GIC_DIST_PENDING_CLEAR
  | GIC_DIST_ACTIVE_SET
  | GIC_DIST_ACTIVE_CLEAR
  | GIC_DIST_PRI
  | GIC_DIST_TARGET
  | GIC_DIST_CONFIG
  | GIC_DIST_SOFTINT
  | GIC_DIST_SGI_PENDING_CLEAR
  | GIC_DIST_SGI_PENDING_SET
  | GIC_CPU_CTRL
  | GIC_CPU_PRIMASK
  | GIC_CPU_INTACK
  | GIC_CPU_EOI
  | GIC_CPU_DEACTIVATE
  deriving DecidableEq, Repr

open Reg

/-- One observable step of the driver: a register read, a register write, or
a call into one of the external handlers. -/
inductive Event
  | read (base : Nat) (reg : Reg) (word : Nat)
  | write (base : Nat) (reg : Reg) (word : Nat) (val : Nat)
  | handle_domain_irq (irqnr : Nat)
  | handle_IPI (irqnr : Nat)
  | handle_bad_irq
  | generic_handle_irq (hwirq : Nat)
  | chained_irq_enter
  | chained_irq_exit
  deriving DecidableEq, Repr

/-- Is the event a register write? -/
def Event.isWrite : Event → Bool
  | .write _ _ _ _ => true
  | _ => false

/-- Is the event a call of the generic handler or of the IPI handler? -/
def Event.isDispatch : Event → Bool
  | .handle_domain_irq _ => true
  | .handle_IPI _ => true
  | _ => false

/-- The `struct gic_chip_data` fields the modelled functions use. The saved
arrays are indexed by word; `dist_base` and `cpu_base` are the common bases
(`0` is `NULL`). `fiq_enable` is `false` when `CONFIG_FIQ` is off. The
per-CPU arrays `saved_ppi_*` are indexed by the CPU and then by word.
`is_agic` and `num_interfaces` describe a Tegra AGIC instance. -/
structure gic_chip_data where
  dist_base : Nat
  cpu_base : Nat
  saved_spi_enable : Nat → Nat
  saved_spi_active : Nat → Nat
  saved_spi_conf : Nat → Nat
  saved_spi_target : Nat → Nat
  saved_spi_group : Nat → Nat
  gic_irqs : Nat
  is_percpu : Bool
  fiq_enable : Bool
  saved_ppi_enable : Nat → Nat → Nat
  saved_ppi_active : Nat → Nat → Nat
  saved_ppi_conf : Nat → Nat → Nat
  is_agic : Bool
  num_interfaces : Nat

/-- The driver's global state together with the hardware it drives.
`io base bank word` is the value stored in a register; a set/clear pair shares
the storage of its set bank. `intack base` is the stream of values the claim
register of the CPU interface at `base` returns and `intack_pos base` the
number of claim reads done so far. `tegra_agic_suspended` stays `false` when
`CONFIG_TEGRA_APE_AGIC` is off. `nr_cpu_ids` and `cpu_online_mask` are the
kernel globals of the same names. -/
structure Machine where
  gic_data : Nat → gic_chip_data
  gic_cpu_map : Nat → Nat
  supports_deactivate : Bool
  tegra_agic_suspended : Bool
  io : Nat → Reg → Nat → Nat
  intack : Nat → Nat → Nat
  intack_pos : Nat → Nat
  nr_cpu_ids : Nat
  cpu_online_mask : Nat → Bool
  trace : List Event

/-- Truncation of a value to `u32`. -/
def u32 (v : Nat) : Nat := v % 2 ^ 32

/-- Truncation of a value to `u8`. -/
def u8 (v : Nat) : Nat := v % 2 ^ 8

/-- The C operator `~` on a `u32`. -/
def not32 (v : Nat) : Nat := 0xffffffff ^^^ u32 v

/-- The kernel macro `DIV_ROUND_UP`. -/
def DIV_ROUND_UP (n d : Nat) : Nat := (n + d - 1) / d

/-- The storage bank of a register: a clear register aliases its set
register. -/
def Reg.store : Reg → Reg
  | GIC_DIST_ENABLE_CLEAR => GIC_DIST_ENABLE_SET
  | GIC_DIST_PENDING_CLEAR => GIC_DIST_PENDING_SET
  | GIC_DIST_ACTIVE_CLEAR => GIC_DIST_ACTIVE_SET
  | GIC_DIST_SGI_PENDING_CLEAR => GIC_DIST_SGI_PENDING_SET
  | r => r

/-- Hardware effect of writing `v` to a register that holds `old`:
write-1-to-set and write-1-to-clear for the enable, pending and active
pairs, no stored value for the write-only and read-only registers, a plain
store for the others. -/
def Reg.written (r : Reg) (old v : Nat) : Nat :=
  match r with
  | GIC_DIST_ENABLE_SET => old ||| v
  | GIC_DIST_PENDING_SET => old ||| v
  | GIC_DIST_ACTIVE_SET => old ||| v
  | GIC_DIST_SGI_PENDING_SET => old ||| v
  | GIC_DIST_ENABLE_CLEAR => old &&& not32 v
  | GIC_DIST_PENDING_CLEAR => old &&& not32 v
  | GIC_DIST_ACTIVE_CLEAR => old &&& not32 v
  | GIC_DIST_SGI_PENDING_CLEAR => old &&& not32 v
  | GIC_DIST_CTR => old
  | GIC_DIST_SOFTINT => old
  | GIC_CPU_INTACK => old
  | GIC_CPU_EOI => old
  | GIC_CPU_DEACTIVATE => old
  | _ => v

/-- The accessor `writel_relaxed(val, base + reg + word * 4)`. -/
def writel_relaxed (val base : Nat) (reg : Reg) (word : Nat) (m : Machine) : Machine :=
  { m with
    io := fun b r w =>
      if b = base ∧ r = reg.store ∧ w = word then reg.written (m.io b r w) (u32 val)
      else m.io b r w
    trace := m.trace ++ [Event.write base reg word (u32 val)] }

/-- The accessor `readl_relaxed(base + reg + word * 4)`: the value read and
the machine after the read. A read of the claim register pops the next value
of the claim stream. -/
def readl_relaxed (base : Nat) (reg : Reg) (word : Nat) (m : Machine) : Nat × Machine :=
  if reg = GIC_CPU_INTACK then
    (u32 (m.intack base (m.intack_pos base)),
     { m with
       intack_pos := fun b => if b = base then m.intack_pos b + 1 else m.intack_pos b
       trace := m.trace ++ [Event.read base reg word] })
  else
    (u32 (m.io base reg.store word),
     { m with trace := m.trace ++ [Event.read base reg word] })

/-- The accessor `readb_relaxed(base + reg + byte)`: byte `byte % 4` of word
`byte / 4` (little endian). -/
def readb_relaxed (base : Nat) (reg : Reg) (byte : Nat) (m : Machine) : Nat × Machine :=
  (u8 (m.io base reg.store (byte / 4) >>> (8 * (byte % 4))),
   { m with trace := m.trace ++ [Event.read base reg (byte / 4)] })

/-- A C loop `for (; i < n; i++) body(i)` whose body does not assign `i`:
the final value of `i` and the final state. -/
def forLoopAux {σ : Type} (body : Nat → σ → σ) : Nat → Nat → σ → σ
  | 0, _, s => s
  | k + 1, i, s => forLoopAux body k (i + 1) (body i s)

/-- The loop `for (i = start; i < n; i++) body(i)`: the value of `i` at exit
and the state at exit. -/
def forLoop {σ : Type} (start n : Nat) (body : Nat → σ → σ) (s : σ) : Nat × σ :=
  (max start n, forLoopAux body (n - start) start s)

/-! ## Constants of headers outside the modelled file -/

/-- Modelled from the spec: the errno `EINVAL` of the kernel headers (the
"invalid-argument condition"); the functions return `-EINVAL`. -/
def EINVAL : Int := 22

/-- Modelled from the spec: the "level-high" trigger type, `IRQ_TYPE_LEVEL_HIGH`
of `include/linux/irq.h`. -/
def IRQ_TYPE_LEVEL_HIGH : Nat := 4

/-- Modelled from the spec: the "edge-rising" trigger type,
`IRQ_TYPE_EDGE_RISING` of `include/linux/irq.h`. -/
def IRQ_TYPE_EDGE_RISING : Nat := 1

/-- Modelled from the spec: the state kind "pending" of
`enum irqchip_irq_state`. -/
def IRQCHIP_STATE_PENDING : Nat := 0

/-- Modelled from the spec: the state kind "active" of
`enum irqchip_irq_state`. -/
def IRQCHIP_STATE_ACTIVE : Nat := 1

/-- Modelled from the spec: the state kind "masked" of
`enum irqchip_irq_state`. -/
def IRQCHIP_STATE_MASKED : Nat := 2

/-- Modelled from the spec: the claim register's "10-bit interrupt ID" mask,
`GICC_IAR_INT_ID_MASK` of `include/linux/irqchip/arm-gic.h`. -/
def GICC_IAR_INT_ID_MASK : Nat := 0x3ff

/-- Modelled from the spec: the value written to disable the distributor,
`GICD_DISABLE`. -/
def GICD_DISABLE : Nat := 0

/-- Modelled from the spec: the all-ones word written to a clear register,
`GICD_INT_EN_CLR_X32`. -/
def GICD_INT_EN_CLR_X32 : Nat := 0xffffffff

/-- Modelled from the spec: the fixed default priority of four sources,
`GICD_INT_DEF_PRI_X4`. -/
def GICD_INT_DEF_PRI_X4 : Nat := 0xa0a0a0a0

/-- The constant `NR_GIC_CPU_IF`. -/
def NR_GIC_CPU_IF : Nat := 8

/-- The macro `IRQ_SET_MASK_OK`. -/
def IRQ_SET_MASK_OK : Int := 0

/-! ## Kernel helpers -/

/-- Update of one element of an array. -/
def upd {α : Type} (a : Nat → α) (i : Nat) (v : α) : Nat → α :=
  fun j => if j = i then v else a j

/-- Assignment through a `struct gic_chip_data *`. -/
def set_gic (m : Machine) (gic : Nat) (f : gic_chip_data → gic_chip_data) : Machine :=
  { m with gic_data := upd m.gic_data gic (f (m.gic_data gic)) }

/-- Modelled from the spec: the bit operation `ffs` of 32-bit ARM (ARMv5 and
later, where it is `fls(x & -x)`): the position, counted from 1, of the
lowest set bit of a 32-bit word, and 0 for the word 0. -/
def ffs (x : Nat) : Nat :=
  match (List.range 32).find? (fun i => x.testBit i) with
  | some i => i + 1
  | none => 0

/-- Modelled from the spec: the kernel bit operation `__ffs` as 32-bit ARM
(ARMv5 and later) has it, `ffs(x) - 1` as an `unsigned long`: the index of
the lowest set bit of a word, and `0xffffffff` for the word 0. Both callers
are built under `CONFIG_BL_SWITCHER`, an option of 32-bit ARM only. -/
def __ffs (x : Nat) : Nat := u32 (ffs x + 2 ^ 32 - 1)

/-- The conversion of a 32-bit `unsigned long` to `int`, as at a `return` of
a function whose result is `int`. -/
def to_int (v : Nat) : Int :=
  if u32 v < 2 ^ 31 then (u32 v : Int) else (u32 v : Int) - 2 ^ 32

/-- Modelled from the spec: the kernel bit operation `ror32`, a rotation of a
32-bit word to the right. -/
def ror32 (word shift : Nat) : Nat :=
  u32 ((u32 word >>> shift) ||| (u32 word <<< (32 - shift)))

/-- Modelled from the spec: `cpumask_first`, the first CPU of a set, or
`nr_cpu_ids` when the set is empty. -/
def cpumask_first (nr_cpu_ids : Nat) (mask : Nat → Bool) : Nat :=
  ((List.range nr_cpu_ids).find? mask).getD nr_cpu_ids

/-- Modelled from the spec: `cpumask_any_and`, the first CPU in both sets, or
`nr_cpu_ids` when there is none. -/
def cpumask_any_and (nr_cpu_ids : Nat) (mask1 mask2 : Nat → Bool) : Nat :=
  cpumask_first nr_cpu_ids (fun c => mask1 c && mask2 c)

/-- The external entry point `handle_domain_irq(gic->domain, irqnr, regs)`. -/
def handle_domain_irq (irqnr : Nat) (m : Machine) : Machine :=
  { m with trace := m.trace ++ [Event.handle_domain_irq irqnr] }

/-- The external entry point `handle_IPI(irqnr, regs)`. -/
def handle_IPI (irqnr : Nat) (m : Machine) : Machine :=
  { m with trace := m.trace ++ [Event.handle_IPI irqnr] }

/-! ## The driver -/

/-- The fields of `struct irq_data` the driver reads: the hardware index, the
chip data (the index of the controller instance in `gic_data`), the handler
data (`0` is `NULL`) and the forwarded-to-vcpu state flag. -/
structure irq_data where
  hwirq : Nat
  chip_data : Nat
  handler_data : Nat
  forwarded_to_vcpu : Bool

/-- The accessor `gic_irq`: it returns an `unsigned int`, the hardware index
`d->hwirq` (an `unsigned long`) truncated to 32 bits. -/
def gic_irq (d : irq_data) : Nat := u32 d.hwirq

/-- The accessor `gic_dist_base`. -/
def gic_dist_base (d : irq_data) (m : Machine) : Nat := (m.gic_data d.chip_data).dist_base

/-- The accessor `gic_cpu_base`. -/
def gic_cpu_base (d : irq_data) (m : Machine) : Nat := (m.gic_data d.chip_data).cpu_base

/-- The predicate `cascading_gic_irq`. -/
def cascading_gic_irq (d : irq_data) : Bool := d.handler_data != 0

/-- The loop of `gic_get_cpumask`: `k` iterations are left, `i` is the byte
offset, `mask` the current value of the variable. -/
def gic_get_cpumask_loop (base : Nat) : Nat → Nat → Nat → Machine → Nat × Machine
  | 0, _, mask, m => (mask, m)
  | k + 1, i, _, m =>
    let r := readl_relaxed base GIC_DIST_TARGET (i / 4) m
    let mask := r.1
    let mask := mask ||| (mask >>> 16)
    let mask := mask ||| (mask >>> 8)
    if mask ≠ 0 then (mask, r.2) else gic_get_cpumask_loop base k (i + 4) mask r.2

/-- The function `gic_get_cpumask`; the result is a `u8`. -/
def gic_get_cpumask (gic : Nat) (m : Machine) : Nat × Machine :=
  let base := (m.gic_data gic).dist_base
  let r := gic_get_cpumask_loop base (DIV_ROUND_UP 32 4) 0 0 m
  (u8 r.1, r.2)

/-- The function `gic_poke_irq`. -/
def gic_poke_irq (d : irq_data) (offset : Reg) (m : Machine) : Machine :=
  let gic := d.chip_data
  let mask := u32 (1 <<< (gic_irq d % 32))
  if !(m.gic_data gic).is_percpu && m.tegra_agic_suspended then m
  else
    let c := gic_get_cpumask gic m
    let curr_cpu := c.1
    let r := readb_relaxed (gic_dist_base d c.2) GIC_DIST_TARGET (gic_irq d) c.2
    let val8 := r.1
    if !(r.2.gic_data gic).is_percpu && (val8 &&& curr_cpu) == 0 then r.2
    else writel_relaxed mask (gic_dist_base d r.2) offset (gic_irq d / 32) r.2

/-- The function `gic_peek_irq`. -/
def gic_peek_irq (d : irq_data) (offset : Reg) (m : Machine) : Bool × Machine :=
  let mask := u32 (1 <<< (gic_irq d % 32))
  let r := readl_relaxed (gic_dist_base d m) offset (gic_irq d / 32) m
  ((r.1 &&& mask) != 0, r.2)

/-- The function `gic_mask_irq`. -/
def gic_mask_irq (d : irq_data) (m : Machine) : Machine :=
  gic_poke_irq d GIC_DIST_ENABLE_CLEAR m

/-- The function `gic_eoimode1_mask_irq`. -/
def gic_eoimode1_mask_irq (d : irq_data) (m : Machine) : Machine :=
  let m := gic_mask_irq d m
  if d.forwarded_to_vcpu then gic_poke_irq d GIC_DIST_ACTIVE_CLEAR m else m

/-- The function `gic_unmask_irq`. -/
def gic_unmask_irq (d : irq_data) (m : Machine) : Machine :=
  gic_poke_irq d GIC_DIST_ENABLE_SET m

/-- The function `gic_eoi_irq`. -/
def gic_eoi_irq (d : irq_data) (m : Machine) : Machine :=
  writel_relaxed (gic_irq d) (gic_cpu_base d m) GIC_CPU_EOI 0 m

/-- The function `gic_eoimode1_eoi_irq`. -/
def gic_eoimode1_eoi_irq (d : irq_data) (m : Machine) : Machine :=
  if d.forwarded_to_vcpu then m
  else writel_relaxed (gic_irq d) (gic_cpu_base d m) GIC_CPU_DEACTIVATE 0 m

/-- The function `gic_irq_set_irqchip_state`. -/
def gic_irq_set_irqchip_state (d : irq_data) (which : Nat) (val : Bool) (m : Machine) :
    Int × Machine :=
  if which = IRQCHIP_STATE_PENDING then
    (0, gic_poke_irq d (if val then GIC_DIST_PENDING_SET else GIC_DIST_PENDING_CLEAR) m)
  else if which = IRQCHIP_STATE_ACTIVE then
    (0, gic_poke_irq d (if val then GIC_DIST_ACTIVE_SET else GIC_DIST_ACTIVE_CLEAR) m)
  else if which = IRQCHIP_STATE_MASKED then
    (0, gic_poke_irq d (if val then GIC_DIST_ENABLE_CLEAR else GIC_DIST_ENABLE_SET) m)
  else (-EINVAL, m)

/-- The function `gic_irq_get_irqchip_state`; `val` is the content of `*val`
at the call, the second component of the result its content at the return. -/
def gic_irq_get_irqchip_state (d : irq_data) (which : Nat) (val : Bool) (m : Machine) :
    Int × Bool × Machine :=
  if which = IRQCHIP_STATE_PENDING then
    let r := gic_peek_irq d GIC_DIST_PENDING_SET m
    (0, r.1, r.2)
  else if which = IRQCHIP_STATE_ACTIVE then
    let r := gic_peek_irq d GIC_DIST_ACTIVE_SET m
    (0, r.1, r.2)
  else if which = IRQCHIP_STATE_MASKED then
    let r := gic_peek_irq d GIC_DIST_ENABLE_SET m
    (0, !r.1, r.2)
  else (-EINVAL, val, m)

/-- The function `gic_set_type`. The helper `gic_configure_irq` of
`irq-gic-common.c` is a parameter: it receives the hardware index, the type
and the distributor base. -/
def gic_set_type (gic_configure_irq : Nat → Nat → Nat → Machine → Int × Machine)
    (d : irq_data) (type : Nat) (m : Machine) : Int × Machine :=
  let base := gic_dist_base d m
  let gicirq := gic_irq d
  if gicirq < 16 then (-EINVAL, m)
  else if gicirq ≥ 32 ∧ type ≠ IRQ_TYPE_LEVEL_HIGH ∧ type ≠ IRQ_TYPE_EDGE_RISING then
    (-EINVAL, m)
  else gic_configure_irq gicirq type base m

/-- The function `gic_irq_set_vcpu_affinity`; `vcpu` is the pointer argument
(`0` is `NULL`). The result is the return value and the interrupt's data. -/
def gic_irq_set_vcpu_affinity (d : irq_data) (vcpu : Nat) : Int × irq_data :=
  if cascading_gic_irq d then (-EINVAL, d)
  else if vcpu ≠ 0 then (0, { d with forwarded_to_vcpu := true })
  else (0, { d with forwarded_to_vcpu := false })

/-- The function `gic_set_affinity` (`CONFIG_SMP`). -/
def gic_set_affinity (d : irq_data) (mask_val : Nat → Bool) (force : Bool) (m : Machine) :
    Int × Machine :=
  let base := gic_dist_base d m
  let word := gic_irq d / 4
  let shift := (gic_irq d % 4) * 8
  let gic := d.chip_data
  let cpu :=
    if !force then cpumask_any_and m.nr_cpu_ids mask_val m.cpu_online_mask
    else cpumask_first m.nr_cpu_ids mask_val
  if cpu ≥ NR_GIC_CPU_IF ∨ cpu ≥ m.nr_cpu_ids then (-EINVAL, m)
  else if !(m.gic_data gic).is_percpu then (IRQ_SET_MASK_OK, m)
  else
    let mask := u32 (0xff <<< shift)
    let bit := u32 (u8 (m.gic_cpu_map cpu) <<< shift)
    let r := readl_relaxed base GIC_DIST_TARGET word m
    let val := r.1 &&& not32 mask
    (IRQ_SET_MASK_OK, writel_relaxed (val ||| bit) base GIC_DIST_TARGET word r.2)

/-- The function `gic_handle_irq`. The loop `do ... while (1)` runs at most
`fuel` iterations; the result is `none` when they do not reach the `break`. -/
def gic_handle_irq : Nat → Machine → Option Machine
  | 0, _ => none
  | fuel + 1, m =>
    let cpu_base := (m.gic_data 0).cpu_base
    let r := readl_relaxed cpu_base GIC_CPU_INTACK 0 m
    let irqstat := r.1
    let irqnr := irqstat &&& GICC_IAR_INT_ID_MASK
    if irqnr > 15 ∧ irqnr < 1021 then
      let m1 := if r.2.supports_deactivate then writel_relaxed irqstat cpu_base GIC_CPU_EOI 0 r.2
                else r.2
      gic_handle_irq fuel (handle_domain_irq irqnr m1)
    else if irqnr < 16 then
      let m1 := writel_relaxed irqstat cpu_base GIC_CPU_EOI 0 r.2
      let m2 := if m1.supports_deactivate then
                  writel_relaxed irqstat cpu_base GIC_CPU_DEACTIVATE 0 m1
                else m1
      gic_handle_irq fuel (handle_IPI irqnr m2)
    else some r.2

/-- A save loop `for (i = 0; i < n; i++) arr[i] = readl_relaxed(dist_base + reg + i * 4)`,
where `arr` is the saved array of the instance `tgt` that `get` reads and
`set` assigns. -/
def save_loop (dist_base : Nat) (reg : Reg) (n tgt : Nat) (get : gic_chip_data → Nat → Nat)
    (set : gic_chip_data → (Nat → Nat) → gic_chip_data) (m : Machine) : Machine :=
  (forLoop 0 n (fun i m =>
    let r := readl_relaxed dist_base reg i m
    set_gic r.2 tgt (fun g => set g (upd (get g) i r.1))) m).2

/-- A restore loop `for (i = 0; i < n; i++) writel_relaxed(val, dist_base + reg + i * 4)`,
where `val` is read from the driver state at each iteration. -/
def write_loop (dist_base : Nat) (reg : Reg) (n : Nat) (val : Nat → Machine → Nat)
    (m : Machine) : Machine :=
  (forLoop 0 n (fun i m => writel_relaxed (val i m) dist_base reg i m) m).2

/-- The function `gic_dist_save`. The fourth loop stores through the array
name `gic_data`, that is into the instance `gic_data[0]`; the other four
store through the argument `gic`. -/
def gic_dist_save (gic : Nat) (m : Machine) : Machine :=
  let gic_irqs := (m.gic_data gic).gic_irqs
  let dist_base := (m.gic_data gic).dist_base
  if dist_base = 0 then m
  else
    let m := save_loop dist_base GIC_DIST_CONFIG (DIV_ROUND_UP gic_irqs 16) gic
      (fun g => g.saved_spi_conf) (fun g a => { g with saved_spi_conf := a }) m
    let m := save_loop dist_base GIC_DIST_TARGET (DIV_ROUND_UP gic_irqs 4) gic
      (fun g => g.saved_spi_target) (fun g a => { g with saved_spi_target := a }) m
    let m := save_loop dist_base GIC_DIST_ENABLE_SET (DIV_ROUND_UP gic_irqs 32) gic
      (fun g => g.saved_spi_enable) (fun g a => { g with saved_spi_enable := a }) m
    let m := save_loop dist_base GIC_DIST_ACTIVE_SET (DIV_ROUND_UP gic_irqs 32) 0
      (fun g => g.saved_spi_active) (fun g a => { g with saved_spi_active := a }) m
    let m := save_loop dist_base GIC_DIST_IGROUP (DIV_ROUND_UP gic_irqs 32) gic
      (fun g => g.saved_spi_group) (fun g a => { g with saved_spi_group := a }) m
    m

/-- The enable loop of `gic_dist_restore`, entered with the index `i`. Its
body writes the clear register of word `i` and then runs the group loop and
the enable-set loop, both of which assign the same index `i` from `0`. -/
def gic_dist_restore_enable (gic dist_base n : Nat) (i : Nat) (m : Machine) : Nat × Machine :=
  if i < n then
    let m1 := writel_relaxed GICD_INT_EN_CLR_X32 dist_base GIC_DIST_ENABLE_CLEAR i m
    let r2 := forLoop 0 n (fun i m =>
      writel_relaxed ((m.gic_data gic).saved_spi_group i) dist_base GIC_DIST_IGROUP i m) m1
    let r3 := forLoop 0 n (fun i m =>
      writel_relaxed ((m.gic_data gic).saved_spi_enable i) dist_base GIC_DIST_ENABLE_SET i m) r2.2
    gic_dist_restore_enable gic dist_base n (r3.1 + 1) r3.2
  else (i, m)
termination_by n - i
decreasing_by
  simp only [forLoop]
  omega

/-- The active loop of `gic_dist_restore`: each iteration writes all-ones to
the active-clear register of word `i` and then the saved word to the
active-set register. -/
def gic_dist_restore_active (gic dist_base n : Nat) (m : Machine) : Machine :=
  (forLoop 0 n (fun i m =>
    let m := writel_relaxed GICD_INT_EN_CLR_X32 dist_base GIC_DIST_ACTIVE_CLEAR i m
    writel_relaxed ((m.gic_data gic).saved_spi_active i) dist_base GIC_DIST_ACTIVE_SET i m) m).2

/-- The function `gic_dist_restore`. -/
def gic_dist_restore (gic : Nat) (m : Machine) : Machine :=
  let gic_irqs := (m.gic_data gic).gic_irqs
  let dist_base := (m.gic_data gic).dist_base
  if dist_base = 0 then m
  else
    let m := writel_relaxed GICD_DISABLE dist_base GIC_DIST_CTRL 0 m
    let m := write_loop dist_base GIC_DIST_CONFIG (DIV_ROUND_UP gic_irqs 16)
      (fun i m => (m.gic_data gic).saved_spi_conf i) m
    let m := write_loop dist_base GIC_DIST_PRI (DIV_ROUND_UP gic_irqs 4)
      (fun _ _ => GICD_INT_DEF_PRI_X4) m
    let m := write_loop dist_base GIC_DIST_TARGET (DIV_ROUND_UP gic_irqs 4)
      (fun i m => (m.gic_data gic).saved_spi_target i) m
    let m := (gic_dist_restore_enable gic dist_base (DIV_ROUND_UP gic_irqs 32) 0 m).2
    let m := gic_dist_restore_active gic dist_base (DIV_ROUND_UP gic_irqs 32) m
    if (m.gic_data gic).fiq_enable then writel_relaxed 3 dist_base GIC_DIST_CTRL 0 m
    else writel_relaxed 1 dist_base GIC_DIST_CTRL 0 m

/-- The target loop of `gic_migrate_target`. -/
def gic_migrate_target_loop (dist_base gic_irqs cur_target_mask ror_val : Nat) (m : Machine) :
    Machine :=
  (forLoop 8 (DIV_ROUND_UP gic_irqs 4) (fun i m =>
    let r := readl_relaxed dist_base GIC_DIST_TARGET i m
    let val := r.1
    let active_mask := val &&& cur_target_mask
    if active_mask ≠ 0 then
      let val := val &&& not32 active_mask
      let val := val ||| ror32 active_mask ror_val
      writel_relaxed val dist_base GIC_DIST_TARGET i r.2
    else r.2) m).2

/-- The pending-signal loop of `gic_migrate_target`; the loop variable `i`
is `4 * w`. -/
def gic_migrate_target_sgi (dist_base new_cpu_id : Nat) (m : Machine) : Machine :=
  (forLoop 0 4 (fun w m =>
    let i := 4 * w
    let r := readl_relaxed dist_base GIC_DIST_SGI_PENDING_SET w m
    let val := r.1
    if val = 0 then r.2
    else
      let m := writel_relaxed val dist_base GIC_DIST_SGI_PENDING_CLEAR w r.2
      (forLoop i (i + 4) (fun j (s : Nat × Machine) =>
        let m := if s.1 &&& 0xff ≠ 0 then
                   writel_relaxed ((1 <<< (new_cpu_id + 16)) ||| j) dist_base GIC_DIST_SOFTINT 0 s.2
                 else s.2
        (s.1 >>> 8, m)) (val, m)).2.2) m).2

/-- The function `gic_migrate_target` (`CONFIG_BL_SWITCHER`), run on the
logical CPU `cpu` (`smp_processor_id()`). -/
def gic_migrate_target (cpu new_cpu_id : Nat) (m : Machine) : Machine :=
  let dist_base := (m.gic_data 0).dist_base
  if dist_base = 0 then m
  else
    let gic_irqs := (m.gic_data 0).gic_irqs
    let cur_cpu_id := __ffs (u8 (m.gic_cpu_map cpu))
    let cur_target_mask := u32 (0x01010101 <<< cur_cpu_id)
    let ror_val := u32 (cur_cpu_id + 2 ^ 32 - u32 new_cpu_id) &&& 31
    let m := { m with gic_cpu_map := upd m.gic_cpu_map cpu (u8 (1 <<< new_cpu_id)) }
    let m := gic_migrate_target_loop dist_base gic_irqs cur_target_mask ror_val m
    gic_migrate_target_sgi dist_base new_cpu_id m

/-! ## CPU interface, power transitions, signals and cascade -/

/-- Modelled from the spec: the spurious interrupt ID, `GICC_INT_SPURIOUS`
of `include/linux/irqchip/arm-gic.h`. -/
def GICC_INT_SPURIOUS : Nat := 1023

/-- Modelled from the spec: the enable bit of the CPU interface control
register, `GICC_ENABLE`. -/
def GICC_ENABLE : Nat := 0x1

/-- Modelled from the spec: the "fixed priority threshold" written to the
priority-mask register, `GICC_INT_PRI_THRESHOLD`. -/
def GICC_INT_PRI_THRESHOLD : Nat := 0xf0

/-- Modelled from the spec: the bypass-disable bits of the CPU interface
control register, `GICC_DIS_BYPASS_MASK`. -/
def GICC_DIS_BYPASS_MASK : Nat := 0x1e0

/-- Modelled from the spec: the split EOI/deactivate mode bit of the CPU
interface control register, `GIC_CPU_CTRL_EOImodeNS`. -/
def GIC_CPU_CTRL_EOImodeNS : Nat := 1 <<< 9

/-- Modelled from the spec: the command tag "cpu-enter" of
`enum cpu_pm_event` (`include/linux/cpu_pm.h`). -/
def CPU_PM_ENTER : Nat := 0

/-- Modelled from the spec: the command tag "cpu-enter-failed". -/
def CPU_PM_ENTER_FAILED : Nat := 1

/-- Modelled from the spec: the command tag "cpu-exit". -/
def CPU_PM_EXIT : Nat := 2

/-- Modelled from the spec: the command tag "cluster-enter". -/
def CPU_CLUSTER_PM_ENTER : Nat := 3

/-- Modelled from the spec: the command tag "cluster-enter-failed". -/
def CPU_CLUSTER_PM_ENTER_FAILED : Nat := 4

/-- Modelled from the spec: the command tag "cluster-exit". -/
def CPU_CLUSTER_PM_EXIT : Nat := 5

/-- Modelled from the spec: the notifier return value `NOTIFY_OK` of
`include/linux/notifier.h`. -/
def NOTIFY_OK : Nat := 0x0001

/-- The external entry point `handle_bad_irq(desc)`. -/
def handle_bad_irq (m : Machine) : Machine :=
  { m with trace := m.trace ++ [Event.handle_bad_irq] }

/-- The external call `generic_handle_irq(irq_find_mapping(domain, hwirq))`:
the dispatch to the IRQ handle that the domain maps `hwirq` to. -/
def generic_handle_irq (hwirq : Nat) (m : Machine) : Machine :=
  { m with trace := m.trace ++ [Event.generic_handle_irq hwirq] }

/-- The external call `chained_irq_enter(chip, desc)`. -/
def chained_irq_enter (m : Machine) : Machine :=
  { m with trace := m.trace ++ [Event.chained_irq_enter] }

/-- The external call `chained_irq_exit(chip, desc)`. -/
def chained_irq_exit (m : Machine) : Machine :=
  { m with trace := m.trace ++ [Event.chained_irq_exit] }

/-- The function `gic_handle_cascade_irq`; `chip_data` is the handler data of
the descriptor, the index of the child instance. -/
def gic_handle_cascade_irq (chip_data : Nat) (m : Machine) : Machine :=
  let m := chained_irq_enter m
  let r := readl_relaxed (m.gic_data chip_data).cpu_base GIC_CPU_INTACK 0 m
  let status := r.1
  let gic_irq := status &&& GICC_IAR_INT_ID_MASK
  if gic_irq = GICC_INT_SPURIOUS then chained_irq_exit r.2
  else if gic_irq < 32 ∨ gic_irq > 1020 then chained_irq_exit (handle_bad_irq r.2)
  else chained_irq_exit (generic_handle_irq gic_irq r.2)

/-- The function `gic_cpu_if_up`. -/
def gic_cpu_if_up (gic : Nat) (m : Machine) : Machine :=
  let cpu_base := (m.gic_data gic).cpu_base
  let mode := if gic = 0 ∧ m.supports_deactivate = true then GIC_CPU_CTRL_EOImodeNS else 0
  let r := readl_relaxed cpu_base GIC_CPU_CTRL 0 m
  let bypass := r.1 &&& GICC_DIS_BYPASS_MASK
  let bypass := if (r.2.gic_data gic).fiq_enable then bypass ||| 0x1f else bypass
  writel_relaxed (bypass ||| mode ||| GICC_ENABLE) cpu_base GIC_CPU_CTRL 0 r.2

/-- The loop of `gic_cpu_init` over the CPU interface map: every entry other
than that of `cpu` loses the bits of `cpu_mask`. -/
def gic_cpu_init_map (cpu cpu_mask : Nat) (m : Machine) : Machine :=
  (forLoop 0 NR_GIC_CPU_IF (fun i m =>
    if i ≠ cpu then
      { m with gic_cpu_map := upd m.gic_cpu_map i (u8 (u8 (m.gic_cpu_map i) &&& not32 cpu_mask)) }
    else m) m).2

/-- The function `gic_cpu_init`, run on the logical CPU `cpu`
(`smp_processor_id()`); `none` is the `BUG_ON`. The helper `gic_cpu_config`
of `irq-gic-common.c` is a parameter: it receives the distributor base and
accesses registers only, so it maps the register contents and the trace to
new ones. -/
def gic_cpu_init
    (gic_cpu_config : Nat → (Nat → Reg → Nat → Nat) × List Event →
      (Nat → Reg → Nat → Nat) × List Event)
    (gic cpu : Nat) (m : Machine) : Option Machine :=
  let dist_base := (m.gic_data gic).dist_base
  let base := (m.gic_data gic).cpu_base
  let mapped : Option Machine :=
    if gic = 0 then
      if cpu ≥ NR_GIC_CPU_IF then none
      else
        let c := gic_get_cpumask gic m
        let cpu_mask := c.1
        let m := { c.2 with gic_cpu_map := upd c.2.gic_cpu_map cpu (u8 cpu_mask) }
        some (gic_cpu_init_map cpu cpu_mask m)
    else some m
  match mapped with
  | none => none
  | some m =>
    let c := gic_cpu_config dist_base (m.io, m.trace)
    let m := { m with io := c.1, trace := c.2 }
    let m := if (m.gic_data gic).fiq_enable then
               writel_relaxed 0xffffffff dist_base GIC_DIST_IGROUP 0 m
             else m
    let m := writel_relaxed GICC_INT_PRI_THRESHOLD base GIC_CPU_PRIMASK 0 m
    some (gic_cpu_if_up gic m)

/-- A restore loop whose body writes all-ones to the clear register of word
`i` and then `val` to the set register of word `i`. -/
def clear_set_loop (dist_base : Nat) (clear set : Reg) (n : Nat) (val : Nat → Machine → Nat)
    (m : Machine) : Machine :=
  (forLoop 0 n (fun i m =>
    let m := writel_relaxed GICD_INT_EN_CLR_X32 dist_base clear i m
    writel_relaxed (val i m) dist_base set i m) m).2

/-- The per-CPU slot of the `saved_ppi_*` arrays that `gic_cpu_save` and
`gic_cpu_restore` use on the logical CPU `cpu`: `raw_cpu_ptr` on an instance
with per-CPU interfaces, `per_cpu_ptr(..., 0)` otherwise. -/
def ppi_slot (g : gic_chip_data) (cpu : Nat) : Nat := if g.is_percpu then cpu else 0

/-- The function `gic_cpu_save`, run on the logical CPU `cpu`. -/
def gic_cpu_save (gic cpu : Nat) (m : Machine) : Machine :=
  let dist_base := (m.gic_data gic).dist_base
  let cpu_base := (m.gic_data gic).cpu_base
  if dist_base = 0 ∨ cpu_base = 0 then m
  else
    let slot := ppi_slot (m.gic_data gic) cpu
    let m := save_loop dist_base GIC_DIST_ENABLE_SET (DIV_ROUND_UP 32 32) gic
      (fun g => g.saved_ppi_enable slot)
      (fun g a => { g with saved_ppi_enable := upd g.saved_ppi_enable slot a }) m
    let m := save_loop dist_base GIC_DIST_ACTIVE_SET (DIV_ROUND_UP 32 32) gic
      (fun g => g.saved_ppi_active slot)
      (fun g a => { g with saved_ppi_active := upd g.saved_ppi_active slot a }) m
    let m := save_loop dist_base GIC_DIST_CONFIG (DIV_ROUND_UP 32 16) gic
      (fun g => g.saved_ppi_conf slot)
      (fun g a => { g with saved_ppi_conf := upd g.saved_ppi_conf slot a }) m
    m

/-- The function `gic_cpu_restore`, run on the logical CPU `cpu`. -/
def gic_cpu_restore (gic cpu : Nat) (m : Machine) : Machine :=
  let dist_base := (m.gic_data gic).dist_base
  let cpu_base := (m.gic_data gic).cpu_base
  if dist_base = 0 ∨ cpu_base = 0 then m
  else
    let slot := ppi_slot (m.gic_data gic) cpu
    let m := clear_set_loop dist_base GIC_DIST_ENABLE_CLEAR GIC_DIST_ENABLE_SET
      (DIV_ROUND_UP 32 32) (fun i m => (m.gic_data gic).saved_ppi_enable slot i) m
    let m := clear_set_loop dist_base GIC_DIST_ACTIVE_CLEAR GIC_DIST_ACTIVE_SET
      (DIV_ROUND_UP 32 32) (fun i m => (m.gic_data gic).saved_ppi_active slot i) m
    let m := write_loop dist_base GIC_DIST_CONFIG (DIV_ROUND_UP 32 16)
      (fun i m => (m.gic_data gic).saved_ppi_conf slot i) m
    let m := write_loop dist_base GIC_DIST_PRI (DIV_ROUND_UP 32 4)
      (fun _ _ => GICD_INT_DEF_PRI_X4) m
    let m := writel_relaxed GICC_INT_PRI_THRESHOLD cpu_base GIC_CPU_PRIMASK 0 m
    gic_cpu_if_up gic m

/-- The function `gic_notifier` for the notifier block of the instance `gic`,
run on the logical CPU `cpu`. The command tags `MOD_DOMAIN_POWER_ON` and
`MOD_DOMAIN_POWER_OFF`, whose header is outside the modelled file, are
parameters, and so is the option `CONFIG_TEGRA_APE_AGIC`, under which the
flag `tegra_agic_suspended` is assigned. -/
def gic_notifier (CONFIG_TEGRA_APE_AGIC : Bool) (MOD_DOMAIN_POWER_ON MOD_DOMAIN_POWER_OFF : Nat)
    (gic cpu : Nat) (cmd : Nat) (m : Machine) : Nat × Machine :=
  if (m.gic_data gic).is_percpu then
    if cmd = CPU_PM_ENTER then (NOTIFY_OK, gic_cpu_save gic cpu m)
    else if cmd = CPU_PM_ENTER_FAILED ∨ cmd = CPU_PM_EXIT then
      (NOTIFY_OK, gic_cpu_restore gic cpu m)
    else if cmd = CPU_CLUSTER_PM_ENTER then (NOTIFY_OK, gic_dist_save gic m)
    else if cmd = CPU_CLUSTER_PM_ENTER_FAILED ∨ cmd = CPU_CLUSTER_PM_EXIT then
      (NOTIFY_OK, gic_dist_restore gic m)
    else (NOTIFY_OK, m)
  else
    if cmd = MOD_DOMAIN_POWER_ON then
      let m := gic_dist_restore gic m
      let m := gic_cpu_restore gic cpu m
      (NOTIFY_OK,
        if CONFIG_TEGRA_APE_AGIC then { m with tegra_agic_suspended := false } else m)
    else if cmd = MOD_DOMAIN_POWER_OFF then
      let m := gic_cpu_save gic cpu m
      let m := gic_dist_save gic m
      (NOTIFY_OK,
        if CONFIG_TEGRA_APE_AGIC then { m with tegra_agic_suspended := true } else m)
    else (NOTIFY_OK, m)

/-- The function `gic_raise_softirq` (`CONFIG_SMP`); `mask` is the set of
logical CPUs, of which `for_each_cpu` visits those below `nr_cpu_ids`. -/
def gic_raise_softirq (mask : Nat → Bool) (irq : Nat) (m : Machine) : Machine :=
  let map := (forLoop 0 m.nr_cpu_ids (fun cpu map =>
    if mask cpu then map ||| u8 (m.gic_cpu_map cpu) else map) 0).2
  let dist_base := (m.gic_data 0).dist_base
  let m := writel_relaxed ((map <<< 16) ||| irq) dist_base GIC_DIST_SOFTINT 0 m
  let softint := (map <<< 16) ||| irq
  let softint := if (m.gic_data 0).fiq_enable then softint ||| 0x8000 else softint
  writel_relaxed softint dist_base GIC_DIST_SOFTINT 0 m

/-! ## Firmware-spec translation, interface IDs and initialisation -/

/-- Modelled from the spec: the error number `EPERM` of the kernel headers. -/
def EPERM : Int := 1

/-- Modelled from the spec: the mask `IRQ_TYPE_SENSE_MASK` of
`include/linux/irq.h`. -/
def IRQ_TYPE_SENSE_MASK : Nat := 0x0000000f

/-- Modelled from the spec: the node types `enum fwnode_type` of
`include/linux/fwnode.h`. -/
inductive fwnode_type
  | FWNODE_INVALID
  | FWNODE_OF
  | FWNODE_ACPI
  | FWNODE_PDATA
  | FWNODE_IRQCHIP
  deriving DecidableEq, Repr

open fwnode_type

/-- Modelled from the spec: `struct irq_fwspec` of `include/linux/irqdomain.h`.
`fwnode` is the type of the node the pointer `fwspec->fwnode` refers to, or
`none` for a `NULL` pointer; the cells `param[i]` are `u32`. -/
structure irq_fwspec where
  fwnode : Option fwnode_type
  param_count : Nat
  param : Nat → Nat

/-- The function `tegra_agic_route_interrupt`. `tegra_agic` is the instance the
global pointer of that name refers to (`none` is `NULL`, on which `BUG_ON`
fires); `irq` is the 32-bit pattern of the `int` argument. There is no result
when `BUG_ON` fires, and none either when `irq` is negative (pattern of
`2 ^ 31` or more) or `cpu` is 32 or more, where the shift counts of the code
are outside what C defines. -/
def tegra_agic_route_interrupt (tegra_agic : Option Nat) (irq cpu : Nat) (m : Machine) :
    Option (Int × Machine) :=
  match tegra_agic with
  | none => none
  | some a =>
    if irq ≥ 2 ^ 31 ∨ cpu ≥ 32 then none
    else
      let routing_cpu := u8 (1 <<< cpu)
      let dist_base := (m.gic_data a).dist_base
      let shift := (irq % 4) * 8
      let r := readl_relaxed dist_base GIC_DIST_TARGET (irq / 4) m
      let irq_aff := r.1
      if irq_aff &&& u32 (routing_cpu <<< shift) ≠ 0 then some (0, r.2)
      else
        let r2 := readl_relaxed dist_base GIC_DIST_ENABLE_CLEAR (irq / 32) r.2
        let val32 := r2.1
        if val32 &&& u32 (1 <<< (irq % 32)) ≠ 0 then some (-EPERM, r2.2)
        else
          let irq_aff := irq_aff &&& not32 (0xFF <<< shift)
          let m := writel_relaxed irq_aff dist_base GIC_DIST_TARGET (irq / 4) r2.2
          let irq_aff := irq_aff ||| u32 (routing_cpu <<< shift)
          some (0, writel_relaxed irq_aff dist_base GIC_DIST_TARGET (irq / 4) m)

/-- The function `gic_irq_domain_translate` for the domain of the instance
`gic`. `hwirq` and `type` are the contents of `*hwirq` and `*type` at the
call; the result is the return value, the contents of `*hwirq` and `*type` at
the return, and the machine. `BITS_PER_LONG` is the width of
`unsigned long`, the type of `*hwirq`. There is no result when the code
dereferences a `NULL` node pointer or when `tegra_agic_route_interrupt` has
none. -/
def gic_irq_domain_translate (CONFIG_TEGRA_APE_AGIC : Bool) (BITS_PER_LONG : Nat)
    (tegra_agic : Option Nat) (gic : Nat) (fwspec : irq_fwspec) (hwirq type : Nat)
    (m : Machine) : Option (Int × Nat × Nat × Machine) :=
  match fwspec.fwnode with
  | none => none
  | some t =>
    if t = FWNODE_OF then
      if fwspec.param_count < 3 then some (-EINVAL, hwirq, type, m)
      else
        let hwirq := u32 (u32 (fwspec.param 1) + 16) % 2 ^ BITS_PER_LONG
        let hwirq := if u32 (fwspec.param 0) = 0 then (hwirq + 16) % 2 ^ BITS_PER_LONG else hwirq
        let type := u32 (fwspec.param 2) &&& IRQ_TYPE_SENSE_MASK
        if CONFIG_TEGRA_APE_AGIC then
          if (m.gic_data gic).is_agic ∧ fwspec.param_count = 4 ∧
              u32 (fwspec.param 3) < (m.gic_data gic).num_interfaces then
            match tegra_agic_route_interrupt tegra_agic (u32 hwirq) (u32 (fwspec.param 3)) m with
            | none => none
            | some r => some (r.1, hwirq, type, r.2)
          else some (0, hwirq, type, m)
        else some (0, hwirq, type, m)
    else if t = FWNODE_IRQCHIP then
      if fwspec.param_count ≠ 2 then some (-EINVAL, hwirq, type, m)
      else some (0, u32 (fwspec.param 0) % 2 ^ BITS_PER_LONG, u32 (fwspec.param 1), m)
    else some (-EINVAL, hwirq, type, m)

/-- The function `gic_get_cpu_id` (`CONFIG_BL_SWITCHER`). `cpu_bit` is an
`unsigned int`, so `cpu_bit - 1` wraps to `0xffffffff` at 0; the
`unsigned long` that `__ffs` returns is converted to the `int` result. -/
def gic_get_cpu_id (cpu : Nat) (m : Machine) : Int :=
  if cpu ≥ NR_GIC_CPU_IF then -1
  else
    let cpu_bit := u8 (m.gic_cpu_map cpu)
    if cpu_bit &&& u32 (cpu_bit + 2 ^ 32 - 1) ≠ 0 then -1
    else to_int (__ffs cpu_bit)

/-- The function `__gic_init_bases` up to the assignment
`gic->gic_irqs = gic_irqs`, the only assignment to this field in the file
(`CONFIG_GIC_NON_BANKED` is off). `MAX_GIC_NR` is the length of `gic_data`;
there is no result when `BUG_ON` fires. -/
def __gic_init_bases (MAX_GIC_NR gic_nr dist_base cpu_base : Nat) (is_percpu : Bool)
    (m : Machine) : Option Machine :=
  if gic_nr ≥ MAX_GIC_NR then none
  else
    let m := set_gic m gic_nr (fun g => { g with is_percpu := is_percpu })
    let m := set_gic m gic_nr (fun g => { g with dist_base := dist_base, cpu_base := cpu_base })
    let r := readl_relaxed (m.gic_data gic_nr).dist_base GIC_DIST_CTR 0 m
    let gic_irqs := r.1 &&& 0x1f
    let gic_irqs := (gic_irqs + 1) * 32
    let gic_irqs := if gic_irqs > 1020 then 1020 else gic_irqs
    some (set_gic r.2 gic_nr (fun g => { g with gic_irqs := gic_irqs }))

/-! ## Auxiliary notions of the statements -/

/-- The register writes of a trace. -/
def writesOf (t : List Event) : List Event := t.filter Event.isWrite

/-- The handler calls of a trace. -/
def dispatchesOf (t : List Event) : List Event := t.filter Event.isDispatch

/-- The targeting guard of `gic_poke_irq` lets the write through: neither the
early return (instance without per-CPU interfaces while the AGIC is
suspended) nor the `goto end` (instance without per-CPU interfaces and a
target byte that misses the mask of `gic_get_cpumask`) is taken. -/
def poke_permitted (d : irq_data) (m : Machine) : Bool :=
  (m.gic_data d.chip_data).is_percpu ||
    (!m.tegra_agic_suspended &&
      ((readb_relaxed (gic_dist_base d m) GIC_DIST_TARGET (gic_irq d) m).1 &&&
        (gic_get_cpumask d.chip_data m).1) != 0)

/-- The enable bit of source `irq` of the distributor at `base`. -/
def enable_bit (m : Machine) (base irq : Nat) : Bool :=
  (m.io base GIC_DIST_ENABLE_SET (irq / 32)).testBit (irq % 32)

/-- The active bit of source `irq` of the distributor at `base`. -/
def active_bit (m : Machine) (base irq : Nat) : Bool :=
  (m.io base GIC_DIST_ACTIVE_SET (irq / 32)).testBit (irq % 32)

/-- The group bit of source `irq` of the distributor at `base`. -/
def group_bit (m : Machine) (base irq : Nat) : Bool :=
  (m.io base GIC_DIST_IGROUP (irq / 32)).testBit (irq % 32)

/-- Bit `b` of the 2-bit trigger-config field of source `irq`. -/
def config_bit (m : Machine) (base irq b : Nat) : Bool :=
  (m.io base GIC_DIST_CONFIG (irq / 16)).testBit (2 * (irq % 16) + b)

/-- Bit `b` of the target byte of source `irq`. -/
def target_bit (m : Machine) (base irq b : Nat) : Bool :=
  (m.io base GIC_DIST_TARGET (irq / 4)).testBit (8 * (irq % 4) + b)

/-- Byte `k` of a word (little endian). -/
def byteOf (w k : Nat) : Nat := u8 (w >>> (8 * k))

/-- The logical CPU `gic_set_affinity` selects: the first online CPU of the
set, or the first CPU of the set when `force`. -/
def selected_cpu (mask_val : Nat → Bool) (force : Bool) (m : Machine) : Nat :=
  if force then cpumask_first m.nr_cpu_ids mask_val
  else cpumask_any_and m.nr_cpu_ids mask_val m.cpu_online_mask

/-- The 10-bit interrupt ID of a value of the claim register. -/
def claim_id (v : Nat) : Nat := u32 v &&& GICC_IAR_INT_ID_MASK

/-- The handler call that a claimed value with an ID below 1021 is due: the
generic handler for the IDs above 15, the IPI handler for the IDs 0..15. -/
def dispatch_of (v : Nat) : Event :=
  if 15 < claim_id v then Event.handle_domain_irq (claim_id v)
  else Event.handle_IPI (claim_id v)

/-- Is the event a read of a claim register? -/
def Event.isClaimRead : Event → Bool
  | .read _ GIC_CPU_INTACK _ => true
  | _ => false

/-- Is the event a write to the register bank `r`? -/
def Event.isWriteTo (r : Reg) : Event → Bool
  | .write _ r' _ _ => r' == r
  | _ => false

/-- The pending bit of source `irq` of the distributor at `base`. -/
def pending_bit (m : Machine) (base irq : Nat) : Bool :=
  (m.io base GIC_DIST_PENDING_SET (irq / 32)).testBit (irq % 32)

/-- The value `gic_cpu_if_up` writes to the CPU interface control register of
the instance `gic` when the register holds `old`. -/
def cpu_ctrl_value (gic : Nat) (m : Machine) (old : Nat) : Nat :=
  u32 ((if (m.gic_data gic).fiq_enable then (u32 old &&& GICC_DIS_BYPASS_MASK) ||| 0x1f
        else u32 old &&& GICC_DIS_BYPASS_MASK) |||
      (if gic = 0 ∧ m.supports_deactivate = true then GIC_CPU_CTRL_EOImodeNS else 0) |||
      GICC_ENABLE)

/-- The fold `mask |= mask >> 16; mask |= mask >> 8` of `gic_get_cpumask`
applied to a word read from a target register. -/
def cpumask_fold (w : Nat) : Nat := (w ||| (w >>> 16)) ||| ((w ||| (w >>> 16)) >>> 8)

/-- The target word at byte offset `4 * j` as `readl_relaxed` returns it. -/
def target_word (m : Machine) (base j : Nat) : Nat := u32 (m.io base GIC_DIST_TARGET j)

/-- The events of one iteration of the claim loop in split EOI/deactivate
mode on the claimed value `v`, read from the CPU interface at `base`: the
claim read, then for an ID in 16..1020 the write of the value to the
end-of-interrupt register and the call of the generic handler, for an ID in
0..15 the write of the value to the end-of-interrupt register, the write of
the value to the deactivate register and the call of the IPI handler, and
nothing more for an ID of 1021 or above. -/
def split_mode_events (base v : Nat) : List Event :=
  if 15 < claim_id v ∧ claim_id v < 1021 then
    [Event.read base GIC_CPU_INTACK 0, Event.write base GIC_CPU_EOI 0 (u32 v),
      Event.handle_domain_irq (claim_id v)]
  else if claim_id v < 16 then
    [Event.read base GIC_CPU_INTACK 0, Event.write base GIC_CPU_EOI 0 (u32 v),
      Event.write base GIC_CPU_DEACTIVATE 0 (u32 v), Event.handle_IPI (claim_id v)]
  else [Event.read base GIC_CPU_INTACK 0]

/-- Is the event an access to a pending-signal register or to the
software-interrupt register? -/
def Event.isSgiAccess : Event → Bool
  | .read _ r _ => r == GIC_DIST_SGI_PENDING_SET || r == GIC_DIST_SGI_PENDING_CLEAR ||
      r == GIC_DIST_SOFTINT
  | .write _ r _ _ => r == GIC_DIST_SGI_PENDING_SET || r == GIC_DIST_SGI_PENDING_CLEAR ||
      r == GIC_DIST_SOFTINT
  | _ => false

/-- The software-interrupt writes that re-issue the pending signals of the
pending-signal word `w` holding `val`: one write of
`(1 << (new_cpu_id + 16)) | j` for each signal `j = 4 * w + k` whose pending
byte `k` is not zero, in increasing order of `j`. -/
def sgi_reissue_events (base new_cpu_id w val : Nat) : List Event :=
  (List.range 4).flatMap (fun k =>
    if byteOf val k ≠ 0 then
      [Event.write base GIC_DIST_SOFTINT 0 ((1 <<< (new_cpu_id + 16)) ||| (4 * w + k))]
    else [])

/-- The accesses of the pending-signal drain for the word `w` holding `val`:
the read of the word, and when it is not zero the write of the word to the
pending-clear register followed by the re-issue writes. -/
def sgi_word_events (base new_cpu_id w val : Nat) : List Event :=
  Event.read base GIC_DIST_SGI_PENDING_SET w ::
    (if val = 0 then []
     else Event.write base GIC_DIST_SGI_PENDING_CLEAR w val ::
       sgi_reissue_events base new_cpu_id w val)

/-- The declared length of the saved array that goes with a register bank in
`gic_dist_save` and `gic_dist_restore`: `saved_spi_conf` for the config bank,
`saved_spi_target` for the target bank, `saved_spi_enable`,
`saved_spi_active` and `saved_spi_group` for the enable, active and group
banks; `none` for a bank that goes with no array. -/
def saved_array_length : Reg → Option Nat
  | GIC_DIST_CONFIG => some (DIV_ROUND_UP 1020 16)
  | GIC_DIST_TARGET => some (DIV_ROUND_UP 1020 4)
  | GIC_DIST_ENABLE_SET => some (DIV_ROUND_UP 1020 32)
  | GIC_DIST_ACTIVE_SET => some (DIV_ROUND_UP 1020 32)
  | GIC_DIST_IGROUP => some (DIV_ROUND_UP 1020 32)
  | _ => none

/-- The word index of a register access of `gic_dist_save` or
`gic_dist_restore` is the index into the saved array of its bank; it is
within the declared length. -/
def Event.indexInBounds : Event → Bool
  | .read _ r w =>
    match saved_array_length r with
    | some n => decide (w < n)
    | none => true
  | .write _ r w _ =>
    match saved_array_length r with
    | some n => decide (w < n)
    | none => true
  | _ => true

/-- The hardware index `gic_irq_domain_translate` computes for a device-tree
spec when `unsigned long` has at least 32 bits: the `u32` sum `cell1 + 16`,
plus 16 more in `unsigned long` when `cell0` is zero. -/
def of_hwirq (BITS_PER_LONG : Nat) (fwspec : irq_fwspec) : Nat :=
  if u32 (fwspec.param 0) = 0 then
    (u32 (u32 (fwspec.param 1) + 16) + 16) % 2 ^ BITS_PER_LONG
  else u32 (u32 (fwspec.param 1) + 16)

/-- The condition under which `gic_irq_domain_translate` routes the source on
a Tegra AGIC: the option is on, the instance is an AGIC, four cells are given
and the fourth is below the number of interfaces. -/
def agic_route_path (CONFIG_TEGRA_APE_AGIC : Bool) (gic : Nat) (fwspec : irq_fwspec)
    (m : Machine) : Prop :=
  CONFIG_TEGRA_APE_AGIC = true ∧ (m.gic_data gic).is_agic = true ∧ fwspec.param_count = 4 ∧
    u32 (fwspec.param 3) < (m.gic_data gic).num_interfaces

/-- A firmware spec with the given node type and cells. -/
def exampleFwspec (t : fwnode_type) (cells : List Nat) : irq_fwspec :=
  { fwnode := some t, param_count := cells.length, param := fun i => cells.getD i 0 }

/-- A saved-state array holding zero everywhere. -/
def zeroArray : Nat → Nat := fun _ => 0

/-- An example controller instance with per-CPU interfaces: distributor at
base `1`, CPU interface at base `2`, 64 sources. -/
def exampleChip : gic_chip_data :=
  { dist_base := 1, cpu_base := 2, saved_spi_enable := zeroArray, saved_spi_active := zeroArray,
    saved_spi_conf := zeroArray, saved_spi_target := zeroArray, saved_spi_group := zeroArray,
    gic_irqs := 64, is_percpu := true, fiq_enable := false,
    saved_ppi_enable := fun _ => zeroArray, saved_ppi_active := fun _ => zeroArray,
    saved_ppi_conf := fun _ => zeroArray, is_agic := false, num_interfaces := 0 }

/-- An example satellite instance without per-CPU interfaces: distributor at
base `3`, CPU interface at base `4`, 64 sources. -/
def exampleSatellite : gic_chip_data :=
  { exampleChip with dist_base := 3, cpu_base := 4, is_percpu := false }

/-- An example machine: instance 0 is `exampleChip`, every other instance is
`exampleSatellite`; all registers hold `ioval`, the CPU map is the identity
interface map, eight CPUs are online, split EOI/deactivate is on. -/
def exampleMachine (ioval : Nat → Reg → Nat → Nat) : Machine :=
  { gic_data := fun k => if k = 0 then exampleChip else exampleSatellite
    gic_cpu_map := fun c => 1 <<< c
    supports_deactivate := true
    tegra_agic_suspended := false
    io := ioval
    intack := fun _ _ => 1023
    intack_pos := fun _ => 0
    nr_cpu_ids := 8
    cpu_online_mask := fun _ => true
    trace := [] }

/-- An example machine whose primary instance has no per-CPU interfaces, as
`gic_v2_acpi_init` sets it up (`is_percpu` is passed as `false`) with split
EOI/deactivate left on. -/
def acpiExampleMachine (ioval : Nat → Reg → Nat → Nat) : Machine :=
  { exampleMachine ioval with
    gic_data := fun _ => { exampleChip with is_percpu := false } }

/-- The example machine whose claim register yields the given values and
the spurious ID 1023 from then on. -/
def claimExampleMachine (vals : List Nat) : Machine :=
  { exampleMachine (fun _ _ _ => 0) with intack := fun _ i => vals.getD i 1023 }

/-- Example register contents: the probe of the target registers finds the
interface mask `1`, source 32 is routed to interface 1 only (target byte
`2`), and source 32 is enabled and active. -/
def guardExampleIo : Nat → Reg → Nat → Nat := fun _ r w =>
  match r, w with
  | GIC_DIST_TARGET, 0 => 0x01010101
  | GIC_DIST_TARGET, 8 => 0x02
  | GIC_DIST_ENABLE_SET, 1 => 1
  | GIC_DIST_ACTIVE_SET, 1 => 1
  | _, _ => 0

/-- The second machine has the target registers of the first and a trace
that extends the first one without any write to a target register. -/
def target_frame (m m' : Machine) : Prop :=
  (∀ b w, m'.io b GIC_DIST_TARGET w = m.io b GIC_DIST_TARGET w) ∧
  ∃ evs, m'.trace = m.trace ++ evs ∧ ∀ b w v, Event.write b GIC_DIST_TARGET w v ∉ evs

/-- Example register contents for a migration: target word 8 routes the
sources 32 and 34 to interface 2 and the sources 33 and 35 to interface 0. -/
def migrateExampleIo : Nat → Reg → Nat → Nat := fun _ r w =>
  match r, w with
  | GIC_DIST_TARGET, 8 => 0x01040104
  | _, _ => 0

/-- The example machine on which logical CPU 0 owns interface 2. -/
def migrateExampleMachine : Machine :=
  { exampleMachine migrateExampleIo with gic_cpu_map := fun _ => 4 }

/-- The example machine whose instance `gic_data[1]` is a Tegra AGIC with four
interfaces. -/
def agicExampleMachine : Machine :=
  { exampleMachine guardExampleIo with
    gic_data := fun k =>
      if k = 0 then exampleChip
      else { exampleSatellite with is_agic := true, num_interfaces := 4 } }

/-- Example pending-signal contents: signals 1 and 2 (word 0) and signal 12
(word 3) are pending. -/
def sgiExampleIo : Nat → Reg → Nat → Nat := fun _ r w =>
  match r, w with
  | GIC_DIST_SGI_PENDING_SET, 0 => 0x00010100
  | GIC_DIST_SGI_PENDING_SET, 3 => 0x00000001
  | _, _ => 0

/-- Example register contents for the banked sources 0-31: sources 0 and 15
are enabled, source 1 is active, and the two config words of sources 0-31
hold edge and level triggers. -/
def ppiExampleIo : Nat → Reg → Nat → Nat := fun _ r w =>
  match r, w with
  | GIC_DIST_ENABLE_SET, 0 => 0x8001
  | GIC_DIST_ACTIVE_SET, 0 => 0x2
  | GIC_DIST_CONFIG, 0 => 0xaaaaaaaa
  | GIC_DIST_CONFIG, 1 => 0x55540000
  | _, _ => 0

/-! ## Register accessors: basic facts -/

@[simp] theorem writel_relaxed_gic_data (v b : Nat) (r : Reg) (w : Nat) (m : Machine) :
    (writel_relaxed v b r w m).gic_data = m.gic_data := rfl

@[simp] theorem writel_relaxed_gic_cpu_map (v b : Nat) (r : Reg) (w : Nat) (m : Machine) :
    (writel_relaxed v b r w m).gic_cpu_map = m.gic_cpu_map := rfl

@[simp] theorem writel_relaxed_supports_deactivate (v b : Nat) (r : Reg) (w : Nat) (m : Machine) :
    (writel_relaxed v b r w m).supports_deactivate = m.supports_deactivate := rfl

@[simp] theorem writel_relaxed_suspended (v b : Nat) (r : Reg) (w : Nat) (m : Machine) :
    (writel_relaxed v b r w m).tegra_agic_suspended = m.tegra_agic_suspended := rfl

@[simp] theorem writel_relaxed_intack (v b : Nat) (r : Reg) (w : Nat) (m : Machine) :
    (writel_relaxed v b r w m).intack = m.intack := rfl

@[simp] theorem writel_relaxed_intack_pos (v b : Nat) (r : Reg) (w : Nat) (m : Machine) :
    (writel_relaxed v b r w m).intack_pos = m.intack_pos := rfl

@[simp] theorem writel_relaxed_trace (v b : Nat) (r : Reg) (w : Nat) (m : Machine) :
    (writel_relaxed v b r w m).trace = m.trace ++ [Event.write b r w (u32 v)] := rfl

theorem writel_relaxed_io (v b : Nat) (r : Reg) (w : Nat) (m : Machine) (b' : Nat) (r' : Reg)
    (w' : Nat) :
    (writel_relaxed v b r w m).io b' r' w' =
      if b' = b ∧ r' = r.store ∧ w' = w then r.written (m.io b' r' w') (u32 v)
      else m.io b' r' w' := rfl

@[simp] theorem readl_relaxed_gic_data (b : Nat) (r : Reg) (w : Nat) (m : Machine) :
    (readl_relaxed b r w m).2.gic_data = m.gic_data := by
  unfold readl_relaxed; split <;> rfl

@[simp] theorem readl_relaxed_gic_cpu_map (b : Nat) (r : Reg) (w : Nat) (m : Machine) :
    (readl_relaxed b r w m).2.gic_cpu_map = m.gic_cpu_map := by
  unfold readl_relaxed; split <;> rfl

@[simp] theorem readl_relaxed_supports_deactivate (b : Nat) (r : Reg) (w : Nat) (m : Machine) :
    (readl_relaxed b r w m).2.supports_deactivate = m.supports_deactivate := by
  unfold readl_relaxed; split <;> rfl

@[simp] theorem readl_relaxed_suspended (b : Nat) (r : Reg) (w : Nat) (m : Machine) :
    (readl_relaxed b r w m).2.tegra_agic_suspended = m.tegra_agic_suspended := by
  unfold readl_relaxed; split <;> rfl

@[simp] theorem readl_relaxed_io (b : Nat) (r : Reg) (w : Nat) (m : Machine) :
    (readl_relaxed b r w m).2.io = m.io := by
  unfold readl_relaxed; split <;> rfl

@[simp] theorem readl_relaxed_intack (b : Nat) (r : Reg) (w : Nat) (m : Machine) :
    (readl_relaxed b r w m).2.intack = m.intack := by
  unfold readl_relaxed; split <;> rfl

@[simp] theorem readl_relaxed_trace (b : Nat) (r : Reg) (w : Nat) (m : Machine) :
    (readl_relaxed b r w m).2.trace = m.trace ++ [Event.read b r w] := by
  unfold readl_relaxed; split <;> rfl

theorem readl_relaxed_val (b : Nat) (r : Reg) (w : Nat) (m : Machine) (h : r ≠ GIC_CPU_INTACK) :
    (readl_relaxed b r w m).1 = u32 (m.io b r.store w) := by
  unfold readl_relaxed; rw [if_neg h]

theorem readl_relaxed_intack_pos_of_ne (b : Nat) (r : Reg) (w : Nat) (m : Machine)
    (h : r ≠ GIC_CPU_INTACK) : (readl_relaxed b r w m).2.intack_pos = m.intack_pos := by
  unfold readl_relaxed; rw [if_neg h]

@[simp] theorem readb_relaxed_gic_data (b : Nat) (r : Reg) (w : Nat) (m : Machine) :
    (readb_relaxed b r w m).2.gic_data = m.gic_data := rfl

@[simp] theorem readb_relaxed_io (b : Nat) (r : Reg) (w : Nat) (m : Machine) :
    (readb_relaxed b r w m).2.io = m.io := rfl

@[simp] theorem readb_relaxed_suspended (b : Nat) (r : Reg) (w : Nat) (m : Machine) :
    (readb_relaxed b r w m).2.tegra_agic_suspended = m.tegra_agic_suspended := rfl

@[simp] theorem readb_relaxed_trace (b : Nat) (r : Reg) (w : Nat) (m : Machine) :
    (readb_relaxed b r w m).2.trace = m.trace ++ [Event.read b r (w / 4)] := rfl

@[simp] theorem readb_relaxed_val (b : Nat) (r : Reg) (w : Nat) (m : Machine) :
    (readb_relaxed b r w m).1 = u8 (m.io b r.store (w / 4) >>> (8 * (w % 4))) := rfl

theorem u32_lt (v : Nat) : u32 v < 2 ^ 32 := Nat.mod_lt _ (by norm_num)

theorem u32_of_lt {v : Nat} (h : v < 2 ^ 32) : u32 v = v := Nat.mod_eq_of_lt h

/-- An invariant of a counted loop: it holds at the start index and every
iteration carries it from `i` to `i + 1`. -/
theorem forLoopAux_induct {σ : Type} (body : Nat → σ → σ) (P : Nat → σ → Prop) :
    ∀ (k start : Nat) (s : σ), P start s →
      (∀ i st, start ≤ i → i < start + k → P i st → P (i + 1) (body i st)) →
      P (start + k) (forLoopAux body k start s)
  | 0, _, _, h0, _ => h0
  | k + 1, start, s, h0, hstep => by
    have h1 : P (start + 1) (body start s) := hstep start s (le_refl _) (by omega) h0
    have := forLoopAux_induct body P k (start + 1) (body start s) h1
      (fun i st hi hlt hp => hstep i st (by omega) (by omega) hp)
    simpa [forLoopAux, Nat.add_assoc, Nat.add_comm 1 k] using this

/-- The same invariant for `forLoop`. -/
theorem forLoop_induct {σ : Type} (body : Nat → σ → σ) (P : Nat → σ → Prop)
    (start n : Nat) (s : σ) (hle : start ≤ n) (h0 : P start s)
    (hstep : ∀ i st, start ≤ i → i < n → P i st → P (i + 1) (body i st)) :
    P n (forLoop start n body s).2 := by
  have := forLoopAux_induct body P (n - start) start s h0
    (fun i st hi hlt hp => hstep i st hi (by omega) hp)
  have e : start + (n - start) = n := by omega
  rw [e] at this
  exact this

/-! ## Trigger type restriction -/

/-- C5: with `irq` the hardware index as `gic_irq` returns it (an
`unsigned int`), `gic_set_type` returns `-EINVAL` and leaves the whole machine
(so the config register too) unchanged, whatever the config helper is, when
`irq < 16` or when `irq >= 32` and the type is neither level-high nor
edge-rising; in every other case it is the config helper applied to `irq`,
the type and the distributor base. It returns `-EINVAL` for every config
helper exactly in the first case. -/
theorem gic_set_type_restriction (d : irq_data) (type : Nat) (m : Machine) :
    (∀ cfg : Nat → Nat → Nat → Machine → Int × Machine,
      gic_set_type cfg d type m =
        if (gic_irq d) < 16 ∨
            (32 ≤ (gic_irq d) ∧ type ≠ IRQ_TYPE_LEVEL_HIGH ∧ type ≠ IRQ_TYPE_EDGE_RISING) then
          (-EINVAL, m)
        else cfg (gic_irq d) type (m.gic_data d.chip_data).dist_base m) ∧
    ((∀ cfg : Nat → Nat → Nat → Machine → Int × Machine,
        gic_set_type cfg d type m = (-EINVAL, m)) ↔
      ((gic_irq d) < 16 ∨
        (32 ≤ (gic_irq d) ∧ type ≠ IRQ_TYPE_LEVEL_HIGH ∧ type ≠ IRQ_TYPE_EDGE_RISING))) := by
  have key : ∀ cfg : Nat → Nat → Nat → Machine → Int × Machine,
      gic_set_type cfg d type m =
        if (gic_irq d) < 16 ∨
            (32 ≤ (gic_irq d) ∧ type ≠ IRQ_TYPE_LEVEL_HIGH ∧ type ≠ IRQ_TYPE_EDGE_RISING) then
          (-EINVAL, m)
        else cfg (gic_irq d) type (m.gic_data d.chip_data).dist_base m := by
    intro cfg
    unfold gic_set_type gic_dist_base
    by_cases h1 : (gic_irq d) < 16
    · simp [h1]
    · by_cases h2 : 32 ≤ (gic_irq d) ∧ type ≠ IRQ_TYPE_LEVEL_HIGH ∧ type ≠ IRQ_TYPE_EDGE_RISING
      · rw [if_neg h1, if_pos (Or.inr h2)]
        exact if_pos h2
      · have h3 : ¬ ((gic_irq d) < 16 ∨
            (32 ≤ (gic_irq d) ∧ type ≠ IRQ_TYPE_LEVEL_HIGH ∧ type ≠ IRQ_TYPE_EDGE_RISING)) := by
          tauto
        rw [if_neg h1, if_neg h3]
        exact if_neg h2
  refine ⟨key, ?_, ?_⟩
  · intro h
    by_contra hc
    have h0 := h (fun _ _ _ m => (0, m))
    rw [key, if_neg hc] at h0
    have : (0 : Int) = -EINVAL := congrArg Prod.fst h0
    simp [EINVAL] at this
  · intro hc cfg
    rw [key, if_pos hc]

/-! ## Deactivation of forwarded sources -/

/-- C7: `gic_eoimode1_eoi_irq` leaves the machine untouched (no register
access at all) for a source marked forwarded-to-guest; for a source not so
marked it performs exactly one access, a write of the hardware index to the
deactivate register of the instance's CPU interface. -/
theorem gic_eoimode1_eoi_irq_writes (d : irq_data) (m : Machine) (hirq : d.hwirq < 2 ^ 32) :
    (d.forwarded_to_vcpu = true → gic_eoimode1_eoi_irq d m = m) ∧
    (d.forwarded_to_vcpu = false →
      (gic_eoimode1_eoi_irq d m).trace =
        m.trace ++ [Event.write (m.gic_data d.chip_data).cpu_base GIC_CPU_DEACTIVATE 0 d.hwirq]) := by
  constructor
  · intro h
    simp [gic_eoimode1_eoi_irq, h]
  · intro h
    simp [gic_eoimode1_eoi_irq, h, gic_irq, gic_cpu_base, u32_of_lt hirq]

/-! ## State kinds -/

/-- C10: `gic_irq_set_irqchip_state` and `gic_irq_get_irqchip_state` return
`-EINVAL` exactly when `which` is none of pending, active, masked; then
`set_state` leaves the machine untouched and `get_state` leaves the output
value and the machine untouched. For the three valid kinds both return `0`. -/
theorem gic_irqchip_state_einval (d : irq_data) (which : Nat) (val : Bool) (m : Machine) :
    ((gic_irq_set_irqchip_state d which val m).1 = -EINVAL ↔
      ¬ (which = IRQCHIP_STATE_PENDING ∨ which = IRQCHIP_STATE_ACTIVE ∨
          which = IRQCHIP_STATE_MASKED)) ∧
    ((gic_irq_get_irqchip_state d which val m).1 = -EINVAL ↔
      ¬ (which = IRQCHIP_STATE_PENDING ∨ which = IRQCHIP_STATE_ACTIVE ∨
          which = IRQCHIP_STATE_MASKED)) ∧
    (¬ (which = IRQCHIP_STATE_PENDING ∨ which = IRQCHIP_STATE_ACTIVE ∨
          which = IRQCHIP_STATE_MASKED) →
      (gic_irq_set_irqchip_state d which val m).2 = m ∧
      (gic_irq_get_irqchip_state d which val m).2.1 = val ∧
      (gic_irq_get_irqchip_state d which val m).2.2 = m) ∧
    ((which = IRQCHIP_STATE_PENDING ∨ which = IRQCHIP_STATE_ACTIVE ∨
          which = IRQCHIP_STATE_MASKED) →
      (gic_irq_set_irqchip_state d which val m).1 = 0 ∧
      (gic_irq_get_irqchip_state d which val m).1 = 0) := by
  unfold gic_irq_set_irqchip_state gic_irq_get_irqchip_state
  by_cases hp : which = IRQCHIP_STATE_PENDING
  · simp [hp, EINVAL]
  · by_cases ha : which = IRQCHIP_STATE_ACTIVE
    · simp [ha, hp, EINVAL, IRQCHIP_STATE_ACTIVE, IRQCHIP_STATE_PENDING]
    · by_cases hm : which = IRQCHIP_STATE_MASKED
      · simp [hm, EINVAL, IRQCHIP_STATE_ACTIVE, IRQCHIP_STATE_PENDING, IRQCHIP_STATE_MASKED]
      · simp [hp, ha, hm, EINVAL]

/-- Witness of C7 at source 42 of the example instance. -/
theorem gic_eoimode1_eoi_irq_writes_witness :
    (42 : Nat) < 2 ^ 32 ∧
    (false = true →
      gic_eoimode1_eoi_irq ⟨42, 0, 0, false⟩ (exampleMachine fun _ _ _ => 0) =
        exampleMachine fun _ _ _ => 0) ∧
    (false = false →
      (gic_eoimode1_eoi_irq ⟨42, 0, 0, false⟩ (exampleMachine fun _ _ _ => 0)).trace =
        (exampleMachine fun _ _ _ => 0).trace ++
          [Event.write ((exampleMachine fun _ _ _ => 0).gic_data 0).cpu_base
            GIC_CPU_DEACTIVATE 0 42]) :=
  ⟨by norm_num, gic_eoimode1_eoi_irq_writes ⟨42, 0, 0, false⟩ _ (by norm_num)⟩

/-! ## The targeting guard of `gic_poke_irq` -/

theorem gic_get_cpumask_loop_frame (base : Nat) :
    ∀ (k i mask : Nat) (m : Machine),
      (gic_get_cpumask_loop base k i mask m).2.io = m.io ∧
      (gic_get_cpumask_loop base k i mask m).2.gic_data = m.gic_data ∧
      (gic_get_cpumask_loop base k i mask m).2.tegra_agic_suspended = m.tegra_agic_suspended ∧
      ∃ evs, (gic_get_cpumask_loop base k i mask m).2.trace = m.trace ++ evs ∧
        writesOf evs = []
  | 0, _, _, m => ⟨rfl, rfl, rfl, [], by simp [gic_get_cpumask_loop], rfl⟩
  | k + 1, i, _, m => by
    unfold gic_get_cpumask_loop
    simp only []
    split
    · exact ⟨by simp, by simp, by simp, [Event.read base GIC_DIST_TARGET (i / 4)], by simp, rfl⟩
    · obtain ⟨h1, h2, h3, evs, h4, h5⟩ := gic_get_cpumask_loop_frame base k (i + 4)
        ((readl_relaxed base GIC_DIST_TARGET (i / 4) m).1 |||
            (readl_relaxed base GIC_DIST_TARGET (i / 4) m).1 >>> 16 |||
          ((readl_relaxed base GIC_DIST_TARGET (i / 4) m).1 |||
              (readl_relaxed base GIC_DIST_TARGET (i / 4) m).1 >>> 16) >>> 8)
        (readl_relaxed base GIC_DIST_TARGET (i / 4) m).2
      refine ⟨by rw [h1]; simp, by rw [h2]; simp, by rw [h3]; simp,
        Event.read base GIC_DIST_TARGET (i / 4) :: evs, ?_, ?_⟩
      · rw [h4]; simp
      · simpa [writesOf, Event.isWrite] using h5

/-- The mask found by the loop depends on the target registers only. -/
theorem gic_get_cpumask_loop_congr (base : Nat) :
    ∀ (k i mask : Nat) (m m' : Machine),
      (∀ w, m.io base GIC_DIST_TARGET w = m'.io base GIC_DIST_TARGET w) →
      (gic_get_cpumask_loop base k i mask m).1 = (gic_get_cpumask_loop base k i mask m').1
  | 0, _, _, _, _, _ => rfl
  | k + 1, i, _, m, m', h => by
    unfold gic_get_cpumask_loop
    have hv : (readl_relaxed base GIC_DIST_TARGET (i / 4) m).1 =
        (readl_relaxed base GIC_DIST_TARGET (i / 4) m').1 := by
      rw [readl_relaxed_val _ _ _ _ (by decide), readl_relaxed_val _ _ _ _ (by decide)]
      show u32 (m.io base GIC_DIST_TARGET (i / 4)) = u32 (m'.io base GIC_DIST_TARGET (i / 4))
      rw [h]
    simp only [hv]
    split
    · rfl
    · apply gic_get_cpumask_loop_congr
      intro w
      simpa using h w

theorem gic_get_cpumask_frame (gic : Nat) (m : Machine) :
    (gic_get_cpumask gic m).2.io = m.io ∧
    (gic_get_cpumask gic m).2.gic_data = m.gic_data ∧
    (gic_get_cpumask gic m).2.tegra_agic_suspended = m.tegra_agic_suspended ∧
    ∃ evs, (gic_get_cpumask gic m).2.trace = m.trace ++ evs ∧ writesOf evs = [] := by
  unfold gic_get_cpumask
  exact gic_get_cpumask_loop_frame _ _ _ _ m

theorem gic_get_cpumask_congr (gic : Nat) (m m' : Machine)
    (hd : m.gic_data = m'.gic_data)
    (h : ∀ w, m.io (m.gic_data gic).dist_base GIC_DIST_TARGET w =
      m'.io (m.gic_data gic).dist_base GIC_DIST_TARGET w) :
    (gic_get_cpumask gic m).1 = (gic_get_cpumask gic m').1 := by
  unfold gic_get_cpumask
  simp only [← hd]
  rw [gic_get_cpumask_loop_congr _ _ _ _ m m' h]

/-- The effect of `gic_poke_irq`: some reads, then the single write of the
source's bit when the guard lets it through. -/
theorem gic_poke_irq_effect (d : irq_data) (offset : Reg) (m : Machine) :
    (gic_poke_irq d offset m).gic_data = m.gic_data ∧
    (gic_poke_irq d offset m).tegra_agic_suspended = m.tegra_agic_suspended ∧
    (gic_poke_irq d offset m).io =
      (if poke_permitted d m then
        (writel_relaxed (u32 (1 <<< ((gic_irq d) % 32))) (m.gic_data d.chip_data).dist_base offset
          ((gic_irq d) / 32) m).io
      else m.io) ∧
    ∃ evs, writesOf evs = [] ∧
      (gic_poke_irq d offset m).trace =
        m.trace ++ evs ++
          (if poke_permitted d m then
            [Event.write (m.gic_data d.chip_data).dist_base offset ((gic_irq d) / 32)
              (u32 (1 <<< ((gic_irq d) % 32)))]
          else []) := by
  obtain ⟨c1, c2, c3, evs, c4, c5⟩ := gic_get_cpumask_frame d.chip_data m
  unfold gic_poke_irq poke_permitted
  simp only [gic_dist_base, readb_relaxed_gic_data, readb_relaxed_val, c1, c2]
  cases hp : (m.gic_data d.chip_data).is_percpu
  · cases hs : m.tegra_agic_suspended
    · simp only [Bool.not_false, Bool.and_false, Bool.false_eq_true, if_false, Bool.and_true,
        Bool.true_and, Bool.false_or, Bool.not_true]
      by_cases hz : (u8 (m.io (m.gic_data d.chip_data).dist_base GIC_DIST_TARGET.store
          ((gic_irq d) / 4) >>> (8 * ((gic_irq d) % 4))) &&& (gic_get_cpumask d.chip_data m).1) = 0
      · simp only [hz, beq_self_eq_true, if_true, bne_self_eq_false, Bool.false_eq_true, if_false]
        refine ⟨by simp [c2], by simp [c3, hs], by simp [c1], evs ++ [Event.read (m.gic_data d.chip_data).dist_base GIC_DIST_TARGET ((gic_irq d) / 4)], ?_, ?_⟩
        · simpa [writesOf, Event.isWrite] using c5
        · simp [c4]
      · have hb : ((u8 (m.io (m.gic_data d.chip_data).dist_base GIC_DIST_TARGET.store
            ((gic_irq d) / 4) >>> (8 * ((gic_irq d) % 4))) &&& (gic_get_cpumask d.chip_data m).1) == 0)
            = false := by simpa using hz
        have hb' : ((u8 (m.io (m.gic_data d.chip_data).dist_base GIC_DIST_TARGET.store
            ((gic_irq d) / 4) >>> (8 * ((gic_irq d) % 4))) &&& (gic_get_cpumask d.chip_data m).1) != 0)
            = true := by simpa using hz
        simp only [hb, hb', Bool.false_eq_true, if_false, if_true]
        refine ⟨by simp [c2], by simp [c3, hs], ?_, evs ++ [Event.read (m.gic_data d.chip_data).dist_base GIC_DIST_TARGET ((gic_irq d) / 4)], ?_, ?_⟩
        · funext b r w
          simp [writel_relaxed_io, c1, u32]
        · simpa [writesOf, Event.isWrite] using c5
        · simp [c4, u32]
    · simp
      exact ⟨hs, rfl⟩
  · simp only [Bool.not_true, Bool.false_and, Bool.false_eq_true, if_false, Bool.true_or, if_true]
    refine ⟨by simp [c2], by simp [c3], ?_, evs ++ [Event.read (m.gic_data d.chip_data).dist_base GIC_DIST_TARGET ((gic_irq d) / 4)], ?_, ?_⟩
    · funext b r w
      simp [writel_relaxed_io, c1, u32]
    · simpa [writesOf, Event.isWrite] using c5
    · simp [c4, u32]

/-! ## Bit-level facts -/

theorem testBit_u32 (v j : Nat) : (u32 v).testBit j = (decide (j < 32) && v.testBit j) :=
  Nat.testBit_mod_two_pow v 32 j

theorem testBit_u8 (v j : Nat) : (u8 v).testBit j = (decide (j < 8) && v.testBit j) :=
  Nat.testBit_mod_two_pow v 8 j

theorem testBit_not32 (v j : Nat) : (not32 v).testBit j = (decide (j < 32) && !v.testBit j) := by
  unfold not32
  have h : (0xffffffff : Nat) = 2 ^ 32 - 1 := by norm_num
  rw [Nat.testBit_xor, h, Nat.testBit_two_pow_sub_one, testBit_u32]
  by_cases hj : j < 32 <;> simp [hj]

theorem testBit_one_shiftLeft (k j : Nat) : (1 <<< k).testBit j = decide (k = j) := by
  rw [Nat.one_shiftLeft, Nat.testBit_two_pow]

theorem u32_one_shiftLeft_mod (k : Nat) : u32 (1 <<< (k % 32)) = 1 <<< (k % 32) := by
  apply u32_of_lt
  rw [Nat.one_shiftLeft]
  exact Nat.pow_lt_pow_right (by norm_num) (Nat.mod_lt _ (by norm_num))

theorem written_idem (r : Reg) (old v : Nat) :
    r.written (r.written old v) v = r.written old v := by
  cases r <;> simp [Reg.written, Nat.and_assoc, Nat.or_assoc]

theorem poke_permitted_congr (d : irq_data) (m m' : Machine)
    (hd : m'.gic_data = m.gic_data) (hs : m'.tegra_agic_suspended = m.tegra_agic_suspended)
    (ht : ∀ w, m'.io (m.gic_data d.chip_data).dist_base GIC_DIST_TARGET w =
      m.io (m.gic_data d.chip_data).dist_base GIC_DIST_TARGET w) :
    poke_permitted d m' = poke_permitted d m := by
  unfold poke_permitted
  have hc : (gic_get_cpumask d.chip_data m').1 = (gic_get_cpumask d.chip_data m).1 :=
    gic_get_cpumask_congr _ _ _ hd (by rw [hd]; exact ht)
  simp only [gic_dist_base, readb_relaxed_val, hd, hs, hc]
  have : m'.io (m.gic_data d.chip_data).dist_base GIC_DIST_TARGET.store ((gic_irq d) / 4) =
      m.io (m.gic_data d.chip_data).dist_base GIC_DIST_TARGET.store ((gic_irq d) / 4) := ht _
  rw [this]

/-- Two pokes of the same register leave the registers as one poke does. -/
theorem gic_poke_irq_twice (d : irq_data) (offset : Reg) (m : Machine)
    (hoff : offset.store ≠ GIC_DIST_TARGET) :
    (gic_poke_irq d offset (gic_poke_irq d offset m)).io = (gic_poke_irq d offset m).io := by
  obtain ⟨h1, h2, h3, _⟩ := gic_poke_irq_effect d offset m
  obtain ⟨_, _, k3, _⟩ := gic_poke_irq_effect d offset (gic_poke_irq d offset m)
  have hperm : poke_permitted d (gic_poke_irq d offset m) = poke_permitted d m := by
    apply poke_permitted_congr _ _ _ h1 h2
    intro w
    rw [h3]
    split
    · rw [writel_relaxed_io, if_neg]
      intro hc
      exact hoff hc.2.1.symm
    · rfl
  rw [k3, hperm, h1]
  cases hp : poke_permitted d m
  · simp
  · simp only [if_true]
    funext b r w
    rw [writel_relaxed_io, h3, hp, if_pos rfl, writel_relaxed_io]
    split
    · exact written_idem _ _ _
    · rfl

/-- The enable bits after a permitted write of the source's bit to the
enable-clear register. -/
theorem enable_bit_after_clear (d : irq_data) (m m' : Machine) (base : Nat)
    (h : m'.io = (writel_relaxed (u32 (1 <<< ((gic_irq d) % 32))) base GIC_DIST_ENABLE_CLEAR
      ((gic_irq d) / 32) m).io) (b irq : Nat) :
    enable_bit m' b irq = if b = base ∧ irq = (gic_irq d) then false else enable_bit m b irq := by
  unfold enable_bit
  rw [h, writel_relaxed_io]
  by_cases hb : b = base
  · by_cases hw : irq / 32 = (gic_irq d) / 32
    · have hst : GIC_DIST_ENABLE_SET = GIC_DIST_ENABLE_CLEAR.store := rfl
      rw [if_pos ⟨hb, hst, hw⟩]
      simp only [Reg.written, Nat.testBit_and, testBit_not32, testBit_u32, testBit_one_shiftLeft]
      have hlt : irq % 32 < 32 := Nat.mod_lt _ (by norm_num)
      by_cases hi : irq = (gic_irq d)
      · subst hi; simp [hb, hlt]
      · have hne : ¬ ((gic_irq d) % 32 = irq % 32) := by omega
        simp [hi, hne, hlt]
    · have hi : irq ≠ (gic_irq d) := by intro hc; exact hw (by rw [hc])
      rw [if_neg (fun hc => hw hc.2.2), if_neg (fun hc => hi hc.2)]
  · rw [if_neg (fun hc => hb hc.1), if_neg (fun hc => hb hc.1)]

/-- The enable bits after a permitted write of the source's bit to the
enable-set register. -/
theorem enable_bit_after_set (d : irq_data) (m m' : Machine) (base : Nat)
    (h : m'.io = (writel_relaxed (u32 (1 <<< ((gic_irq d) % 32))) base GIC_DIST_ENABLE_SET
      ((gic_irq d) / 32) m).io) (b irq : Nat) :
    enable_bit m' b irq = if b = base ∧ irq = (gic_irq d) then true else enable_bit m b irq := by
  unfold enable_bit
  rw [h, writel_relaxed_io]
  by_cases hb : b = base
  · by_cases hw : irq / 32 = (gic_irq d) / 32
    · have hst : GIC_DIST_ENABLE_SET = GIC_DIST_ENABLE_SET.store := rfl
      rw [if_pos ⟨hb, hst, hw⟩]
      simp only [Reg.written, Nat.testBit_or, testBit_u32, testBit_one_shiftLeft]
      have hlt : irq % 32 < 32 := Nat.mod_lt _ (by norm_num)
      by_cases hi : irq = (gic_irq d)
      · subst hi; simp [hb, hlt]
      · have hne : ¬ ((gic_irq d) % 32 = irq % 32) := by omega
        simp [hi, hne, hlt]
    · have hi : irq ≠ (gic_irq d) := by intro hc; exact hw (by rw [hc])
      rw [if_neg (fun hc => hw hc.2.2), if_neg (fun hc => hi hc.2)]
  · rw [if_neg (fun hc => hb hc.1), if_neg (fun hc => hb hc.1)]

/-- C3, as the code has it. On an instance without per-CPU interfaces, for a
source (the hardware index as `gic_irq` returns it) whose target byte shares
no bit with the mask of `gic_get_cpumask`, `gic_mask_irq` and
`gic_unmask_irq` leave every register as it was and add no write to the
trace. On an instance with per-CPU interfaces the guard is not applied:
whatever the target byte holds, `gic_mask_irq` adds exactly one write, of the
source's bit to the enable-clear register, and the enable bit is clear
afterwards, and `gic_unmask_irq` adds exactly one write, of the source's bit
to the enable-set register, and the enable bit is set afterwards. -/
theorem gic_mask_unmask_guard (d : irq_data) (m : Machine) :
    ((m.gic_data d.chip_data).is_percpu = false →
      (readb_relaxed (gic_dist_base d m) GIC_DIST_TARGET (gic_irq d) m).1 &&&
        (gic_get_cpumask d.chip_data m).1 = 0 →
      (gic_mask_irq d m).io = m.io ∧
      writesOf (gic_mask_irq d m).trace = writesOf m.trace ∧
      (gic_unmask_irq d m).io = m.io ∧
      writesOf (gic_unmask_irq d m).trace = writesOf m.trace) ∧
    ((m.gic_data d.chip_data).is_percpu = true →
      (writesOf (gic_mask_irq d m).trace =
          writesOf m.trace ++
            [Event.write (m.gic_data d.chip_data).dist_base GIC_DIST_ENABLE_CLEAR
              (gic_irq d / 32) (1 <<< (gic_irq d % 32))] ∧
        enable_bit (gic_mask_irq d m) (m.gic_data d.chip_data).dist_base (gic_irq d) = false) ∧
      (writesOf (gic_unmask_irq d m).trace =
          writesOf m.trace ++
            [Event.write (m.gic_data d.chip_data).dist_base GIC_DIST_ENABLE_SET
              (gic_irq d / 32) (1 <<< (gic_irq d % 32))] ∧
        enable_bit (gic_unmask_irq d m) (m.gic_data d.chip_data).dist_base (gic_irq d) = true)) := by
  constructor
  · intro hp ht
    have hperm : poke_permitted d m = false := by
      unfold poke_permitted
      rw [hp, ht]
      simp
    have key : ∀ offset, (gic_poke_irq d offset m).io = m.io ∧
        writesOf (gic_poke_irq d offset m).trace = writesOf m.trace := by
      intro offset
      obtain ⟨_, _, h3, evs, h4, h5⟩ := gic_poke_irq_effect d offset m
      rw [hperm] at h3 h5
      refine ⟨by simpa using h3, ?_⟩
      rw [h5]
      simp only [writesOf, List.filter_append] at h4 ⊢
      rw [h4]
      simp
    exact ⟨(key _).1, (key _).2, (key _).1, (key _).2⟩
  · intro hp
    have hperm : poke_permitted d m = true := by
      unfold poke_permitted
      rw [hp]
      rfl
    have key : ∀ offset, writesOf (gic_poke_irq d offset m).trace =
        writesOf m.trace ++
          [Event.write (m.gic_data d.chip_data).dist_base offset (gic_irq d / 32)
            (1 <<< (gic_irq d % 32))] := by
      intro offset
      obtain ⟨_, _, _, evs, h4, h5⟩ := gic_poke_irq_effect d offset m
      rw [hperm, if_pos rfl] at h5
      rw [h5]
      simp only [writesOf, List.filter_append] at h4 ⊢
      rw [h4, u32_one_shiftLeft_mod]
      simp [Event.isWrite]
    have h3c := (gic_poke_irq_effect d GIC_DIST_ENABLE_CLEAR m).2.2.1
    have h3s := (gic_poke_irq_effect d GIC_DIST_ENABLE_SET m).2.2.1
    rw [hperm, if_pos rfl] at h3c h3s
    refine ⟨⟨key _, ?_⟩, ⟨key _, ?_⟩⟩
    · rw [enable_bit_after_clear d m (gic_mask_irq d m) _ h3c, if_pos ⟨rfl, rfl⟩]
    · rw [enable_bit_after_set d m (gic_unmask_irq d m) _ h3s, if_pos ⟨rfl, rfl⟩]

/-- Witness of the guard theorem: source 32 of the example satellite
instance, routed to interface 1 while the probing CPU is interface 0. -/
theorem gic_mask_unmask_guard_witness :
    ((exampleMachine guardExampleIo).gic_data 1).is_percpu = false ∧
    (readb_relaxed (gic_dist_base ⟨32, 1, 0, false⟩ (exampleMachine guardExampleIo))
        GIC_DIST_TARGET (gic_irq ⟨32, 1, 0, false⟩) (exampleMachine guardExampleIo)).1 &&&
      (gic_get_cpumask 1 (exampleMachine guardExampleIo)).1 = 0 ∧
    ((gic_mask_irq ⟨32, 1, 0, false⟩ (exampleMachine guardExampleIo)).io =
        (exampleMachine guardExampleIo).io ∧
      writesOf (gic_mask_irq ⟨32, 1, 0, false⟩ (exampleMachine guardExampleIo)).trace =
        writesOf (exampleMachine guardExampleIo).trace ∧
      (gic_unmask_irq ⟨32, 1, 0, false⟩ (exampleMachine guardExampleIo)).io =
        (exampleMachine guardExampleIo).io ∧
      writesOf (gic_unmask_irq ⟨32, 1, 0, false⟩ (exampleMachine guardExampleIo)).trace =
        writesOf (exampleMachine guardExampleIo).trace) :=
  ⟨by decide, by decide,
    (gic_mask_unmask_guard ⟨32, 1, 0, false⟩ (exampleMachine guardExampleIo)).1 (by decide)
      (by decide)⟩

/-- C3 as stated fails on an instance with per-CPU interfaces: source 32 of
the example primary instance is routed to interface 1 only, the probing CPU
is interface 0, and `gic_mask_irq` still writes the enable-clear register and
clears the enable bit. -/
theorem gic_mask_irq_guard_counterexample :
    ((exampleMachine guardExampleIo).gic_data 0).is_percpu = true ∧
    (readb_relaxed (gic_dist_base ⟨32, 0, 0, false⟩ (exampleMachine guardExampleIo))
        GIC_DIST_TARGET (gic_irq ⟨32, 0, 0, false⟩) (exampleMachine guardExampleIo)).1 &&&
      (gic_get_cpumask 0 (exampleMachine guardExampleIo)).1 = 0 ∧
    enable_bit (exampleMachine guardExampleIo) 1 32 = true ∧
    enable_bit (gic_mask_irq ⟨32, 0, 0, false⟩ (exampleMachine guardExampleIo)) 1 32 = false ∧
    writesOf (gic_mask_irq ⟨32, 0, 0, false⟩ (exampleMachine guardExampleIo)).trace =
      [Event.write 1 GIC_DIST_ENABLE_CLEAR 1 1] := by
  decide

/-! ## Idempotence of mask and unmask -/

/-- C6: when the targeting guard lets the write through, a second
`gic_mask_irq` leaves the registers as the first one left them, the enable
bit of the source (the hardware index as `gic_irq` returns it, an
`unsigned int`) is clear after it, and the enable bit of every other source
(of this and of every other distributor) is what it was; likewise for
`gic_unmask_irq`, after which the source's enable bit is set. -/
theorem gic_mask_unmask_idempotent (d : irq_data) (m : Machine)
    (h : poke_permitted d m = true) :
    ((gic_mask_irq d (gic_mask_irq d m)).io = (gic_mask_irq d m).io ∧
      enable_bit (gic_mask_irq d m) (m.gic_data d.chip_data).dist_base (gic_irq d) = false ∧
      ∀ b irq, ¬ (b = (m.gic_data d.chip_data).dist_base ∧ irq = (gic_irq d)) →
        enable_bit (gic_mask_irq d m) b irq = enable_bit m b irq) ∧
    ((gic_unmask_irq d (gic_unmask_irq d m)).io = (gic_unmask_irq d m).io ∧
      enable_bit (gic_unmask_irq d m) (m.gic_data d.chip_data).dist_base (gic_irq d) = true ∧
      ∀ b irq, ¬ (b = (m.gic_data d.chip_data).dist_base ∧ irq = (gic_irq d)) →
        enable_bit (gic_unmask_irq d m) b irq = enable_bit m b irq) := by
  constructor
  · have h3 := (gic_poke_irq_effect d GIC_DIST_ENABLE_CLEAR m).2.2.1
    rw [h, if_pos rfl] at h3
    refine ⟨gic_poke_irq_twice d _ m (by decide), ?_, ?_⟩
    · rw [enable_bit_after_clear d m (gic_mask_irq d m) _ h3, if_pos ⟨rfl, rfl⟩]
    · intro b irq hne
      rw [enable_bit_after_clear d m (gic_mask_irq d m) _ h3, if_neg hne]
  · have h3 := (gic_poke_irq_effect d GIC_DIST_ENABLE_SET m).2.2.1
    rw [h, if_pos rfl] at h3
    refine ⟨gic_poke_irq_twice d _ m (by decide), ?_, ?_⟩
    · rw [enable_bit_after_set d m (gic_unmask_irq d m) _ h3, if_pos ⟨rfl, rfl⟩]
    · intro b irq hne
      rw [enable_bit_after_set d m (gic_unmask_irq d m) _ h3, if_neg hne]

/-- Witness of C6: source 32 of the example primary instance. -/
theorem gic_mask_unmask_idempotent_witness :
    poke_permitted ⟨32, 0, 0, false⟩ (exampleMachine guardExampleIo) = true ∧
    (((gic_mask_irq ⟨32, 0, 0, false⟩
          (gic_mask_irq ⟨32, 0, 0, false⟩ (exampleMachine guardExampleIo))).io =
        (gic_mask_irq ⟨32, 0, 0, false⟩ (exampleMachine guardExampleIo)).io ∧
      enable_bit (gic_mask_irq ⟨32, 0, 0, false⟩ (exampleMachine guardExampleIo))
        ((exampleMachine guardExampleIo).gic_data 0).dist_base 32 = false ∧
      ∀ b irq, ¬ (b = ((exampleMachine guardExampleIo).gic_data 0).dist_base ∧ irq = 32) →
        enable_bit (gic_mask_irq ⟨32, 0, 0, false⟩ (exampleMachine guardExampleIo)) b irq =
          enable_bit (exampleMachine guardExampleIo) b irq) ∧
    ((gic_unmask_irq ⟨32, 0, 0, false⟩
          (gic_unmask_irq ⟨32, 0, 0, false⟩ (exampleMachine guardExampleIo))).io =
        (gic_unmask_irq ⟨32, 0, 0, false⟩ (exampleMachine guardExampleIo)).io ∧
      enable_bit (gic_unmask_irq ⟨32, 0, 0, false⟩ (exampleMachine guardExampleIo))
        ((exampleMachine guardExampleIo).gic_data 0).dist_base 32 = true ∧
      ∀ b irq, ¬ (b = ((exampleMachine guardExampleIo).gic_data 0).dist_base ∧ irq = 32) →
        enable_bit (gic_unmask_irq ⟨32, 0, 0, false⟩ (exampleMachine guardExampleIo)) b irq =
          enable_bit (exampleMachine guardExampleIo) b irq)) :=
  ⟨by decide,
    gic_mask_unmask_idempotent ⟨32, 0, 0, false⟩ (exampleMachine guardExampleIo) (by decide)⟩

/-! ## Masking in split EOI/deactivate mode -/

/-- The active bits after a write of the source's bit to the active-clear
register. -/
theorem active_bit_after_clear (d : irq_data) (m m' : Machine) (base : Nat)
    (h : m'.io = (writel_relaxed (u32 (1 <<< ((gic_irq d) % 32))) base GIC_DIST_ACTIVE_CLEAR
      ((gic_irq d) / 32) m).io) (b irq : Nat) :
    active_bit m' b irq = if b = base ∧ irq = (gic_irq d) then false else active_bit m b irq := by
  unfold active_bit
  rw [h, writel_relaxed_io]
  by_cases hb : b = base
  · by_cases hw : irq / 32 = (gic_irq d) / 32
    · have hst : GIC_DIST_ACTIVE_SET = GIC_DIST_ACTIVE_CLEAR.store := rfl
      rw [if_pos ⟨hb, hst, hw⟩]
      simp only [Reg.written, Nat.testBit_and, testBit_not32, testBit_u32, testBit_one_shiftLeft]
      have hlt : irq % 32 < 32 := Nat.mod_lt _ (by norm_num)
      by_cases hi : irq = (gic_irq d)
      · subst hi; simp [hb, hlt]
      · have hne : ¬ ((gic_irq d) % 32 = irq % 32) := by omega
        simp [hi, hne, hlt]
    · have hi : irq ≠ (gic_irq d) := by intro hc; exact hw (by rw [hc])
      rw [if_neg (fun hc => hw hc.2.2), if_neg (fun hc => hi hc.2)]
  · rw [if_neg (fun hc => hb hc.1), if_neg (fun hc => hb hc.1)]

/-- C8, as the code has it. When the targeting guard of `gic_poke_irq` lets
the write through, `gic_eoimode1_mask_irq` on a source (the hardware index as
`gic_irq` returns it) marked forwarded-to-guest writes the source's bit to
the enable-clear register and then to the active-clear register, and both
bits are clear afterwards; on a source not so marked it writes the
enable-clear register only, the enable bit is clear afterwards and every
active bit is what it was. When the guard suppresses the write, whether the
source is marked or not, every register is what it was and no write is added
to the trace. On an instance with per-CPU interfaces the guard always lets
the write through. -/
theorem gic_eoimode1_mask_irq_effect (d : irq_data) (m : Machine) :
    (poke_permitted d m = true →
      (d.forwarded_to_vcpu = true →
        writesOf (gic_eoimode1_mask_irq d m).trace =
          writesOf m.trace ++
            [Event.write (m.gic_data d.chip_data).dist_base GIC_DIST_ENABLE_CLEAR ((gic_irq d) / 32)
                (1 <<< ((gic_irq d) % 32)),
              Event.write (m.gic_data d.chip_data).dist_base GIC_DIST_ACTIVE_CLEAR ((gic_irq d) / 32)
                (1 <<< ((gic_irq d) % 32))] ∧
        enable_bit (gic_eoimode1_mask_irq d m) (m.gic_data d.chip_data).dist_base (gic_irq d) = false ∧
        active_bit (gic_eoimode1_mask_irq d m) (m.gic_data d.chip_data).dist_base (gic_irq d) = false) ∧
      (d.forwarded_to_vcpu = false →
        writesOf (gic_eoimode1_mask_irq d m).trace =
          writesOf m.trace ++
            [Event.write (m.gic_data d.chip_data).dist_base GIC_DIST_ENABLE_CLEAR ((gic_irq d) / 32)
                (1 <<< ((gic_irq d) % 32))] ∧
        enable_bit (gic_eoimode1_mask_irq d m) (m.gic_data d.chip_data).dist_base (gic_irq d) = false ∧
        ∀ b irq, active_bit (gic_eoimode1_mask_irq d m) b irq = active_bit m b irq)) ∧
    (poke_permitted d m = false →
      (gic_eoimode1_mask_irq d m).io = m.io ∧
      writesOf (gic_eoimode1_mask_irq d m).trace = writesOf m.trace) ∧
    ((m.gic_data d.chip_data).is_percpu = true → poke_permitted d m = true) := by
  refine ⟨?_, ?_, ?_⟩
  · intro h
    obtain ⟨h1, h2, h3, evs, h4, h5⟩ := gic_poke_irq_effect d GIC_DIST_ENABLE_CLEAR m
    rw [h, if_pos rfl] at h3
    rw [h, if_pos rfl] at h5
    have hw1 : writesOf (gic_poke_irq d GIC_DIST_ENABLE_CLEAR m).trace =
        writesOf m.trace ++
          [Event.write (m.gic_data d.chip_data).dist_base GIC_DIST_ENABLE_CLEAR ((gic_irq d) / 32)
            (1 <<< ((gic_irq d) % 32))] := by
      rw [h5]
      simp only [writesOf, List.filter_append] at h4 ⊢
      rw [h4, u32_one_shiftLeft_mod]
      simp [Event.isWrite]
    have hen : enable_bit (gic_poke_irq d GIC_DIST_ENABLE_CLEAR m)
        (m.gic_data d.chip_data).dist_base (gic_irq d) = false := by
      rw [enable_bit_after_clear d m _ _ h3, if_pos ⟨rfl, rfl⟩]
    constructor
    · intro hf
      have hperm : poke_permitted d (gic_poke_irq d GIC_DIST_ENABLE_CLEAR m) = true := by
        rw [← h]
        apply poke_permitted_congr _ _ _ h1 h2
        intro w
        rw [h3, writel_relaxed_io, if_neg]
        intro hc
        exact absurd hc.2.1 (by decide)
      obtain ⟨_, _, k3, evs', k4, k5⟩ :=
        gic_poke_irq_effect d GIC_DIST_ACTIVE_CLEAR (gic_poke_irq d GIC_DIST_ENABLE_CLEAR m)
      rw [hperm, if_pos rfl, h1] at k3
      rw [hperm, if_pos rfl, h1] at k5
      simp only [gic_eoimode1_mask_irq, gic_mask_irq, hf, if_true]
      refine ⟨?_, ?_, ?_⟩
      · rw [k5]
        simp only [writesOf, List.filter_append] at k4 hw1 ⊢
        rw [k4, hw1, u32_one_shiftLeft_mod]
        simp [Event.isWrite]
      · unfold enable_bit at hen ⊢
        rw [k3, writel_relaxed_io, if_neg]
        · exact hen
        · intro hc
          exact absurd hc.2.1 (by decide)
      · rw [active_bit_after_clear d _ _ _ k3, if_pos ⟨rfl, rfl⟩]
    · intro hf
      simp only [gic_eoimode1_mask_irq, gic_mask_irq, hf, Bool.false_eq_true, if_false]
      refine ⟨hw1, hen, ?_⟩
      intro b irq
      unfold active_bit
      rw [h3, writel_relaxed_io, if_neg]
      intro hc
      exact absurd hc.2.1 (by decide)
  · intro h
    obtain ⟨h1, h2, h3, evs, h4, h5⟩ := gic_poke_irq_effect d GIC_DIST_ENABLE_CLEAR m
    rw [h] at h3 h5
    have h3' : (gic_poke_irq d GIC_DIST_ENABLE_CLEAR m).io = m.io := by simpa using h3
    have hw1 : writesOf (gic_poke_irq d GIC_DIST_ENABLE_CLEAR m).trace = writesOf m.trace := by
      rw [h5]
      simp only [writesOf, List.filter_append] at h4 ⊢
      rw [h4]
      simp
    have hperm : poke_permitted d (gic_poke_irq d GIC_DIST_ENABLE_CLEAR m) = false := by
      rw [← h]
      apply poke_permitted_congr _ _ _ h1 h2
      intro w
      rw [h3']
    obtain ⟨_, _, k3, evs', k4, k5⟩ :=
      gic_poke_irq_effect d GIC_DIST_ACTIVE_CLEAR (gic_poke_irq d GIC_DIST_ENABLE_CLEAR m)
    rw [hperm] at k3 k5
    have k3' : (gic_poke_irq d GIC_DIST_ACTIVE_CLEAR (gic_poke_irq d GIC_DIST_ENABLE_CLEAR m)).io =
        m.io := by
      rw [← h3']
      simpa using k3
    have hw2 : writesOf
        (gic_poke_irq d GIC_DIST_ACTIVE_CLEAR (gic_poke_irq d GIC_DIST_ENABLE_CLEAR m)).trace =
        writesOf m.trace := by
      rw [k5, ← hw1]
      simp only [writesOf, List.filter_append] at k4 ⊢
      rw [k4]
      simp
    cases hf : d.forwarded_to_vcpu
    · simp only [gic_eoimode1_mask_irq, gic_mask_irq, hf, Bool.false_eq_true, if_false]
      exact ⟨h3', hw1⟩
    · simp only [gic_eoimode1_mask_irq, gic_mask_irq, hf, if_true]
      exact ⟨k3', hw2⟩
  · intro hp
    unfold poke_permitted
    rw [hp]
    rfl

/-- Witness of the split-mode masking theorem: source 32 of the example
primary instance. -/
theorem gic_eoimode1_mask_irq_effect_witness :
    poke_permitted ⟨32, 0, 0, true⟩ (exampleMachine guardExampleIo) = true ∧
    writesOf (gic_eoimode1_mask_irq ⟨32, 0, 0, true⟩ (exampleMachine guardExampleIo)).trace =
      writesOf (exampleMachine guardExampleIo).trace ++
        [Event.write ((exampleMachine guardExampleIo).gic_data 0).dist_base GIC_DIST_ENABLE_CLEAR
            (gic_irq ⟨32, 0, 0, true⟩ / 32) (1 <<< (gic_irq ⟨32, 0, 0, true⟩ % 32)),
          Event.write ((exampleMachine guardExampleIo).gic_data 0).dist_base GIC_DIST_ACTIVE_CLEAR
            (gic_irq ⟨32, 0, 0, true⟩ / 32) (1 <<< (gic_irq ⟨32, 0, 0, true⟩ % 32))] ∧
    enable_bit (gic_eoimode1_mask_irq ⟨32, 0, 0, true⟩ (exampleMachine guardExampleIo))
      ((exampleMachine guardExampleIo).gic_data 0).dist_base (gic_irq ⟨32, 0, 0, true⟩) = false ∧
    active_bit (gic_eoimode1_mask_irq ⟨32, 0, 0, true⟩ (exampleMachine guardExampleIo))
      ((exampleMachine guardExampleIo).gic_data 0).dist_base (gic_irq ⟨32, 0, 0, true⟩) = false :=
  ⟨by decide,
    ((gic_eoimode1_mask_irq_effect ⟨32, 0, 0, true⟩ (exampleMachine guardExampleIo)).1
      (by decide)).1 rfl⟩

/-- C8 as stated fails where the targeting guard suppresses the write: the
primary instance has no per-CPU interfaces, its source 32 is marked
forwarded-to-guest and routed to interface 1 only; `gic_eoimode1_mask_irq`
run by the CPU of interface 0 writes no register and the enable and active
bits stay set. -/
theorem gic_eoimode1_mask_irq_counterexample :
    (acpiExampleMachine guardExampleIo).supports_deactivate = true ∧
    enable_bit (acpiExampleMachine guardExampleIo) 1 32 = true ∧
    active_bit (acpiExampleMachine guardExampleIo) 1 32 = true ∧
    writesOf (gic_eoimode1_mask_irq ⟨32, 0, 0, true⟩ (acpiExampleMachine guardExampleIo)).trace =
      [] ∧
    enable_bit (gic_eoimode1_mask_irq ⟨32, 0, 0, true⟩ (acpiExampleMachine guardExampleIo)) 1 32 =
      true ∧
    active_bit (gic_eoimode1_mask_irq ⟨32, 0, 0, true⟩ (acpiExampleMachine guardExampleIo)) 1 32 =
      true := by
  decide

/-! ## Affinity -/

theorem testBit_0xff (j : Nat) : (0xff : Nat).testBit j = decide (j < 8) := by
  have h : (0xff : Nat) = 2 ^ 8 - 1 := by norm_num
  rw [h, Nat.testBit_two_pow_sub_one]

/-- Bits of a word whose byte `q` was replaced as `gic_set_affinity` does. -/
theorem replace_byte_testBit (old mapv q k j : Nat) (hk : k < 4) (hj : j < 8) :
    (u32 ((u32 old &&& not32 (u32 (0xff <<< (q * 8)))) ||| u32 (u8 mapv <<< (q * 8)))).testBit
        (8 * k + j) =
      if k = q then mapv.testBit j else old.testBit (8 * k + j) := by
  have hp : 8 * k + j < 32 := by omega
  simp only [testBit_u32, Nat.testBit_or, Nat.testBit_and, testBit_not32, Nat.testBit_shiftLeft,
    testBit_u8, testBit_0xff, hp, decide_True, Bool.true_and]
  by_cases hkq : k = q
  · subst hkq
    have h1 : 8 * k + j ≥ k * 8 := by omega
    have h2 : 8 * k + j - k * 8 = j := by omega
    simp [h1, h2, hj]
  · rw [if_neg hkq]
    by_cases hge : 8 * k + j ≥ q * 8
    · have h3 : ¬ (8 * k + j - q * 8 < 8) := by omega
      simp [hge, h3]
    · simp [hge]

theorem byteOf_testBit (w k j : Nat) :
    (byteOf w k).testBit j = (decide (j < 8) && w.testBit (8 * k + j)) := by
  unfold byteOf
  rw [testBit_u8, Nat.testBit_shiftRight]

/-- C9: with `cpu` the CPU selected from the set and `irq` the hardware
index as `gic_irq` returns it (an `unsigned int`), `gic_set_affinity` returns
`-EINVAL` and leaves the machine untouched when `cpu >= 8` or
`cpu >= nr_cpu_ids`; otherwise it returns `IRQ_SET_MASK_OK`, leaves the
machine untouched on an instance without per-CPU interfaces, and on an
instance with per-CPU interfaces reads the target word of `irq` and writes it
back with the byte of `irq` replaced by `gic_cpu_map[cpu]` (a `u8`), the three
other bytes as they were, and every other register as it was. -/
theorem gic_set_affinity_effect (d : irq_data) (mask_val : Nat → Bool) (force : Bool)
    (m : Machine) :
    ((selected_cpu mask_val force m ≥ 8 ∨ selected_cpu mask_val force m ≥ m.nr_cpu_ids) →
      gic_set_affinity d mask_val force m = (-EINVAL, m)) ∧
    (¬ (selected_cpu mask_val force m ≥ 8 ∨ selected_cpu mask_val force m ≥ m.nr_cpu_ids) →
      (gic_set_affinity d mask_val force m).1 = 0 ∧
      ((m.gic_data d.chip_data).is_percpu = false →
        (gic_set_affinity d mask_val force m).2 = m) ∧
      ((m.gic_data d.chip_data).is_percpu = true →
        (gic_set_affinity d mask_val force m).2.trace =
          m.trace ++
            [Event.read (m.gic_data d.chip_data).dist_base GIC_DIST_TARGET ((gic_irq d) / 4),
              Event.write (m.gic_data d.chip_data).dist_base GIC_DIST_TARGET ((gic_irq d) / 4)
                ((gic_set_affinity d mask_val force m).2.io (m.gic_data d.chip_data).dist_base
                  GIC_DIST_TARGET ((gic_irq d) / 4))] ∧
        byteOf ((gic_set_affinity d mask_val force m).2.io (m.gic_data d.chip_data).dist_base
            GIC_DIST_TARGET ((gic_irq d) / 4)) ((gic_irq d) % 4) =
          u8 (m.gic_cpu_map (selected_cpu mask_val force m)) ∧
        (∀ k, k < 4 → k ≠ (gic_irq d) % 4 →
          byteOf ((gic_set_affinity d mask_val force m).2.io (m.gic_data d.chip_data).dist_base
              GIC_DIST_TARGET ((gic_irq d) / 4)) k =
            byteOf (m.io (m.gic_data d.chip_data).dist_base GIC_DIST_TARGET ((gic_irq d) / 4)) k) ∧
        (∀ b r w, ¬ (b = (m.gic_data d.chip_data).dist_base ∧ r = GIC_DIST_TARGET ∧
            w = (gic_irq d) / 4) →
          (gic_set_affinity d mask_val force m).2.io b r w = m.io b r w))) := by
  have hsel : (if !force then cpumask_any_and m.nr_cpu_ids mask_val m.cpu_online_mask
      else cpumask_first m.nr_cpu_ids mask_val) = selected_cpu mask_val force m := by
    unfold selected_cpu
    cases force <;> rfl
  unfold gic_set_affinity
  simp only [hsel, gic_dist_base, NR_GIC_CPU_IF]
  constructor
  · intro h
    rw [if_pos h]
  · intro h
    rw [if_neg h]
    cases hp : (m.gic_data d.chip_data).is_percpu
    · simp [IRQ_SET_MASK_OK]
    · simp only [Bool.not_true, Bool.false_eq_true, if_false, IRQ_SET_MASK_OK, true_and,
        false_implies, forall_true_left]
      have hio : ∀ b r w,
          (writel_relaxed
            ((readl_relaxed (m.gic_data d.chip_data).dist_base GIC_DIST_TARGET ((gic_irq d) / 4) m).1
                &&& not32 (u32 (0xff <<< ((gic_irq d) % 4 * 8))) |||
              u32 (u8 (m.gic_cpu_map (selected_cpu mask_val force m)) <<< ((gic_irq d) % 4 * 8)))
            (m.gic_data d.chip_data).dist_base GIC_DIST_TARGET ((gic_irq d) / 4)
            (readl_relaxed (m.gic_data d.chip_data).dist_base GIC_DIST_TARGET
              ((gic_irq d) / 4) m).2).io b r w =
          if b = (m.gic_data d.chip_data).dist_base ∧ r = GIC_DIST_TARGET ∧ w = (gic_irq d) / 4 then
            u32 ((u32 (m.io (m.gic_data d.chip_data).dist_base GIC_DIST_TARGET ((gic_irq d) / 4))
                &&& not32 (u32 (0xff <<< ((gic_irq d) % 4 * 8)))) |||
              u32 (u8 (m.gic_cpu_map (selected_cpu mask_val force m)) <<< ((gic_irq d) % 4 * 8)))
          else m.io b r w := by
        intro b r w
        rw [writel_relaxed_io, readl_relaxed_val _ _ _ _ (by decide), readl_relaxed_io]
        rfl
      refine ⟨fun hc => absurd hc (by decide), ?_, ?_, ?_, ?_⟩
      · rw [writel_relaxed_trace, readl_relaxed_trace, hio, if_pos ⟨rfl, rfl, rfl⟩,
          readl_relaxed_val _ _ _ _ (by decide)]
        simp [Reg.store]
      · rw [hio, if_pos ⟨rfl, rfl, rfl⟩]
        apply Nat.eq_of_testBit_eq
        intro j
        rw [byteOf_testBit, testBit_u8]
        by_cases hj : j < 8
        · rw [replace_byte_testBit _ _ _ _ _ (Nat.mod_lt _ (by norm_num)) hj, if_pos rfl]
        · simp [hj]
      · intro k hk hne
        rw [hio, if_pos ⟨rfl, rfl, rfl⟩]
        apply Nat.eq_of_testBit_eq
        intro j
        rw [byteOf_testBit, byteOf_testBit]
        by_cases hj : j < 8
        · rw [replace_byte_testBit _ _ _ _ _ hk hj, if_neg hne]
        · simp [hj]
      · intro b r w hne
        rw [hio, if_neg hne]

/-! ## The claim loop -/

theorem readl_relaxed_claim (b w : Nat) (m : Machine) :
    (readl_relaxed b GIC_CPU_INTACK w m).1 = u32 (m.intack b (m.intack_pos b)) ∧
    (readl_relaxed b GIC_CPU_INTACK w m).2.intack_pos b = m.intack_pos b + 1 := by
  unfold readl_relaxed
  simp

theorem gic_handle_irq_succ (fuel : Nat) (m : Machine) :
    gic_handle_irq (fuel + 1) m =
      if (readl_relaxed (m.gic_data 0).cpu_base GIC_CPU_INTACK 0 m).1 &&& GICC_IAR_INT_ID_MASK > 15 ∧
          (readl_relaxed (m.gic_data 0).cpu_base GIC_CPU_INTACK 0 m).1 &&& GICC_IAR_INT_ID_MASK
            < 1021 then
        gic_handle_irq fuel
          (handle_domain_irq
            ((readl_relaxed (m.gic_data 0).cpu_base GIC_CPU_INTACK 0 m).1 &&& GICC_IAR_INT_ID_MASK)
            (if (readl_relaxed (m.gic_data 0).cpu_base GIC_CPU_INTACK 0 m).2.supports_deactivate then
              writel_relaxed (readl_relaxed (m.gic_data 0).cpu_base GIC_CPU_INTACK 0 m).1
                (m.gic_data 0).cpu_base GIC_CPU_EOI 0
                (readl_relaxed (m.gic_data 0).cpu_base GIC_CPU_INTACK 0 m).2
            else (readl_relaxed (m.gic_data 0).cpu_base GIC_CPU_INTACK 0 m).2))
      else if (readl_relaxed (m.gic_data 0).cpu_base GIC_CPU_INTACK 0 m).1 &&& GICC_IAR_INT_ID_MASK
          < 16 then
        gic_handle_irq fuel
          (handle_IPI
            ((readl_relaxed (m.gic_data 0).cpu_base GIC_CPU_INTACK 0 m).1 &&& GICC_IAR_INT_ID_MASK)
            (if (writel_relaxed (readl_relaxed (m.gic_data 0).cpu_base GIC_CPU_INTACK 0 m).1
                (m.gic_data 0).cpu_base GIC_CPU_EOI 0
                (readl_relaxed (m.gic_data 0).cpu_base GIC_CPU_INTACK 0 m).2).supports_deactivate then
              writel_relaxed (readl_relaxed (m.gic_data 0).cpu_base GIC_CPU_INTACK 0 m).1
                (m.gic_data 0).cpu_base GIC_CPU_DEACTIVATE 0
                (writel_relaxed (readl_relaxed (m.gic_data 0).cpu_base GIC_CPU_INTACK 0 m).1
                  (m.gic_data 0).cpu_base GIC_CPU_EOI 0
                  (readl_relaxed (m.gic_data 0).cpu_base GIC_CPU_INTACK 0 m).2)
            else
              writel_relaxed (readl_relaxed (m.gic_data 0).cpu_base GIC_CPU_INTACK 0 m).1
                (m.gic_data 0).cpu_base GIC_CPU_EOI 0
                (readl_relaxed (m.gic_data 0).cpu_base GIC_CPU_INTACK 0 m).2))
      else some (readl_relaxed (m.gic_data 0).cpu_base GIC_CPU_INTACK 0 m).2 := rfl

/-- One iteration of the claim loop on a value whose ID is below 1021: the
loop goes on from a machine that has done one claim read and one handler
call. -/
theorem gic_handle_irq_step (fuel : Nat) (m : Machine)
    (h : claim_id (m.intack (m.gic_data 0).cpu_base (m.intack_pos (m.gic_data 0).cpu_base)) < 1021) :
    ∃ m2 evs, gic_handle_irq (fuel + 1) m = gic_handle_irq fuel m2 ∧
      m2.gic_data = m.gic_data ∧ m2.intack = m.intack ∧
      m2.intack_pos (m.gic_data 0).cpu_base = m.intack_pos (m.gic_data 0).cpu_base + 1 ∧
      m2.trace = m.trace ++ evs ∧
      dispatchesOf evs =
        [dispatch_of (m.intack (m.gic_data 0).cpu_base (m.intack_pos (m.gic_data 0).cpu_base))] ∧
      (evs.filter Event.isClaimRead).length = 1 := by
  obtain ⟨hv, hpos⟩ := readl_relaxed_claim (m.gic_data 0).cpu_base 0 m
  have hid : (readl_relaxed (m.gic_data 0).cpu_base GIC_CPU_INTACK 0 m).1 &&& GICC_IAR_INT_ID_MASK =
      claim_id (m.intack (m.gic_data 0).cpu_base (m.intack_pos (m.gic_data 0).cpu_base)) := by
    rw [hv]; simp [claim_id, u32]
  rw [gic_handle_irq_succ]
  simp only [hid]
  by_cases h15 : 15 < claim_id
      (m.intack (m.gic_data 0).cpu_base (m.intack_pos (m.gic_data 0).cpu_base))
  · rw [if_pos ⟨h15, h⟩]
    cases hsd : m.supports_deactivate
    · refine ⟨_, [Event.read (m.gic_data 0).cpu_base GIC_CPU_INTACK 0,
        Event.handle_domain_irq (claim_id
          (m.intack (m.gic_data 0).cpu_base (m.intack_pos (m.gic_data 0).cpu_base)))],
        rfl, ?_, ?_, ?_, ?_, ?_, ?_⟩
      · simp [handle_domain_irq, hsd]
      · simp [handle_domain_irq, hsd]
      · simp [handle_domain_irq, hsd, hpos]
      · simp [handle_domain_irq, hsd]
      · simp [dispatchesOf, dispatch_of, h15, Event.isDispatch]
      · simp [Event.isClaimRead]
    · refine ⟨_, [Event.read (m.gic_data 0).cpu_base GIC_CPU_INTACK 0,
        Event.write (m.gic_data 0).cpu_base GIC_CPU_EOI 0
          (u32 (readl_relaxed (m.gic_data 0).cpu_base GIC_CPU_INTACK 0 m).1),
        Event.handle_domain_irq (claim_id
          (m.intack (m.gic_data 0).cpu_base (m.intack_pos (m.gic_data 0).cpu_base)))],
        rfl, ?_, ?_, ?_, ?_, ?_, ?_⟩
      · simp [handle_domain_irq, hsd]
      · simp [handle_domain_irq, hsd]
      · simp [handle_domain_irq, hsd, hpos]
      · simp [handle_domain_irq, hsd]
      · simp [dispatchesOf, dispatch_of, h15, Event.isDispatch]
      · simp [Event.isClaimRead]
  · rw [if_neg (fun hc => h15 hc.1), if_pos (by omega)]
    cases hsd : m.supports_deactivate
    · refine ⟨_, [Event.read (m.gic_data 0).cpu_base GIC_CPU_INTACK 0,
        Event.write (m.gic_data 0).cpu_base GIC_CPU_EOI 0
          (u32 (readl_relaxed (m.gic_data 0).cpu_base GIC_CPU_INTACK 0 m).1),
        Event.handle_IPI (claim_id
          (m.intack (m.gic_data 0).cpu_base (m.intack_pos (m.gic_data 0).cpu_base)))],
        rfl, ?_, ?_, ?_, ?_, ?_, ?_⟩
      · simp [handle_IPI, hsd]
      · simp [handle_IPI, hsd]
      · simp [handle_IPI, hsd, hpos]
      · simp [handle_IPI, hsd]
      · simp [dispatchesOf, dispatch_of, h15, Event.isDispatch]
      · simp [Event.isClaimRead]
    · refine ⟨_, [Event.read (m.gic_data 0).cpu_base GIC_CPU_INTACK 0,
        Event.write (m.gic_data 0).cpu_base GIC_CPU_EOI 0
          (u32 (readl_relaxed (m.gic_data 0).cpu_base GIC_CPU_INTACK 0 m).1),
        Event.write (m.gic_data 0).cpu_base GIC_CPU_DEACTIVATE 0
          (u32 (readl_relaxed (m.gic_data 0).cpu_base GIC_CPU_INTACK 0 m).1),
        Event.handle_IPI (claim_id
          (m.intack (m.gic_data 0).cpu_base (m.intack_pos (m.gic_data 0).cpu_base)))],
        rfl, ?_, ?_, ?_, ?_, ?_, ?_⟩
      · simp [handle_IPI, hsd]
      · simp [handle_IPI, hsd]
      · simp [handle_IPI, hsd, hpos]
      · simp [handle_IPI, hsd]
      · simp [dispatchesOf, dispatch_of, h15, Event.isDispatch]
      · simp [Event.isClaimRead]

/-- The iteration of the claim loop that reads a spurious ID ends the loop. -/
theorem gic_handle_irq_stop (fuel : Nat) (m : Machine)
    (h : 1021 ≤ claim_id
      (m.intack (m.gic_data 0).cpu_base (m.intack_pos (m.gic_data 0).cpu_base))) :
    ∃ m', gic_handle_irq (fuel + 1) m = some m' ∧
      m'.intack_pos (m.gic_data 0).cpu_base = m.intack_pos (m.gic_data 0).cpu_base + 1 ∧
      m'.trace = m.trace ++ [Event.read (m.gic_data 0).cpu_base GIC_CPU_INTACK 0] := by
  obtain ⟨hv, hpos⟩ := readl_relaxed_claim (m.gic_data 0).cpu_base 0 m
  have hid : (readl_relaxed (m.gic_data 0).cpu_base GIC_CPU_INTACK 0 m).1 &&& GICC_IAR_INT_ID_MASK =
      claim_id (m.intack (m.gic_data 0).cpu_base (m.intack_pos (m.gic_data 0).cpu_base)) := by
    rw [hv]; simp [claim_id, u32]
  rw [gic_handle_irq_succ]
  simp only [hid]
  rw [if_neg (by omega), if_neg (by omega)]
  exact ⟨_, rfl, hpos, by simp⟩

/-- C2: when the claim register yields, from the current read position on,
`k` values with an ID below 1021 followed by a value with an ID of 1021 or
more, `gic_handle_irq` terminates (every fuel above `k` gives the same kind
of result), performs exactly `k + 1` claim reads, and calls exactly `k`
handlers, in order, one per earlier value: the generic handler with the ID
for an ID in 16..1020, the IPI handler with the ID for an ID in 0..15. -/
theorem gic_handle_irq_claim_loop (k : Nat) :
    ∀ (fuel : Nat) (m : Machine),
      1021 ≤ claim_id
        (m.intack (m.gic_data 0).cpu_base (m.intack_pos (m.gic_data 0).cpu_base + k)) →
      (∀ j, j < k → claim_id
        (m.intack (m.gic_data 0).cpu_base (m.intack_pos (m.gic_data 0).cpu_base + j)) < 1021) →
      k < fuel →
      ∃ m' evs, gic_handle_irq fuel m = some m' ∧
        m'.intack_pos (m.gic_data 0).cpu_base = m.intack_pos (m.gic_data 0).cpu_base + k + 1 ∧
        m'.trace = m.trace ++ evs ∧
        (evs.filter Event.isClaimRead).length = k + 1 ∧
        dispatchesOf evs = (List.range k).map (fun j =>
          dispatch_of
            (m.intack (m.gic_data 0).cpu_base (m.intack_pos (m.gic_data 0).cpu_base + j))) := by
  induction k with
  | zero =>
    intro fuel m hspur _ hfuel
    obtain ⟨f, rfl⟩ : ∃ f, fuel = f + 1 := ⟨fuel - 1, by omega⟩
    obtain ⟨m', h1, h2, h3⟩ := gic_handle_irq_stop f m (by simpa using hspur)
    exact ⟨m', _, h1, by simpa using h2, h3, by simp [Event.isClaimRead],
      by simp [dispatchesOf, Event.isDispatch]⟩
  | succ k ih =>
    intro fuel m hspur hreal hfuel
    obtain ⟨f, rfl⟩ : ∃ f, fuel = f + 1 := ⟨fuel - 1, by omega⟩
    obtain ⟨m2, evs0, e1, e2, e3, e4, e5, e6, e7⟩ :=
      gic_handle_irq_step f m (by simpa using hreal 0 (by omega))
    have hshift : ∀ j, m2.intack (m2.gic_data 0).cpu_base
        (m2.intack_pos (m2.gic_data 0).cpu_base + j) =
        m.intack (m.gic_data 0).cpu_base (m.intack_pos (m.gic_data 0).cpu_base + (j + 1)) := by
      intro j
      rw [e2, e3, e4]
      congr 1
      omega
    obtain ⟨m', evs, i1, i2, i3, i4, i5⟩ := ih f m2
      (by rw [hshift]; exact hspur)
      (fun j hj => by rw [hshift]; exact hreal (j + 1) (by omega))
      (by omega)
    refine ⟨m', evs0 ++ evs, by rw [e1, i1], ?_, ?_, ?_, ?_⟩
    · rw [← e2, i2, e2, e4]
      omega
    · rw [i3, e5, List.append_assoc]
    · rw [List.filter_append, List.length_append, e7, i4]
      omega
    · unfold dispatchesOf at e6 i5 ⊢
      rw [List.filter_append, e6, i5, List.range_succ_eq_map]
      simp only [List.map_cons, List.map_map, List.singleton_append, Nat.add_zero]
      congr 1
      apply List.map_congr_left
      intro j _
      exact congrArg dispatch_of (hshift j)

/-- Witness of C2, the sequence `[42, 7, 1023]`: three claim reads and two
handler calls, 42 to the generic handler and 7 to the IPI handler. -/
theorem gic_handle_irq_claim_loop_witness :
    ∃ m' evs, gic_handle_irq 3 (claimExampleMachine [42, 7, 1023]) = some m' ∧
      m'.intack_pos 2 = 3 ∧
      m'.trace = evs ∧
      (evs.filter Event.isClaimRead).length = 3 ∧
      dispatchesOf evs = [Event.handle_domain_irq 42, Event.handle_IPI 7] := by
  obtain ⟨m', evs, h1, h2, h3, h4, h5⟩ :=
    gic_handle_irq_claim_loop 2 3 (claimExampleMachine [42, 7, 1023]) (by decide)
      (by intro j hj; interval_cases j <;> decide) (by decide)
  exact ⟨m', evs, h1, h2, by simpa [claimExampleMachine, exampleMachine] using h3, h4, h5⟩

/-! ## Distributor save and restore -/

theorem upd_same {α : Type} (a : Nat → α) (i : Nat) (v : α) : upd a i v i = v := by
  simp [upd]

theorem upd_upd {α : Type} (a : Nat → α) (i : Nat) (v v' : α) :
    upd (upd a i v) i v' = upd a i v' := by
  funext j
  unfold upd
  split <;> rfl

theorem upd_self {α : Type} (a : Nat → α) (i : Nat) : upd a i (a i) = a := by
  funext j
  unfold upd
  split
  · next h => rw [h]
  · rfl

@[simp] theorem set_gic_io (m : Machine) (gic : Nat) (f : gic_chip_data → gic_chip_data) :
    (set_gic m gic f).io = m.io := rfl

@[simp] theorem set_gic_trace (m : Machine) (gic : Nat) (f : gic_chip_data → gic_chip_data) :
    (set_gic m gic f).trace = m.trace := rfl

@[simp] theorem set_gic_gic_data (m : Machine) (gic : Nat) (f : gic_chip_data → gic_chip_data) :
    (set_gic m gic f).gic_data = upd m.gic_data gic (f (m.gic_data gic)) := rfl

/-- A loop that writes one word of one register bank per iteration, the value
depending on the driver data only: the driver data are unchanged, word `w`
of the bank has received the write of `f w` for every `w < n`, and the trace
has grown by these writes in increasing order. -/
theorem write_loop_spec (base : Nat) (R : Reg) (n : Nat) (f : Nat → Machine → Nat)
    (hf : ∀ i (m1 m2 : Machine), m1.gic_data = m2.gic_data → f i m1 = f i m2) (m : Machine) :
    (write_loop base R n f m).gic_data = m.gic_data ∧
    (∀ b r w, (write_loop base R n f m).io b r w =
      if b = base ∧ r = R.store ∧ w < n then R.written (m.io b r w) (u32 (f w m))
      else m.io b r w) ∧
    (write_loop base R n f m).trace =
      m.trace ++ (List.range n).map (fun i => Event.write base R i (u32 (f i m))) := by
  unfold write_loop
  apply forLoop_induct (fun i m => writel_relaxed (f i m) base R i m)
    (fun i m' => m'.gic_data = m.gic_data ∧
      (∀ b r w, m'.io b r w =
        if b = base ∧ r = R.store ∧ w < i then R.written (m.io b r w) (u32 (f w m))
        else m.io b r w) ∧
      m'.trace = m.trace ++ (List.range i).map (fun i => Event.write base R i (u32 (f i m))))
    0 n m (Nat.zero_le _)
  · exact ⟨rfl, by intro b r w; simp, by simp⟩
  · intro i st _ _ ⟨h1, h2, h3⟩
    refine ⟨h1, ?_, ?_⟩
    · intro b r w
      rw [writel_relaxed_io, h2, hf i st m h1]
      by_cases hc : b = base ∧ r = R.store
      · by_cases hw : w = i
        · subst hw
          simp [hc]
        · have h4 : (w < i + 1) = (w < i) := by
            apply propext; constructor <;> intro h <;> omega
          simp only [hc, hw, and_false, and_self, true_and, if_false, h4]
      · have h5 : ∀ q : Prop, (b = base ∧ r = R.store ∧ q) = False := by
          intro q
          apply propext
          constructor
          · intro h; exact hc ⟨h.1, h.2.1⟩
          · intro h; exact h.elim
        simp only [h5, if_false]
    · rw [writel_relaxed_trace, h3, List.range_succ, List.map_append, hf i st m h1]
      simp

/-- A save loop: the registers are unchanged, the saved array of the
instance `tgt` holds the words below `n`, everything else in the driver data
is as before, and the trace has grown by the reads. -/
theorem save_loop_spec (base : Nat) (R : Reg) (hR : R ≠ GIC_CPU_INTACK) (n tgt : Nat)
    (get : gic_chip_data → Nat → Nat) (set : gic_chip_data → (Nat → Nat) → gic_chip_data)
    (hgs : ∀ g a, get (set g a) = a) (hsg : ∀ g, set g (get g) = g)
    (hss : ∀ g a a', set (set g a) a' = set g a') (m : Machine) :
    (save_loop base R n tgt get set m).io = m.io ∧
    (save_loop base R n tgt get set m).gic_data =
      upd m.gic_data tgt (set (m.gic_data tgt)
        (fun j => if j < n then u32 (m.io base R.store j) else get (m.gic_data tgt) j)) ∧
    (save_loop base R n tgt get set m).trace =
      m.trace ++ (List.range n).map (fun i => Event.read base R i) := by
  unfold save_loop
  apply forLoop_induct (fun i m =>
        set_gic (readl_relaxed base R i m).2 tgt
          (fun g => set g (upd (get g) i (readl_relaxed base R i m).1)))
    (fun i m' => m'.io = m.io ∧
      m'.gic_data = upd m.gic_data tgt (set (m.gic_data tgt)
        (fun j => if j < i then u32 (m.io base R.store j) else get (m.gic_data tgt) j)) ∧
      m'.trace = m.trace ++ (List.range i).map (fun i => Event.read base R i))
    0 n m (Nat.zero_le _)
  · refine ⟨rfl, ?_, by simp⟩
    simp only [Nat.not_lt_zero, if_false]
    rw [hsg, upd_self]
  · intro i st _ _ ⟨h1, h2, h3⟩
    refine ⟨by simp [h1], ?_, ?_⟩
    · have harr : upd (fun j => if j < i then u32 (m.io base R.store j)
            else get (m.gic_data tgt) j) i (u32 (m.io base R.store i)) =
          fun j => if j < i + 1 then u32 (m.io base R.store j) else get (m.gic_data tgt) j := by
        funext j
        unfold upd
        by_cases hj : j = i
        · subst hj
          simp
        · have h4 : (j < i + 1) = (j < i) := by
            apply propext; constructor <;> intro h <;> omega
          simp only [hj, if_false, h4]
      rw [set_gic_gic_data, readl_relaxed_gic_data, h2, upd_same, upd_upd, hgs, hss,
        readl_relaxed_val _ _ _ _ hR, h1, harr]
    · rw [set_gic_trace, readl_relaxed_trace, h3, List.range_succ, List.map_append]
      simp

/-- The enable loop of `gic_dist_restore` runs its body once: the inner loops
leave the shared index at `n`, so the outer loop ends with the index `n + 1`
after the clear register of word 0 only has been written. -/
theorem gic_dist_restore_enable_eq (gic dist_base n : Nat) (m : Machine) :
    gic_dist_restore_enable gic dist_base n 0 m =
      if 0 < n then
        (n + 1,
          write_loop dist_base GIC_DIST_ENABLE_SET n (fun i m => (m.gic_data gic).saved_spi_enable i)
            (write_loop dist_base GIC_DIST_IGROUP n (fun i m => (m.gic_data gic).saved_spi_group i)
              (writel_relaxed GICD_INT_EN_CLR_X32 dist_base GIC_DIST_ENABLE_CLEAR 0 m)))
      else (0, m) := by
  rw [gic_dist_restore_enable]
  by_cases hn : 0 < n
  · rw [if_pos hn, if_pos hn, gic_dist_restore_enable]
    have h1 : ∀ (body : Nat → Machine → Machine) (s : Machine),
        (forLoop 0 n body s).1 = n := by
      intro body s
      simp [forLoop]
    rw [h1, if_neg (by omega)]
    rfl
  · rw [if_neg hn, if_neg hn]

@[simp] theorem write_loop_gic_data (base : Nat) (R : Reg) (n : Nat) (f : Nat → Machine → Nat)
    (m : Machine) : (write_loop base R n f m).gic_data = m.gic_data := by
  unfold write_loop
  exact forLoop_induct (fun i m => writel_relaxed (f i m) base R i m)
    (fun _ m' => m'.gic_data = m.gic_data) 0 n m (Nat.zero_le _) rfl
    (fun i st _ _ h => by simpa using h)

@[simp] theorem save_loop_io (base : Nat) (R : Reg) (n tgt : Nat)
    (get : gic_chip_data → Nat → Nat) (set : gic_chip_data → (Nat → Nat) → gic_chip_data)
    (m : Machine) : (save_loop base R n tgt get set m).io = m.io := by
  unfold save_loop
  exact forLoop_induct (fun i m =>
      set_gic (readl_relaxed base R i m).2 tgt
        (fun g => set g (upd (get g) i (readl_relaxed base R i m).1)))
    (fun _ m' => m'.io = m.io) 0 n m (Nat.zero_le _) rfl
    (fun i st _ _ h => by simpa using h)

theorem and_not32_all (x : Nat) : x &&& not32 (u32 GICD_INT_EN_CLR_X32) = 0 := by
  have : not32 (u32 GICD_INT_EN_CLR_X32) = 0 := by decide
  rw [this, Nat.and_zero]

/-- The active loop of `gic_dist_restore`: every active word below `n` ends as
the saved word, whatever it held. -/
theorem gic_dist_restore_active_spec (gic base n : Nat) (m : Machine) :
    (gic_dist_restore_active gic base n m).gic_data = m.gic_data ∧
    (∀ b r w, (gic_dist_restore_active gic base n m).io b r w =
      if b = base ∧ r = GIC_DIST_ACTIVE_SET ∧ w < n then
        u32 ((m.gic_data gic).saved_spi_active w)
      else m.io b r w) := by
  unfold gic_dist_restore_active
  apply forLoop_induct (fun i m =>
      writel_relaxed
        ((writel_relaxed GICD_INT_EN_CLR_X32 base GIC_DIST_ACTIVE_CLEAR i m).gic_data gic
          |>.saved_spi_active i)
        base GIC_DIST_ACTIVE_SET i
        (writel_relaxed GICD_INT_EN_CLR_X32 base GIC_DIST_ACTIVE_CLEAR i m))
    (fun i m' => m'.gic_data = m.gic_data ∧
      (∀ b r w, m'.io b r w =
        if b = base ∧ r = GIC_DIST_ACTIVE_SET ∧ w < i then
          u32 ((m.gic_data gic).saved_spi_active w)
        else m.io b r w))
    0 n m (Nat.zero_le _)
  · exact ⟨rfl, by intro b r w; simp⟩
  · intro i st _ _ ⟨h1, h2⟩
    refine ⟨by simpa using h1, ?_⟩
    intro b r w
    simp only [writel_relaxed_io, writel_relaxed_gic_data, h1, h2, Reg.store, Reg.written]
    by_cases hc : b = base ∧ r = GIC_DIST_ACTIVE_SET
    · by_cases hw : w = i
      · subst hw
        simp [hc, and_not32_all]
      · have h4 : (w < i + 1) = (w < i) := by
          apply propext; constructor <;> intro h <;> omega
        simp only [hc, hw, and_false, and_self, true_and, if_false, h4]
    · have h5 : ∀ q : Prop, (b = base ∧ r = GIC_DIST_ACTIVE_SET ∧ q) = False := by
        intro q
        apply propext
        constructor
        · intro h; exact hc ⟨h.1, h.2.1⟩
        · intro h; exact h.elim
      simp only [h5, if_false]

/-- What `gic_dist_save` does on a mapped instance: it leaves the registers
alone, keeps the scalar fields of every instance, stores the config, target,
enable and group words in the arrays of the instance `gic`, and stores the
active words in the array of the instance `gic_data[0]`. -/
theorem gic_dist_save_spec (gic : Nat) (m : Machine) (hb : (m.gic_data gic).dist_base ≠ 0) :
    (gic_dist_save gic m).io = m.io ∧
    (∀ k, ((gic_dist_save gic m).gic_data k).dist_base = (m.gic_data k).dist_base ∧
      ((gic_dist_save gic m).gic_data k).gic_irqs = (m.gic_data k).gic_irqs ∧
      ((gic_dist_save gic m).gic_data k).fiq_enable = (m.gic_data k).fiq_enable) ∧
    (∀ i, ((gic_dist_save gic m).gic_data gic).saved_spi_conf i =
      if i < DIV_ROUND_UP (m.gic_data gic).gic_irqs 16 then
        u32 (m.io (m.gic_data gic).dist_base GIC_DIST_CONFIG i)
      else (m.gic_data gic).saved_spi_conf i) ∧
    (∀ i, ((gic_dist_save gic m).gic_data gic).saved_spi_target i =
      if i < DIV_ROUND_UP (m.gic_data gic).gic_irqs 4 then
        u32 (m.io (m.gic_data gic).dist_base GIC_DIST_TARGET i)
      else (m.gic_data gic).saved_spi_target i) ∧
    (∀ i, ((gic_dist_save gic m).gic_data gic).saved_spi_enable i =
      if i < DIV_ROUND_UP (m.gic_data gic).gic_irqs 32 then
        u32 (m.io (m.gic_data gic).dist_base GIC_DIST_ENABLE_SET i)
      else (m.gic_data gic).saved_spi_enable i) ∧
    (∀ i, ((gic_dist_save gic m).gic_data gic).saved_spi_group i =
      if i < DIV_ROUND_UP (m.gic_data gic).gic_irqs 32 then
        u32 (m.io (m.gic_data gic).dist_base GIC_DIST_IGROUP i)
      else (m.gic_data gic).saved_spi_group i) ∧
    (∀ i, ((gic_dist_save gic m).gic_data 0).saved_spi_active i =
      if i < DIV_ROUND_UP (m.gic_data gic).gic_irqs 32 then
        u32 (m.io (m.gic_data gic).dist_base GIC_DIST_ACTIVE_SET i)
      else (m.gic_data 0).saved_spi_active i) ∧
    (gic ≠ 0 →
      ((gic_dist_save gic m).gic_data gic).saved_spi_active = (m.gic_data gic).saved_spi_active) := by
  have e1 := fun m' => save_loop_spec (m.gic_data gic).dist_base GIC_DIST_CONFIG (by decide)
    (DIV_ROUND_UP (m.gic_data gic).gic_irqs 16) gic
    (fun g => g.saved_spi_conf) (fun g a => { g with saved_spi_conf := a })
    (fun _ _ => rfl) (fun _ => rfl) (fun _ _ _ => rfl) m'
  have e2 := fun m' => save_loop_spec (m.gic_data gic).dist_base GIC_DIST_TARGET (by decide)
    (DIV_ROUND_UP (m.gic_data gic).gic_irqs 4) gic
    (fun g => g.saved_spi_target) (fun g a => { g with saved_spi_target := a })
    (fun _ _ => rfl) (fun _ => rfl) (fun _ _ _ => rfl) m'
  have e3 := fun m' => save_loop_spec (m.gic_data gic).dist_base GIC_DIST_ENABLE_SET (by decide)
    (DIV_ROUND_UP (m.gic_data gic).gic_irqs 32) gic
    (fun g => g.saved_spi_enable) (fun g a => { g with saved_spi_enable := a })
    (fun _ _ => rfl) (fun _ => rfl) (fun _ _ _ => rfl) m'
  have e4 := fun m' => save_loop_spec (m.gic_data gic).dist_base GIC_DIST_ACTIVE_SET (by decide)
    (DIV_ROUND_UP (m.gic_data gic).gic_irqs 32) 0
    (fun g => g.saved_spi_active) (fun g a => { g with saved_spi_active := a })
    (fun _ _ => rfl) (fun _ => rfl) (fun _ _ _ => rfl) m'
  have e5 := fun m' => save_loop_spec (m.gic_data gic).dist_base GIC_DIST_IGROUP (by decide)
    (DIV_ROUND_UP (m.gic_data gic).gic_irqs 32) gic
    (fun g => g.saved_spi_group) (fun g a => { g with saved_spi_group := a })
    (fun _ _ => rfl) (fun _ => rfl) (fun _ _ _ => rfl) m'
  unfold gic_dist_save
  rw [if_neg hb]
  simp only [(e5 _).2.1, (e4 _).2.1, (e3 _).2.1, (e2 _).2.1, (e1 _).2.1, save_loop_io, Reg.store]
  clear e1 e2 e3 e4 e5
  by_cases hg : gic = 0
  · subst hg
    refine ⟨trivial, ?_, ?_, ?_, ?_, ?_, ?_, ?_⟩
    · intro k
      by_cases hk : k = 0
      · subst hk; simp [upd]
      · simp [upd, hk]
    · intro i; simp [upd]
    · intro i; simp [upd]
    · intro i; simp [upd]
    · intro i; simp [upd]
    · intro i; simp [upd]
    · intro h; exact absurd rfl h
  · have hg' : ¬ (0 = gic) := fun h => hg h.symm
    refine ⟨trivial, ?_, ?_, ?_, ?_, ?_, ?_, ?_⟩
    · intro k
      by_cases hk : k = gic
      · subst hk; simp [upd, hg]
      · by_cases hk0 : k = 0
        · subst hk0; simp [upd, hg']
        · simp [upd, hk, hk0]
    · intro i; simp [upd, hg]
    · intro i; simp [upd, hg]
    · intro i; simp [upd, hg]
    · intro i; simp [upd, hg]
    · intro i; simp [upd, hg, hg']
    · intro _; simp [upd, hg, hg']

theorem write_loop_io (base : Nat) (R : Reg) (n : Nat) (f : Nat → Machine → Nat)
    (hf : ∀ i (m1 m2 : Machine), m1.gic_data = m2.gic_data → f i m1 = f i m2) (m : Machine)
    (b : Nat) (r : Reg) (w : Nat) :
    (write_loop base R n f m).io b r w =
      if b = base ∧ r = R.store ∧ w < n then R.written (m.io b r w) (u32 (f w m))
      else m.io b r w :=
  (write_loop_spec base R n f hf m).2.1 b r w

/-- The enable stage of `gic_dist_restore`: the group words below `n` end as
the saved words; enable word 0 is cleared and then set to the saved word;
the enable words `1 .. n - 1` only receive the set write. -/
theorem gic_dist_restore_enable_spec (gic base n : Nat) (m : Machine) :
    (gic_dist_restore_enable gic base n 0 m).2.gic_data = m.gic_data ∧
    (∀ b r w, (gic_dist_restore_enable gic base n 0 m).2.io b r w =
      if b = base ∧ r = GIC_DIST_ENABLE_SET ∧ w < n then
        (if w = 0 then u32 ((m.gic_data gic).saved_spi_enable 0)
         else m.io b r w ||| u32 ((m.gic_data gic).saved_spi_enable w))
      else if b = base ∧ r = GIC_DIST_IGROUP ∧ w < n then
        u32 ((m.gic_data gic).saved_spi_group w)
      else m.io b r w) := by
  rw [gic_dist_restore_enable_eq]
  by_cases hn : 0 < n
  · rw [if_pos hn]
    refine ⟨by simp, ?_⟩
    intro b r w
    rw [write_loop_io _ _ _ _ (fun i m1 m2 h => by rw [h]),
      write_loop_io _ _ _ _ (fun i m1 m2 h => by rw [h]), writel_relaxed_io]
    simp only [write_loop_gic_data, writel_relaxed_gic_data, Reg.store, Reg.written]
    by_cases he : b = base ∧ r = GIC_DIST_ENABLE_SET
    · obtain ⟨hb, hr⟩ := he
      subst hb hr
      by_cases hw : w < n
      · by_cases hw0 : w = 0
        · subst hw0
          simp [hn, and_not32_all]
        · simp [hw, hw0]
      · have hw0 : ¬ (w = 0) := by omega
        simp [hw, hw0]
    · by_cases hg : b = base ∧ r = GIC_DIST_IGROUP
      · obtain ⟨hb, hr⟩ := hg
        subst hb hr
        simp
      · have h1 : ∀ q : Prop, (b = base ∧ r = GIC_DIST_ENABLE_SET ∧ q) = False := by
          intro q; apply propext
          exact ⟨fun h => he ⟨h.1, h.2.1⟩, fun h => h.elim⟩
        have h2 : ∀ q : Prop, (b = base ∧ r = GIC_DIST_IGROUP ∧ q) = False := by
          intro q; apply propext
          exact ⟨fun h => hg ⟨h.1, h.2.1⟩, fun h => h.elim⟩
        simp only [h1, h2, if_false]
  · rw [if_neg hn]
    refine ⟨rfl, ?_⟩
    intro b r w
    have : n = 0 := by omega
    subst this
    simp

@[simp] theorem gic_dist_restore_enable_gic_data (gic base n : Nat) (m : Machine) :
    (gic_dist_restore_enable gic base n 0 m).2.gic_data = m.gic_data :=
  (gic_dist_restore_enable_spec gic base n m).1

@[simp] theorem gic_dist_restore_active_gic_data (gic base n : Nat) (m : Machine) :
    (gic_dist_restore_active gic base n m).gic_data = m.gic_data :=
  (gic_dist_restore_active_spec gic base n m).1

theorem u32_DEF_PRI : u32 GICD_INT_DEF_PRI_X4 = GICD_INT_DEF_PRI_X4 := by decide

/-- What `gic_dist_restore` leaves in the registers of a mapped instance, in
terms of the registers before it and of the saved arrays of the instance
`gic`; the driver data are unchanged. -/
theorem gic_dist_restore_spec (gic : Nat) (m : Machine) (hb : (m.gic_data gic).dist_base ≠ 0) :
    (gic_dist_restore gic m).gic_data = m.gic_data ∧
    (∀ b r w, (gic_dist_restore gic m).io b r w =
      if b = (m.gic_data gic).dist_base ∧ r = GIC_DIST_CTRL ∧ w = 0 then
        (if (m.gic_data gic).fiq_enable then 3 else 1)
      else if b = (m.gic_data gic).dist_base ∧ r = GIC_DIST_ACTIVE_SET ∧
          w < DIV_ROUND_UP (m.gic_data gic).gic_irqs 32 then
        u32 ((m.gic_data gic).saved_spi_active w)
      else if b = (m.gic_data gic).dist_base ∧ r = GIC_DIST_ENABLE_SET ∧
          w < DIV_ROUND_UP (m.gic_data gic).gic_irqs 32 then
        (if w = 0 then u32 ((m.gic_data gic).saved_spi_enable 0)
         else m.io b r w ||| u32 ((m.gic_data gic).saved_spi_enable w))
      else if b = (m.gic_data gic).dist_base ∧ r = GIC_DIST_IGROUP ∧
          w < DIV_ROUND_UP (m.gic_data gic).gic_irqs 32 then
        u32 ((m.gic_data gic).saved_spi_group w)
      else if b = (m.gic_data gic).dist_base ∧ r = GIC_DIST_TARGET ∧
          w < DIV_ROUND_UP (m.gic_data gic).gic_irqs 4 then
        u32 ((m.gic_data gic).saved_spi_target w)
      else if b = (m.gic_data gic).dist_base ∧ r = GIC_DIST_PRI ∧
          w < DIV_ROUND_UP (m.gic_data gic).gic_irqs 4 then
        GICD_INT_DEF_PRI_X4
      else if b = (m.gic_data gic).dist_base ∧ r = GIC_DIST_CONFIG ∧
          w < DIV_ROUND_UP (m.gic_data gic).gic_irqs 16 then
        u32 ((m.gic_data gic).saved_spi_conf w)
      else m.io b r w) := by
  unfold gic_dist_restore
  rw [if_neg hb]
  simp only [gic_dist_restore_active_gic_data, gic_dist_restore_enable_gic_data,
    write_loop_gic_data, writel_relaxed_gic_data]
  have key : ∀ v b r w,
      (writel_relaxed v (m.gic_data gic).dist_base GIC_DIST_CTRL 0
        (gic_dist_restore_active gic (m.gic_data gic).dist_base
          (DIV_ROUND_UP (m.gic_data gic).gic_irqs 32)
          (gic_dist_restore_enable gic (m.gic_data gic).dist_base
            (DIV_ROUND_UP (m.gic_data gic).gic_irqs 32) 0
            (write_loop (m.gic_data gic).dist_base GIC_DIST_TARGET
              (DIV_ROUND_UP (m.gic_data gic).gic_irqs 4)
              (fun i m => (m.gic_data gic).saved_spi_target i)
              (write_loop (m.gic_data gic).dist_base GIC_DIST_PRI
                (DIV_ROUND_UP (m.gic_data gic).gic_irqs 4) (fun _ _ => GICD_INT_DEF_PRI_X4)
                (write_loop (m.gic_data gic).dist_base GIC_DIST_CONFIG
                  (DIV_ROUND_UP (m.gic_data gic).gic_irqs 16)
                  (fun i m => (m.gic_data gic).saved_spi_conf i)
                  (writel_relaxed GICD_DISABLE (m.gic_data gic).dist_base GIC_DIST_CTRL 0
                    m))))).2)).io b r w =
      if b = (m.gic_data gic).dist_base ∧ r = GIC_DIST_CTRL ∧ w = 0 then u32 v
      else if b = (m.gic_data gic).dist_base ∧ r = GIC_DIST_ACTIVE_SET ∧
          w < DIV_ROUND_UP (m.gic_data gic).gic_irqs 32 then
        u32 ((m.gic_data gic).saved_spi_active w)
      else if b = (m.gic_data gic).dist_base ∧ r = GIC_DIST_ENABLE_SET ∧
          w < DIV_ROUND_UP (m.gic_data gic).gic_irqs 32 then
        (if w = 0 then u32 ((m.gic_data gic).saved_spi_enable 0)
         else m.io b r w ||| u32 ((m.gic_data gic).saved_spi_enable w))
      else if b = (m.gic_data gic).dist_base ∧ r = GIC_DIST_IGROUP ∧
          w < DIV_ROUND_UP (m.gic_data gic).gic_irqs 32 then
        u32 ((m.gic_data gic).saved_spi_group w)
      else if b = (m.gic_data gic).dist_base ∧ r = GIC_DIST_TARGET ∧
          w < DIV_ROUND_UP (m.gic_data gic).gic_irqs 4 then
        u32 ((m.gic_data gic).saved_spi_target w)
      else if b = (m.gic_data gic).dist_base ∧ r = GIC_DIST_PRI ∧
          w < DIV_ROUND_UP (m.gic_data gic).gic_irqs 4 then
        GICD_INT_DEF_PRI_X4
      else if b = (m.gic_data gic).dist_base ∧ r = GIC_DIST_CONFIG ∧
          w < DIV_ROUND_UP (m.gic_data gic).gic_irqs 16 then
        u32 ((m.gic_data gic).saved_spi_conf w)
      else m.io b r w := by
    intro v b r w
    rw [writel_relaxed_io, (gic_dist_restore_active_spec _ _ _ _).2,
      (gic_dist_restore_enable_spec _ _ _ _).2,
      write_loop_io _ GIC_DIST_TARGET _ (fun i m => (m.gic_data gic).saved_spi_target i)
        (fun i m1 m2 h => by simp only [h]),
      write_loop_io _ GIC_DIST_PRI _ (fun _ _ => GICD_INT_DEF_PRI_X4) (fun _ _ _ _ => rfl),
      write_loop_io _ GIC_DIST_CONFIG _ (fun i m => (m.gic_data gic).saved_spi_conf i)
        (fun i m1 m2 h => by simp only [h]), writel_relaxed_io]
    simp only [gic_dist_restore_active_gic_data, gic_dist_restore_enable_gic_data,
      write_loop_gic_data, writel_relaxed_gic_data, u32_DEF_PRI]
    by_cases hbb : b = (m.gic_data gic).dist_base
    · subst hbb
      cases r <;> simp [Reg.store, Reg.written]
      by_cases hw : w = 0 <;> simp [hw]
    · simp [hbb]
  cases hfq : (m.gic_data gic).fiq_enable
  · refine ⟨by simp, ?_⟩
    intro b r w
    simp only [Bool.false_eq_true, if_false]
    rw [key]
    rfl
  · refine ⟨by simp, ?_⟩
    intro b r w
    simp only [if_true]
    rw [key]
    rfl

/-- Save followed by restore on the primary instance `gic_data[0]`, whose
active words land in its own array: the enable, active, group, trigger-config
and target bits of every source below `gic_irqs` are what they were before
the save. -/
theorem gic_dist_save_restore_primary (m : Machine) (hb : (m.gic_data 0).dist_base ≠ 0)
    (irq : Nat) (hirq : irq < (m.gic_data 0).gic_irqs) :
    enable_bit (gic_dist_restore 0 (gic_dist_save 0 m)) (m.gic_data 0).dist_base irq =
      enable_bit m (m.gic_data 0).dist_base irq ∧
    active_bit (gic_dist_restore 0 (gic_dist_save 0 m)) (m.gic_data 0).dist_base irq =
      active_bit m (m.gic_data 0).dist_base irq ∧
    group_bit (gic_dist_restore 0 (gic_dist_save 0 m)) (m.gic_data 0).dist_base irq =
      group_bit m (m.gic_data 0).dist_base irq ∧
    (∀ b, b < 2 →
      config_bit (gic_dist_restore 0 (gic_dist_save 0 m)) (m.gic_data 0).dist_base irq b =
        config_bit m (m.gic_data 0).dist_base irq b) ∧
    (∀ b, b < 8 →
      target_bit (gic_dist_restore 0 (gic_dist_save 0 m)) (m.gic_data 0).dist_base irq b =
        target_bit m (m.gic_data 0).dist_base irq b) := by
  obtain ⟨s1, s2, s3, s4, s5, s6, s7, _⟩ := gic_dist_save_spec 0 m hb
  obtain ⟨sb, sn, sf⟩ := s2 0
  have hb' : ((gic_dist_save 0 m).gic_data 0).dist_base ≠ 0 := by rw [sb]; exact hb
  have r2 := (gic_dist_restore_spec 0 (gic_dist_save 0 m) hb').2
  have h32 : irq / 32 < DIV_ROUND_UP (m.gic_data 0).gic_irqs 32 := by
    unfold DIV_ROUND_UP; omega
  have h16 : irq / 16 < DIV_ROUND_UP (m.gic_data 0).gic_irqs 16 := by
    unfold DIV_ROUND_UP; omega
  have h4 : irq / 4 < DIV_ROUND_UP (m.gic_data 0).gic_irqs 4 := by
    unfold DIV_ROUND_UP; omega
  have hlt : irq % 32 < 32 := Nat.mod_lt _ (by norm_num)
  have h0 : 0 < DIV_ROUND_UP (m.gic_data 0).gic_irqs 32 := by omega
  refine ⟨?_, ?_, ?_, ?_, ?_⟩
  · unfold enable_bit
    rw [r2, sb, sn, s1]
    simp only [s5, h32, h0, reduceCtorEq, false_and, and_false, and_true, true_and, if_false,
      if_true]
    split
    · next hw => rw [hw, testBit_u32, testBit_u32]; simp [hlt]
    · rw [Nat.testBit_or, testBit_u32, testBit_u32]; simp [hlt]
  · unfold active_bit
    rw [r2, sb, sn, s1]
    simp only [s7, h32, reduceCtorEq, false_and, and_false, and_true, true_and, if_false, if_true]
    rw [testBit_u32, testBit_u32]; simp [hlt]
  · unfold group_bit
    rw [r2, sb, sn, s1]
    simp only [s6, h32, reduceCtorEq, false_and, and_false, and_true, true_and, if_false, if_true]
    rw [testBit_u32, testBit_u32]; simp [hlt]
  · intro b hbit
    have hlt' : 2 * (irq % 16) + b < 32 := by omega
    unfold config_bit
    rw [r2, sb, sn, s1]
    simp only [s3, h16, reduceCtorEq, false_and, and_false, and_true, true_and, if_false, if_true]
    rw [testBit_u32, testBit_u32]; simp [hlt']
  · intro b hbit
    have hlt' : 8 * (irq % 4) + b < 32 := by omega
    unfold target_bit
    rw [r2, sb, sn, s1]
    simp only [s4, h4, reduceCtorEq, false_and, and_false, and_true, true_and, if_false, if_true]
    rw [testBit_u32, testBit_u32]; simp [hlt']

/-- C1 fails on an instance other than `gic_data[0]`: on the example
satellite instance `gic_data[1]` (distributor mapped at base 3, 64 sources)
source 32 is active before the save; `gic_dist_save` stores the active words
in the array of `gic_data[0]`, the array of `gic_data[1]` keeps its zeros,
and after `gic_dist_restore` the source is not active any more. -/
theorem gic_dist_save_restore_active_lost :
    ((exampleMachine guardExampleIo).gic_data 1).dist_base = 3 ∧
    ((exampleMachine guardExampleIo).gic_data 1).gic_irqs = 64 ∧
    active_bit (exampleMachine guardExampleIo) 3 32 = true ∧
    ((gic_dist_save 1 (exampleMachine guardExampleIo)).gic_data 1).saved_spi_active 1 = 0 ∧
    ((gic_dist_save 1 (exampleMachine guardExampleIo)).gic_data 0).saved_spi_active 1 = 1 ∧
    active_bit (gic_dist_restore 1 (gic_dist_save 1 (exampleMachine guardExampleIo))) 3 32 =
      false := by
  have hb : ((exampleMachine guardExampleIo).gic_data 1).dist_base ≠ 0 := by decide
  obtain ⟨s1, s2, _, _, _, _, s7, s8⟩ := gic_dist_save_spec 1 (exampleMachine guardExampleIo) hb
  obtain ⟨sb, sn, _⟩ := s2 1
  have hb' : ((gic_dist_save 1 (exampleMachine guardExampleIo)).gic_data 1).dist_base ≠ 0 := by
    rw [sb]; exact hb
  have r2 := (gic_dist_restore_spec 1 (gic_dist_save 1 (exampleMachine guardExampleIo)) hb').2
  have s8' := s8 (by decide)
  refine ⟨by decide, by decide, by decide, ?_, ?_, ?_⟩
  · rw [s8']; rfl
  · rw [s7]; decide
  · unfold active_bit
    rw [r2, sb, sn, s8']
    decide

/-! ## Migration of the targets -/

theorem ffs_spec (x : Nat) (hx : x ≠ 0) (hlt : x < 256) :
    __ffs x < 8 ∧ x.testBit (__ffs x) = true ∧ ∀ j, j < __ffs x → x.testBit j = false := by
  interval_cases x
  · exact absurd rfl hx
  all_goals decide

theorem ror_val_eq (cur new : Nat) (hcur : cur < 8) (hnew : new < 8) :
    u32 (cur + 2 ^ 32 - u32 new) &&& 31 = (cur + 32 - new) % 32 := by
  interval_cases cur <;> interval_cases new <;> decide

theorem testBit_01010101 (t : Nat) :
    (0x01010101 : Nat).testBit t = decide (t < 32 ∧ t % 8 = 0) := by
  by_cases ht : t < 32
  · interval_cases t <;> decide
  · have h1 : (0x01010101 : Nat) < 2 ^ t :=
      lt_of_lt_of_le (by norm_num) (Nat.pow_le_pow_right (by norm_num) (not_lt.mp ht))
    rw [Nat.testBit_lt_two_pow h1]
    simp [ht]

theorem testBit_target_mask (cur q : Nat) :
    (u32 (0x01010101 <<< cur)).testBit q =
      decide (q < 32 ∧ cur ≤ q ∧ (q - cur) % 8 = 0) := by
  rw [testBit_u32, Nat.testBit_shiftLeft, testBit_01010101, Bool.eq_iff_iff]
  simp only [Bool.and_eq_true, decide_eq_true_eq, ge_iff_le]
  constructor <;> intro h <;> omega

theorem testBit_ror32 (x s p : Nat) :
    (ror32 x s).testBit p =
      (decide (p < 32) &&
        ((decide (s + p < 32) && x.testBit (s + p)) ||
          (decide (32 - s ≤ p) && (decide (p - (32 - s) < 32) && x.testBit (p - (32 - s)))))) := by
  unfold ror32
  rw [testBit_u32, Nat.testBit_or, Nat.testBit_shiftRight, Nat.testBit_shiftLeft, testBit_u32,
    testBit_u32]

/-- The bits of a target word after the rotation of `gic_migrate_target`: in
every byte, bit `cur` is removed and bit `new` is set exactly when bit `cur`
was set. -/
theorem migrate_word_testBit (val cur new k b : Nat) (hcur : cur < 8) (hnew : new < 8)
    (hk : k < 4) (hb : b < 8) :
    (u32 ((u32 val &&& not32 (u32 val &&& u32 (0x01010101 <<< cur))) |||
        ror32 (u32 val &&& u32 (0x01010101 <<< cur)) (u32 (cur + 2 ^ 32 - u32 new) &&& 31))).testBit
        (8 * k + b) =
      ((val.testBit (8 * k + b) && !(decide (b = cur))) ||
        (decide (b = new) && val.testBit (8 * k + cur))) := by
  rw [ror_val_eq cur new hcur hnew]
  have hp : 8 * k + b < 32 := by omega
  have hA : ∀ q, (u32 val &&& u32 (0x01010101 <<< cur)).testBit q =
      (val.testBit q && decide (q < 32 ∧ cur ≤ q ∧ (q - cur) % 8 = 0)) := by
    intro q
    rw [Nat.testBit_and, testBit_u32, testBit_target_mask]
    by_cases hq : q < 32 <;> simp [hq]
  generalize u32 val &&& u32 (0x01010101 <<< cur) = act at hA ⊢
  generalize hs : (cur + 32 - new) % 32 = s
  rw [testBit_u32, Nat.testBit_or, Nat.testBit_and, testBit_u32, testBit_not32, testBit_ror32,
    hA, hA, hA, decide_eq_true hp]
  simp only [Bool.true_and]
  have h0 : decide (8 * k + b < 32 ∧ cur ≤ 8 * k + b ∧ (8 * k + b - cur) % 8 = 0) =
      decide (b = cur) := decide_eq_decide.mpr (by omega)
  rw [h0]
  by_cases h1 : new ≤ cur ∧ b = new
  · have e1 : s + (8 * k + b) = 8 * k + cur := by omega
    have c1 : 8 * k + cur < 32 := by omega
    have c2 : 8 * k + cur < 32 ∧ cur ≤ 8 * k + cur ∧ (8 * k + cur - cur) % 8 = 0 := by omega
    have c3 : ¬ (32 - s ≤ 8 * k + b) := by omega
    rw [e1, decide_eq_true c1, decide_eq_true c2, decide_eq_false c3, decide_eq_true h1.2]
    cases val.testBit (8 * k + b) <;> cases val.testBit (8 * k + cur) <;>
      cases decide (b = cur) <;> rfl
  · have c1 : ¬ (s + (8 * k + b) < 32 ∧ cur ≤ s + (8 * k + b) ∧
        (s + (8 * k + b) - cur) % 8 = 0) := by omega
    rw [decide_eq_false c1]
    by_cases h2 : cur < new ∧ b = new
    · have c3 : 32 - s ≤ 8 * k + b := by omega
      have e2 : 8 * k + b - (32 - s) = 8 * k + cur := by omega
      have c2 : 8 * k + cur < 32 := by omega
      have c4 : 8 * k + cur < 32 ∧ cur ≤ 8 * k + cur ∧ (8 * k + cur - cur) % 8 = 0 := by omega
      rw [e2, decide_eq_true c3, decide_eq_true c2, decide_eq_true c4, decide_eq_true h2.2]
      cases val.testBit (8 * k + b) <;> cases val.testBit (8 * k + cur) <;>
        cases decide (b = cur) <;> cases decide (s + (8 * k + b) < 32) <;>
        cases val.testBit (s + (8 * k + b)) <;> rfl
    · have c4 : ¬ (8 * k + b - (32 - s) < 32 ∧ cur ≤ 8 * k + b - (32 - s) ∧
          (8 * k + b - (32 - s) - cur) % 8 = 0) ∨ ¬ (32 - s ≤ 8 * k + b) := by omega
      have hbn : ¬ (b = new) := by omega
      rw [decide_eq_false hbn]
      rcases c4 with c4 | c4
      · rw [decide_eq_false c4]
        cases val.testBit (8 * k + b) <;> cases decide (b = cur) <;>
          cases decide (s + (8 * k + b) < 32) <;> cases val.testBit (s + (8 * k + b)) <;>
          cases decide (32 - s ≤ 8 * k + b) <;> cases decide (8 * k + b - (32 - s) < 32) <;>
          cases val.testBit (8 * k + b - (32 - s)) <;> rfl
      · rw [decide_eq_false c4]
        cases val.testBit (8 * k + b) <;> cases decide (b = cur) <;>
          cases decide (s + (8 * k + b) < 32) <;> cases val.testBit (s + (8 * k + b)) <;> rfl

/-- The target loop of `gic_migrate_target`: it rewrites the target words
`8 .. n - 1` only, each from its own old value, and its register accesses
are reads and writes of these words. -/
theorem gic_migrate_target_loop_spec (base gic_irqs mask ror : Nat) (m : Machine) :
    (gic_migrate_target_loop base gic_irqs mask ror m).gic_data = m.gic_data ∧
    (gic_migrate_target_loop base gic_irqs mask ror m).gic_cpu_map = m.gic_cpu_map ∧
    (∀ b r w, (gic_migrate_target_loop base gic_irqs mask ror m).io b r w =
      if b = base ∧ r = GIC_DIST_TARGET ∧ 8 ≤ w ∧ w < DIV_ROUND_UP gic_irqs 4 then
        (if u32 (m.io b r w) &&& mask ≠ 0 then
          u32 ((u32 (m.io b r w) &&& not32 (u32 (m.io b r w) &&& mask)) |||
            ror32 (u32 (m.io b r w) &&& mask) ror)
        else m.io b r w)
      else m.io b r w) ∧
    ∃ evs, (gic_migrate_target_loop base gic_irqs mask ror m).trace = m.trace ++ evs ∧
      ∀ b w v, Event.write b GIC_DIST_TARGET w v ∈ evs → 8 ≤ w := by
  unfold gic_migrate_target_loop
  by_cases hn : 8 ≤ DIV_ROUND_UP gic_irqs 4
  · apply forLoop_induct _
      (fun i m' => m'.gic_data = m.gic_data ∧ m'.gic_cpu_map = m.gic_cpu_map ∧
        (∀ b r w, m'.io b r w =
          if b = base ∧ r = GIC_DIST_TARGET ∧ 8 ≤ w ∧ w < i then
            (if u32 (m.io b r w) &&& mask ≠ 0 then
              u32 ((u32 (m.io b r w) &&& not32 (u32 (m.io b r w) &&& mask)) |||
                ror32 (u32 (m.io b r w) &&& mask) ror)
            else m.io b r w)
          else m.io b r w) ∧
        ∃ evs, m'.trace = m.trace ++ evs ∧
          ∀ b w v, Event.write b GIC_DIST_TARGET w v ∈ evs → 8 ≤ w)
      8 _ m hn
    · refine ⟨rfl, rfl, ?_, [], by simp, by simp⟩
      intro b r w
      have : ¬ (b = base ∧ r = GIC_DIST_TARGET ∧ 8 ≤ w ∧ w < 8) := by omega
      rw [if_neg this]
    · intro i st hi _ ⟨h1, h2, h3, evs, h4, h5⟩
      have hv : (readl_relaxed base GIC_DIST_TARGET i st).1 =
          u32 (m.io base GIC_DIST_TARGET i) := by
        rw [readl_relaxed_val _ _ _ _ (by decide), h3]
        have : ¬ (base = base ∧ GIC_DIST_TARGET.store = GIC_DIST_TARGET ∧ 8 ≤ i ∧ i < i) := by
          omega
        rw [if_neg this]
        rfl
      simp only [hv]
      by_cases ha : u32 (m.io base GIC_DIST_TARGET i) &&& mask ≠ 0
      · rw [if_pos ha]
        refine ⟨by simp [h1], by simp [h2], ?_, evs ++ [Event.read base GIC_DIST_TARGET i,
          Event.write base GIC_DIST_TARGET i
            (u32 ((u32 (m.io base GIC_DIST_TARGET i) &&&
                not32 (u32 (m.io base GIC_DIST_TARGET i) &&& mask)) |||
              ror32 (u32 (m.io base GIC_DIST_TARGET i) &&& mask) ror))], by simp [h4], ?_⟩
        · intro b r w
          rw [writel_relaxed_io, readl_relaxed_io, h3]
          by_cases hc : b = base ∧ r = GIC_DIST_TARGET
          · obtain ⟨hb, hr⟩ := hc
            subst hb hr
            by_cases hw : w = i
            · subst hw
              have c1 : 8 ≤ w ∧ w < w + 1 := by omega
              simp [Reg.store, Reg.written, c1, ha]
            · have c2 : (8 ≤ w ∧ w < i + 1) = (8 ≤ w ∧ w < i) := by
                apply propext; constructor <;> intro h <;> omega
              simp [Reg.store, hw, c2]
          · have c3 : ∀ q : Prop, (b = base ∧ r = GIC_DIST_TARGET ∧ q) = False := by
              intro q; apply propext
              exact ⟨fun h => hc ⟨h.1, h.2.1⟩, fun h => h.elim⟩
            simp only [c3, if_false, Reg.store]
        · intro b w v hmem
          simp only [List.mem_append, List.mem_cons, List.mem_singleton, reduceCtorEq,
            List.not_mem_nil, or_false, false_or, Event.write.injEq] at hmem
          rcases hmem with hmem | hmem
          · exact h5 b w v hmem
          · omega
      · rw [if_neg ha]
        refine ⟨by simp [h1], by simp [h2], ?_, evs ++ [Event.read base GIC_DIST_TARGET i],
          by simp [h4], ?_⟩
        · intro b r w
          rw [readl_relaxed_io, h3]
          by_cases hc : b = base ∧ r = GIC_DIST_TARGET
          · obtain ⟨hb, hr⟩ := hc
            subst hb hr
            by_cases hw : w = i
            · subst hw
              have c1 : 8 ≤ w ∧ w < w + 1 := by omega
              have c0 : ¬ (8 ≤ w ∧ w < w) := by omega
              simp [c1, c0, ha]
            · have c2 : (8 ≤ w ∧ w < i + 1) = (8 ≤ w ∧ w < i) := by
                apply propext; constructor <;> intro h <;> omega
              simp [c2]
          · have c3 : ∀ q : Prop, (b = base ∧ r = GIC_DIST_TARGET ∧ q) = False := by
              intro q; apply propext
              exact ⟨fun h => hc ⟨h.1, h.2.1⟩, fun h => h.elim⟩
            simp only [c3, if_false]
        · intro b w v hmem
          simp only [List.mem_append, List.mem_cons, List.mem_singleton, reduceCtorEq,
            List.not_mem_nil, or_false] at hmem
          exact h5 b w v hmem
  · have h0 : DIV_ROUND_UP gic_irqs 4 - 8 = 0 := by omega
    simp only [forLoop, h0, forLoopAux]
    refine ⟨trivial, trivial, ?_, [], by simp, by simp⟩
    intro b r w
    have : ¬ (b = base ∧ r = GIC_DIST_TARGET ∧ 8 ≤ w ∧ w < DIV_ROUND_UP gic_irqs 4) := by omega
    rw [if_neg this]

theorem target_frame_refl (m : Machine) : target_frame m m :=
  ⟨fun _ _ => rfl, [], by simp, by simp⟩

theorem target_frame_trans {m1 m2 m3 : Machine} (h12 : target_frame m1 m2)
    (h23 : target_frame m2 m3) : target_frame m1 m3 := by
  obtain ⟨a1, e1, a2, a3⟩ := h12
  obtain ⟨b1, e2, b2, b3⟩ := h23
  refine ⟨fun b w => by rw [b1, a1], e1 ++ e2, by rw [b2, a2, List.append_assoc], ?_⟩
  intro b w v hmem
  rcases List.mem_append.mp hmem with h | h
  · exact a3 b w v h
  · exact b3 b w v h

theorem target_frame_readl (base : Nat) (R : Reg) (w : Nat) (m : Machine) :
    target_frame m (readl_relaxed base R w m).2 :=
  ⟨fun _ _ => by simp, [Event.read base R w], by simp, by simp⟩

theorem target_frame_writel (v base : Nat) (R : Reg) (w : Nat) (m : Machine)
    (hR : R.store ≠ GIC_DIST_TARGET) (hR' : R ≠ GIC_DIST_TARGET) :
    target_frame m (writel_relaxed v base R w m) := by
  refine ⟨fun b w' => ?_, [Event.write base R w (u32 v)], by simp, ?_⟩
  · rw [writel_relaxed_io, if_neg]
    intro hc
    exact hR hc.2.1.symm
  · intro b w' v' hmem
    simp only [List.mem_singleton, Event.write.injEq] at hmem
    exact hR' hmem.2.1.symm

/-- The pending-signal loop of `gic_migrate_target` neither changes nor
writes a target register. -/
theorem gic_migrate_target_sgi_frame (base new_cpu_id : Nat) (m : Machine) :
    target_frame m (gic_migrate_target_sgi base new_cpu_id m) := by
  unfold gic_migrate_target_sgi
  apply forLoop_induct _ (fun _ m' => target_frame m m') 0 4 m (by norm_num)
    (target_frame_refl m)
  intro w st _ _ hst
  apply target_frame_trans hst
  simp only []
  split
  · exact target_frame_readl _ _ _ _
  · apply target_frame_trans (target_frame_readl base GIC_DIST_SGI_PENDING_SET w st)
    apply target_frame_trans
      (target_frame_writel (readl_relaxed base GIC_DIST_SGI_PENDING_SET w st).1 base
        GIC_DIST_SGI_PENDING_CLEAR w (readl_relaxed base GIC_DIST_SGI_PENDING_SET w st).2
        (by decide) (by decide))
    apply forLoop_induct _
      (fun _ (s : Nat × Machine) =>
        target_frame
          (writel_relaxed (readl_relaxed base GIC_DIST_SGI_PENDING_SET w st).1 base
            GIC_DIST_SGI_PENDING_CLEAR w (readl_relaxed base GIC_DIST_SGI_PENDING_SET w st).2) s.2)
      (4 * w) (4 * w + 4) _ (by omega) (target_frame_refl _)
    intro j s _ _ hs
    apply target_frame_trans hs
    simp only []
    split
    · exact target_frame_writel _ _ _ _ _ (by decide) (by decide)
    · exact target_frame_refl _

/-- C4: on a mapped primary instance, with `cur` the index of the lowest set
bit of the calling CPU's map entry (a non-zero `u8`) and `new_cpu_id` in
0..7, `gic_migrate_target` leaves every byte of the target words
`8 .. ceil(gic_irqs / 4) - 1` that had bit `cur` set with bit `cur` removed
and bit `new_cpu_id` added, leaves every other byte of these words as it
was, leaves every other target word as it was, and writes no target word
below 8. -/
theorem gic_migrate_target_rotation (cpu new_cpu_id : Nat) (m : Machine)
    (hbase : (m.gic_data 0).dist_base ≠ 0) (hmap : u8 (m.gic_cpu_map cpu) ≠ 0)
    (hnew : new_cpu_id < 8) :
    (__ffs (u8 (m.gic_cpu_map cpu)) < 8 ∧
      (u8 (m.gic_cpu_map cpu)).testBit (__ffs (u8 (m.gic_cpu_map cpu))) = true ∧
      ∀ j, j < __ffs (u8 (m.gic_cpu_map cpu)) → (u8 (m.gic_cpu_map cpu)).testBit j = false) ∧
    (∀ i k, 8 ≤ i → i < DIV_ROUND_UP (m.gic_data 0).gic_irqs 4 → k < 4 →
      byteOf ((gic_migrate_target cpu new_cpu_id m).io (m.gic_data 0).dist_base
          GIC_DIST_TARGET i) k =
        if (byteOf (m.io (m.gic_data 0).dist_base GIC_DIST_TARGET i) k).testBit
            (__ffs (u8 (m.gic_cpu_map cpu))) then
          (byteOf (m.io (m.gic_data 0).dist_base GIC_DIST_TARGET i) k &&&
              (0xff ^^^ (1 <<< __ffs (u8 (m.gic_cpu_map cpu))))) |||
            (1 <<< new_cpu_id)
        else byteOf (m.io (m.gic_data 0).dist_base GIC_DIST_TARGET i) k) ∧
    (∀ b w, ¬ (b = (m.gic_data 0).dist_base ∧ 8 ≤ w ∧
        w < DIV_ROUND_UP (m.gic_data 0).gic_irqs 4) →
      (gic_migrate_target cpu new_cpu_id m).io b GIC_DIST_TARGET w =
        m.io b GIC_DIST_TARGET w) ∧
    (∃ evs, (gic_migrate_target cpu new_cpu_id m).trace = m.trace ++ evs ∧
      ∀ b w v, Event.write b GIC_DIST_TARGET w v ∈ evs → 8 ≤ w) := by
  have hffs := ffs_spec (u8 (m.gic_cpu_map cpu)) hmap (Nat.mod_lt _ (by norm_num))
  have hcur := hffs.1
  refine ⟨hffs, ?_⟩
  clear hffs
  generalize hc : __ffs (u8 (m.gic_cpu_map cpu)) = cur at hcur ⊢
  unfold gic_migrate_target
  rw [if_neg hbase]
  simp only [hc]
  obtain ⟨_, _, l3, evs1, l4, l5⟩ := gic_migrate_target_loop_spec (m.gic_data 0).dist_base
    (m.gic_data 0).gic_irqs (u32 (0x01010101 <<< cur)) (u32 (cur + 2 ^ 32 - u32 new_cpu_id) &&& 31)
    { m with gic_cpu_map := upd m.gic_cpu_map cpu (u8 (1 <<< new_cpu_id)) }
  obtain ⟨f1, evs2, f2, f3⟩ := gic_migrate_target_sgi_frame (m.gic_data 0).dist_base new_cpu_id
    (gic_migrate_target_loop (m.gic_data 0).dist_base (m.gic_data 0).gic_irqs
      (u32 (0x01010101 <<< cur)) (u32 (cur + 2 ^ 32 - u32 new_cpu_id) &&& 31)
      { m with gic_cpu_map := upd m.gic_cpu_map cpu (u8 (1 <<< new_cpu_id)) })
  refine ⟨?_, ?_, ?_⟩
  · intro i k hi hi' hk
    rw [f1, l3, if_pos ⟨rfl, rfl, hi, hi'⟩]
    show byteOf (if u32 (m.io (m.gic_data 0).dist_base GIC_DIST_TARGET i) &&&
          u32 (0x01010101 <<< cur) ≠ 0 then _ else m.io (m.gic_data 0).dist_base GIC_DIST_TARGET i)
        k = _
    generalize m.io (m.gic_data 0).dist_base GIC_DIST_TARGET i = old
    have hbit : (byteOf old k).testBit cur = old.testBit (8 * k + cur) := by
      rw [byteOf_testBit]; simp [hcur]
    rw [hbit]
    by_cases ha : u32 old &&& u32 (0x01010101 <<< cur) ≠ 0
    · rw [if_pos ha]
      apply Nat.eq_of_testBit_eq
      intro j
      rw [byteOf_testBit]
      by_cases hj : j < 8
      · rw [migrate_word_testBit old cur new_cpu_id k j hcur hnew hk hj]
        cases hoc : old.testBit (8 * k + cur)
        · simp only [Bool.false_eq_true, if_false, byteOf_testBit, hj, decide_True, Bool.true_and,
            Bool.and_false, Bool.or_false]
          by_cases hjc : j = cur
          · subst hjc; simp [hoc]
          · simp [hjc]
        · simp only [if_true, Nat.testBit_or, Nat.testBit_and, Nat.testBit_xor, byteOf_testBit,
            testBit_0xff, testBit_one_shiftLeft, hj, decide_True, Bool.true_and, Bool.and_true]
          by_cases hjc : j = cur
          · subst hjc
            by_cases hjn : j = new_cpu_id
            · simp [hjn]
            · have : ¬ (new_cpu_id = j) := fun h => hjn h.symm
              simp [hjn, this]
          · have hcj : ¬ (cur = j) := fun h => hjc h.symm
            by_cases hjn : j = new_cpu_id
            · simp [hjn, hjc, hcj]
            · have : ¬ (new_cpu_id = j) := fun h => hjn h.symm
              simp [hjn, this, hjc, hcj]
      · have hnj : ¬ (new_cpu_id = j) := by omega
        simp only [hj, decide_False, Bool.false_and]
        split
        · simp only [Nat.testBit_or, Nat.testBit_and, byteOf_testBit, testBit_one_shiftLeft, hj,
            hnj, decide_False, Bool.false_and, Bool.or_false]
        · simp only [byteOf_testBit, hj, decide_False, Bool.false_and]
    · rw [if_neg ha]
      have hz : u32 old &&& u32 (0x01010101 <<< cur) = 0 := by
        by_contra h; exact ha h
      have hoc : old.testBit (8 * k + cur) = false := by
        have c1 : 8 * k + cur < 32 := by omega
        have c2 : 8 * k + cur < 32 ∧ cur ≤ 8 * k + cur ∧ (8 * k + cur - cur) % 8 = 0 := by omega
        have h1 : (u32 old &&& u32 (0x01010101 <<< cur)).testBit (8 * k + cur) = false := by
          rw [hz]; exact Nat.zero_testBit _
        rw [Nat.testBit_and, testBit_target_mask, testBit_u32, decide_eq_true c1,
          decide_eq_true c2] at h1
        simpa using h1
      rw [hoc]
      simp
  · intro b w hne
    rw [f1, l3, if_neg]
    intro h
    exact hne ⟨h.1, h.2.2⟩
  · refine ⟨evs1 ++ evs2, by rw [f2, l4, List.append_assoc], ?_⟩
    intro b w v hmem
    rcases List.mem_append.mp hmem with h | h
    · exact l5 b w v h
    · exact absurd h (f3 b w v)

/-- Witness of C4: logical CPU 0 owns interface 2 and migrates to interface
5; source 32, which targeted interface 2, targets interface 5 afterwards, and
source 33, which targeted interface 0, still does. -/
theorem gic_migrate_target_rotation_witness :
    (migrateExampleMachine.gic_data 0).dist_base ≠ 0 ∧
    u8 (migrateExampleMachine.gic_cpu_map 0) ≠ 0 ∧
    (5 : Nat) < 8 ∧
    __ffs (u8 (migrateExampleMachine.gic_cpu_map 0)) = 2 ∧
    byteOf (migrateExampleMachine.io 1 GIC_DIST_TARGET 8) 0 = 1 <<< 2 ∧
    byteOf ((gic_migrate_target 0 5 migrateExampleMachine).io 1 GIC_DIST_TARGET 8) 0 = 1 <<< 5 ∧
    byteOf ((gic_migrate_target 0 5 migrateExampleMachine).io 1 GIC_DIST_TARGET 8) 1 = 1 <<< 0 :=
  ⟨by decide, by decide, by decide, by decide, by decide,
    ((gic_migrate_target_rotation 0 5 migrateExampleMachine (by decide) (by decide)
      (by decide)).2.1 8 0 (by decide) (by decide) (by decide)).trans (by decide),
    ((gic_migrate_target_rotation 0 5 migrateExampleMachine (by decide) (by decide)
      (by decide)).2.1 8 1 (by decide) (by decide) (by decide)).trans (by decide)⟩

/-! ## Restore loops: clear before set -/

/-- A clear-then-set loop over a set/clear register pair: the driver data are
unchanged, every word below `n` of the pair ends as the written value
whatever it held, and the trace grows by the clear write and the set write of
each word, in this order. -/
theorem clear_set_loop_spec (base : Nat) (clear set : Reg) (n : Nat) (f : Nat → Machine → Nat)
    (hf : ∀ i (m1 m2 : Machine), m1.gic_data = m2.gic_data → f i m1 = f i m2)
    (hstore : clear.store = set.store)
    (hclr : ∀ old v, clear.written old v = old &&& not32 v)
    (hset : ∀ old v, set.written old v = old ||| v) (m : Machine) :
    (clear_set_loop base clear set n f m).gic_data = m.gic_data ∧
    (∀ b r w, (clear_set_loop base clear set n f m).io b r w =
      if b = base ∧ r = set.store ∧ w < n then u32 (f w m) else m.io b r w) ∧
    (clear_set_loop base clear set n f m).trace =
      m.trace ++ (List.range n).flatMap (fun i =>
        [Event.write base clear i (u32 GICD_INT_EN_CLR_X32), Event.write base set i (u32 (f i m))]) := by
  unfold clear_set_loop
  apply forLoop_induct (fun i m =>
      writel_relaxed (f i (writel_relaxed GICD_INT_EN_CLR_X32 base clear i m)) base set i
        (writel_relaxed GICD_INT_EN_CLR_X32 base clear i m))
    (fun i m' => m'.gic_data = m.gic_data ∧
      (∀ b r w, m'.io b r w =
        if b = base ∧ r = set.store ∧ w < i then u32 (f w m) else m.io b r w) ∧
      m'.trace = m.trace ++ (List.range i).flatMap (fun i =>
        [Event.write base clear i (u32 GICD_INT_EN_CLR_X32),
          Event.write base set i (u32 (f i m))]))
    0 n m (Nat.zero_le _)
  · exact ⟨rfl, by intro b r w; simp, by simp⟩
  · intro i st _ _ ⟨h1, h2, h3⟩
    have hfi : f i (writel_relaxed GICD_INT_EN_CLR_X32 base clear i st) = f i m :=
      hf i _ m (by simpa using h1)
    refine ⟨by simpa using h1, ?_, ?_⟩
    · intro b r w
      simp only [writel_relaxed_io, hfi, h2, hstore, hclr, hset]
      by_cases hc : b = base ∧ r = set.store
      · by_cases hw : w = i
        · subst hw
          simp [hc, and_not32_all]
        · have h4 : (w < i + 1) = (w < i) := by
            apply propext; constructor <;> intro h <;> omega
          simp only [hc, hw, and_false, and_self, true_and, if_false, h4]
      · have h5 : ∀ q : Prop, (b = base ∧ r = set.store ∧ q) = False := by
          intro q
          apply propext
          exact ⟨fun h => hc ⟨h.1, h.2.1⟩, fun h => h.elim⟩
        simp only [h5, if_false]
    · simp only [writel_relaxed_trace, hfi, h3, List.range_succ, List.flatMap_append,
        List.flatMap_singleton, List.append_assoc, List.cons_append, List.nil_append]

theorem gic_dist_restore_active_eq (gic base n : Nat) (m : Machine) :
    gic_dist_restore_active gic base n m =
      clear_set_loop base GIC_DIST_ACTIVE_CLEAR GIC_DIST_ACTIVE_SET n
        (fun i m => (m.gic_data gic).saved_spi_active i) m := rfl

theorem write_loop_trace (base : Nat) (R : Reg) (n : Nat) (f : Nat → Machine → Nat)
    (hf : ∀ i (m1 m2 : Machine), m1.gic_data = m2.gic_data → f i m1 = f i m2) (m : Machine) :
    (write_loop base R n f m).trace =
      m.trace ++ (List.range n).map (fun i => Event.write base R i (u32 (f i m))) :=
  (write_loop_spec base R n f hf m).2.2

/-- The register accesses of `gic_dist_restore` on a mapped instance, in
program order. The clear register of the enable pair is written for word 0
only, before the group loop and the enable-set loop; the clear register of
the active pair is written for every word, each time before the set
register of the same word. -/
theorem gic_dist_restore_trace (gic : Nat) (m : Machine) (hb : (m.gic_data gic).dist_base ≠ 0) :
    (gic_dist_restore gic m).trace =
      m.trace ++ [Event.write (m.gic_data gic).dist_base GIC_DIST_CTRL 0 0] ++
        (List.range (DIV_ROUND_UP (m.gic_data gic).gic_irqs 16)).map (fun i =>
          Event.write (m.gic_data gic).dist_base GIC_DIST_CONFIG i
            (u32 ((m.gic_data gic).saved_spi_conf i))) ++
        (List.range (DIV_ROUND_UP (m.gic_data gic).gic_irqs 4)).map (fun i =>
          Event.write (m.gic_data gic).dist_base GIC_DIST_PRI i GICD_INT_DEF_PRI_X4) ++
        (List.range (DIV_ROUND_UP (m.gic_data gic).gic_irqs 4)).map (fun i =>
          Event.write (m.gic_data gic).dist_base GIC_DIST_TARGET i
            (u32 ((m.gic_data gic).saved_spi_target i))) ++
        (if 0 < DIV_ROUND_UP (m.gic_data gic).gic_irqs 32 then
          [Event.write (m.gic_data gic).dist_base GIC_DIST_ENABLE_CLEAR 0 GICD_INT_EN_CLR_X32] ++
            (List.range (DIV_ROUND_UP (m.gic_data gic).gic_irqs 32)).map (fun i =>
              Event.write (m.gic_data gic).dist_base GIC_DIST_IGROUP i
                (u32 ((m.gic_data gic).saved_spi_group i))) ++
            (List.range (DIV_ROUND_UP (m.gic_data gic).gic_irqs 32)).map (fun i =>
              Event.write (m.gic_data gic).dist_base GIC_DIST_ENABLE_SET i
                (u32 ((m.gic_data gic).saved_spi_enable i)))
         else []) ++
        (List.range (DIV_ROUND_UP (m.gic_data gic).gic_irqs 32)).flatMap (fun i =>
          [Event.write (m.gic_data gic).dist_base GIC_DIST_ACTIVE_CLEAR i GICD_INT_EN_CLR_X32,
            Event.write (m.gic_data gic).dist_base GIC_DIST_ACTIVE_SET i
              (u32 ((m.gic_data gic).saved_spi_active i))]) ++
        [Event.write (m.gic_data gic).dist_base GIC_DIST_CTRL 0
          (if (m.gic_data gic).fiq_enable then 3 else 1)] := by
  have hall : u32 GICD_INT_EN_CLR_X32 = GICD_INT_EN_CLR_X32 := by decide
  have hen : ∀ m' : Machine, m'.gic_data = m.gic_data →
      (gic_dist_restore_enable gic (m.gic_data gic).dist_base
        (DIV_ROUND_UP (m.gic_data gic).gic_irqs 32) 0 m').2.trace =
      m'.trace ++
        (if 0 < DIV_ROUND_UP (m.gic_data gic).gic_irqs 32 then
          [Event.write (m.gic_data gic).dist_base GIC_DIST_ENABLE_CLEAR 0 GICD_INT_EN_CLR_X32] ++
            (List.range (DIV_ROUND_UP (m.gic_data gic).gic_irqs 32)).map (fun i =>
              Event.write (m.gic_data gic).dist_base GIC_DIST_IGROUP i
                (u32 ((m.gic_data gic).saved_spi_group i))) ++
            (List.range (DIV_ROUND_UP (m.gic_data gic).gic_irqs 32)).map (fun i =>
              Event.write (m.gic_data gic).dist_base GIC_DIST_ENABLE_SET i
                (u32 ((m.gic_data gic).saved_spi_enable i)))
         else []) := by
    intro m' hm'
    rw [gic_dist_restore_enable_eq]
    split
    · show (write_loop _ _ _ _ _).trace = _
      rw [write_loop_trace _ GIC_DIST_ENABLE_SET _ (fun i m => (m.gic_data gic).saved_spi_enable i)
          (fun i m1 m2 h => by simp only [h]),
        write_loop_trace _ GIC_DIST_IGROUP _ (fun i m => (m.gic_data gic).saved_spi_group i)
          (fun i m1 m2 h => by simp only [h])]
      simp only [write_loop_gic_data, writel_relaxed_gic_data, writel_relaxed_trace, hm', hall,
        List.append_assoc]
    · simp
  unfold gic_dist_restore
  rw [if_neg hb]
  simp only [gic_dist_restore_active_gic_data, gic_dist_restore_enable_gic_data,
    write_loop_gic_data, writel_relaxed_gic_data]
  have key : ∀ v,
      (writel_relaxed v (m.gic_data gic).dist_base GIC_DIST_CTRL 0
        (gic_dist_restore_active gic (m.gic_data gic).dist_base
          (DIV_ROUND_UP (m.gic_data gic).gic_irqs 32)
          (gic_dist_restore_enable gic (m.gic_data gic).dist_base
            (DIV_ROUND_UP (m.gic_data gic).gic_irqs 32) 0
            (write_loop (m.gic_data gic).dist_base GIC_DIST_TARGET
              (DIV_ROUND_UP (m.gic_data gic).gic_irqs 4)
              (fun i m => (m.gic_data gic).saved_spi_target i)
              (write_loop (m.gic_data gic).dist_base GIC_DIST_PRI
                (DIV_ROUND_UP (m.gic_data gic).gic_irqs 4) (fun _ _ => GICD_INT_DEF_PRI_X4)
                (write_loop (m.gic_data gic).dist_base GIC_DIST_CONFIG
                  (DIV_ROUND_UP (m.gic_data gic).gic_irqs 16)
                  (fun i m => (m.gic_data gic).saved_spi_conf i)
                  (writel_relaxed GICD_DISABLE (m.gic_data gic).dist_base GIC_DIST_CTRL 0
                    m))))).2)).trace =
      m.trace ++ [Event.write (m.gic_data gic).dist_base GIC_DIST_CTRL 0 0] ++
        (List.range (DIV_ROUND_UP (m.gic_data gic).gic_irqs 16)).map (fun i =>
          Event.write (m.gic_data gic).dist_base GIC_DIST_CONFIG i
            (u32 ((m.gic_data gic).saved_spi_conf i))) ++
        (List.range (DIV_ROUND_UP (m.gic_data gic).gic_irqs 4)).map (fun i =>
          Event.write (m.gic_data gic).dist_base GIC_DIST_PRI i GICD_INT_DEF_PRI_X4) ++
        (List.range (DIV_ROUND_UP (m.gic_data gic).gic_irqs 4)).map (fun i =>
          Event.write (m.gic_data gic).dist_base GIC_DIST_TARGET i
            (u32 ((m.gic_data gic).saved_spi_target i))) ++
        (if 0 < DIV_ROUND_UP (m.gic_data gic).gic_irqs 32 then
          [Event.write (m.gic_data gic).dist_base GIC_DIST_ENABLE_CLEAR 0 GICD_INT_EN_CLR_X32] ++
            (List.range (DIV_ROUND_UP (m.gic_data gic).gic_irqs 32)).map (fun i =>
              Event.write (m.gic_data gic).dist_base GIC_DIST_IGROUP i
                (u32 ((m.gic_data gic).saved_spi_group i))) ++
            (List.range (DIV_ROUND_UP (m.gic_data gic).gic_irqs 32)).map (fun i =>
              Event.write (m.gic_data gic).dist_base GIC_DIST_ENABLE_SET i
                (u32 ((m.gic_data gic).saved_spi_enable i)))
         else []) ++
        (List.range (DIV_ROUND_UP (m.gic_data gic).gic_irqs 32)).flatMap (fun i =>
          [Event.write (m.gic_data gic).dist_base GIC_DIST_ACTIVE_CLEAR i GICD_INT_EN_CLR_X32,
            Event.write (m.gic_data gic).dist_base GIC_DIST_ACTIVE_SET i
              (u32 ((m.gic_data gic).saved_spi_active i))]) ++
        [Event.write (m.gic_data gic).dist_base GIC_DIST_CTRL 0 (u32 v)] := by
    intro v
    rw [writel_relaxed_trace, gic_dist_restore_active_eq,
      (clear_set_loop_spec _ GIC_DIST_ACTIVE_CLEAR GIC_DIST_ACTIVE_SET _
        (fun i m => (m.gic_data gic).saved_spi_active i) (fun i m1 m2 h => by simp only [h]) rfl
        (fun _ _ => rfl) (fun _ _ => rfl) _).2.2,
      hen _ (by simp),
      write_loop_trace _ GIC_DIST_TARGET _ (fun i m => (m.gic_data gic).saved_spi_target i)
        (fun i m1 m2 h => by simp only [h]),
      write_loop_trace _ GIC_DIST_PRI _ (fun _ _ => GICD_INT_DEF_PRI_X4) (fun _ _ _ _ => rfl),
      write_loop_trace _ GIC_DIST_CONFIG _ (fun i m => (m.gic_data gic).saved_spi_conf i)
        (fun i m1 m2 h => by simp only [h]), writel_relaxed_trace]
    simp only [gic_dist_restore_enable_gic_data, write_loop_gic_data, writel_relaxed_gic_data,
      u32_DEF_PRI, hall]
    rfl
  cases hfq : (m.gic_data gic).fiq_enable
  · simp only [Bool.false_eq_true, if_false]
    rw [key]
    rfl
  · simp only [if_true]
    rw [key]
    rfl

/-- C12 fails on the enable words above word 0: on the example primary
instance (64 sources, saved arrays all zero) source 32 is enabled and active
when the restore begins and is not in the saved state; `gic_dist_restore`
writes the enable-clear register of word 0 only, so the source is still
enabled after it, whereas its active bit is cleared as the claim says. -/
theorem gic_dist_restore_enable_not_cleared :
    ((exampleMachine guardExampleIo).gic_data 0).gic_irqs = 64 ∧
    ((exampleMachine guardExampleIo).gic_data 0).saved_spi_enable 1 = 0 ∧
    enable_bit (exampleMachine guardExampleIo) 1 32 = true ∧
    active_bit (exampleMachine guardExampleIo) 1 32 = true ∧
    enable_bit (gic_dist_restore 0 (exampleMachine guardExampleIo)) 1 32 = true ∧
    active_bit (gic_dist_restore 0 (exampleMachine guardExampleIo)) 1 32 = false ∧
    (gic_dist_restore 0 (exampleMachine guardExampleIo)).trace.filter
        (Event.isWriteTo GIC_DIST_ENABLE_CLEAR) =
      [Event.write 1 GIC_DIST_ENABLE_CLEAR 0 0xffffffff] ∧
    (gic_dist_restore 0 (exampleMachine guardExampleIo)).trace.filter
        (Event.isWriteTo GIC_DIST_ACTIVE_CLEAR) =
      [Event.write 1 GIC_DIST_ACTIVE_CLEAR 0 0xffffffff,
        Event.write 1 GIC_DIST_ACTIVE_CLEAR 1 0xffffffff] := by
  have hb : ((exampleMachine guardExampleIo).gic_data 0).dist_base ≠ 0 := by decide
  have r2 := (gic_dist_restore_spec 0 (exampleMachine guardExampleIo) hb).2
  have t2 := gic_dist_restore_trace 0 (exampleMachine guardExampleIo) hb
  refine ⟨by decide, by decide, by decide, by decide, ?_, ?_, ?_, ?_⟩
  · unfold enable_bit
    rw [r2]
    decide
  · unfold active_bit
    rw [r2]
    decide
  · rw [t2]
    decide
  · rw [t2]
    decide

/-- C13 fails on an instance other than `gic_data[0]`: `gic_dist_save` on the
example satellite instance `gic_data[1]`, whose active word 1 holds 1, leaves
the saved active word 1 of `gic_data[1]` at 0 and changes the saved active
word 1 of `gic_data[0]` from 0 to 1; the config, target, enable and group
words do land in the arrays of `gic_data[1]`. -/
theorem gic_dist_save_foreign_array :
    ((exampleMachine guardExampleIo).gic_data 1).dist_base = 3 ∧
    u32 ((exampleMachine guardExampleIo).io 3 GIC_DIST_ACTIVE_SET 1) = 1 ∧
    ((gic_dist_save 1 (exampleMachine guardExampleIo)).gic_data 1).saved_spi_active 1 = 0 ∧
    ((exampleMachine guardExampleIo).gic_data 0).saved_spi_active 1 = 0 ∧
    ((gic_dist_save 1 (exampleMachine guardExampleIo)).gic_data 0).saved_spi_active 1 = 1 ∧
    ((gic_dist_save 1 (exampleMachine guardExampleIo)).gic_data 1).saved_spi_enable 1 = 1 ∧
    ((gic_dist_save 1 (exampleMachine guardExampleIo)).gic_data 1).saved_spi_target 8 = 2 := by
  decide

/-! ## Power-transition notifier -/

/-- C14: on an instance with per-CPU interfaces `gic_notifier` returns
`NOTIFY_OK` together with the machine that `gic_cpu_save` leaves on
`CPU_PM_ENTER`, that `gic_cpu_restore` leaves on `CPU_PM_ENTER_FAILED` and
`CPU_PM_EXIT`, that `gic_dist_save` leaves on `CPU_CLUSTER_PM_ENTER`, that
`gic_dist_restore` leaves on `CPU_CLUSTER_PM_ENTER_FAILED` and
`CPU_CLUSTER_PM_EXIT`, and the unchanged machine on every other command
(whatever the two power-on/power-off tags and the AGIC option are). -/
theorem gic_notifier_percpu (agic : Bool) (pon poff gic cpu cmd : Nat) (m : Machine)
    (hp : (m.gic_data gic).is_percpu = true) :
    (cmd = CPU_PM_ENTER →
      gic_notifier agic pon poff gic cpu cmd m = (NOTIFY_OK, gic_cpu_save gic cpu m)) ∧
    (cmd = CPU_PM_ENTER_FAILED ∨ cmd = CPU_PM_EXIT →
      gic_notifier agic pon poff gic cpu cmd m = (NOTIFY_OK, gic_cpu_restore gic cpu m)) ∧
    (cmd = CPU_CLUSTER_PM_ENTER →
      gic_notifier agic pon poff gic cpu cmd m = (NOTIFY_OK, gic_dist_save gic m)) ∧
    (cmd = CPU_CLUSTER_PM_ENTER_FAILED ∨ cmd = CPU_CLUSTER_PM_EXIT →
      gic_notifier agic pon poff gic cpu cmd m = (NOTIFY_OK, gic_dist_restore gic m)) ∧
    (cmd ≠ CPU_PM_ENTER → cmd ≠ CPU_PM_ENTER_FAILED → cmd ≠ CPU_PM_EXIT →
      cmd ≠ CPU_CLUSTER_PM_ENTER → cmd ≠ CPU_CLUSTER_PM_ENTER_FAILED →
      cmd ≠ CPU_CLUSTER_PM_EXIT →
      gic_notifier agic pon poff gic cpu cmd m = (NOTIFY_OK, m)) ∧
    (gic_notifier agic pon poff gic cpu cmd m).1 = NOTIFY_OK := by
  unfold gic_notifier
  rw [if_pos hp]
  refine ⟨?_, ?_, ?_, ?_, ?_, ?_⟩
  · intro h
    rw [if_pos h]
  · intro h
    have h1 : cmd ≠ CPU_PM_ENTER := by
      rcases h with h | h <;> rw [h] <;> decide
    rw [if_neg h1, if_pos h]
  · intro h
    have h1 : cmd ≠ CPU_PM_ENTER := by rw [h]; decide
    have h2 : ¬ (cmd = CPU_PM_ENTER_FAILED ∨ cmd = CPU_PM_EXIT) := by rw [h]; decide
    rw [if_neg h1, if_neg h2, if_pos h]
  · intro h
    have h1 : cmd ≠ CPU_PM_ENTER := by
      rcases h with h | h <;> rw [h] <;> decide
    have h2 : ¬ (cmd = CPU_PM_ENTER_FAILED ∨ cmd = CPU_PM_EXIT) := by
      rcases h with h | h <;> rw [h] <;> decide
    have h3 : cmd ≠ CPU_CLUSTER_PM_ENTER := by
      rcases h with h | h <;> rw [h] <;> decide
    rw [if_neg h1, if_neg h2, if_neg h3, if_pos h]
  · intro h1 h2 h3 h4 h5 h6
    rw [if_neg h1, if_neg (by tauto), if_neg h4, if_neg (by tauto)]
  · split
    · rfl
    · split
      · rfl
      · split
        · rfl
        · split <;> rfl

/-- Witness of C14: the example primary instance on `CPU_PM_ENTER`. -/
theorem gic_notifier_percpu_witness :
    ((exampleMachine guardExampleIo).gic_data 0).is_percpu = true ∧
    gic_notifier true 6 7 0 0 CPU_PM_ENTER (exampleMachine guardExampleIo) =
      (NOTIFY_OK, gic_cpu_save 0 0 (exampleMachine guardExampleIo)) ∧
    gic_notifier true 6 7 0 0 6 (exampleMachine guardExampleIo) =
      (NOTIFY_OK, exampleMachine guardExampleIo) :=
  ⟨by decide,
    (gic_notifier_percpu true 6 7 0 0 CPU_PM_ENTER (exampleMachine guardExampleIo)
      (by decide)).1 rfl,
    (gic_notifier_percpu true 6 7 0 0 6 (exampleMachine guardExampleIo) (by decide)).2.2.2.2.1
      (by decide) (by decide) (by decide) (by decide) (by decide) (by decide)⟩

/-! ## Inter-processor signals -/

/-- The register accesses of `gic_raise_softirq`: two writes to the
software-interrupt register of the instance `gic_data[0]`, the second with
the bit `0x8000` more when FIQ support is on. -/
theorem gic_raise_softirq_trace (mask : Nat → Bool) (irq : Nat) (m : Machine) :
    (gic_raise_softirq mask irq m).trace =
      m.trace ++
        [Event.write (m.gic_data 0).dist_base GIC_DIST_SOFTINT 0
            (u32 (((forLoop 0 m.nr_cpu_ids (fun cpu map =>
              if mask cpu then map ||| u8 (m.gic_cpu_map cpu) else map) 0).2 <<< 16) ||| irq)),
          Event.write (m.gic_data 0).dist_base GIC_DIST_SOFTINT 0
            (u32 (if (m.gic_data 0).fiq_enable then
              (((forLoop 0 m.nr_cpu_ids (fun cpu map =>
                if mask cpu then map ||| u8 (m.gic_cpu_map cpu) else map) 0).2 <<< 16) ||| irq)
                ||| 0x8000
             else
              ((forLoop 0 m.nr_cpu_ids (fun cpu map =>
                if mask cpu then map ||| u8 (m.gic_cpu_map cpu) else map) 0).2 <<< 16) ||| irq))] := by
  unfold gic_raise_softirq
  simp only [writel_relaxed_trace, writel_relaxed_gic_data, List.append_assoc, List.cons_append,
    List.nil_append]

/-- C17 fails on every call: on the example machine (FIQ support off, CPU 1
mapped to interface 1) the signal 3 raised for the set `{1}` gives two writes
of `(2 << 16) | 3` to the software-interrupt register of instance 0, not
one. -/
theorem gic_raise_softirq_double_write :
    ((exampleMachine guardExampleIo).gic_data 0).fiq_enable = false ∧
    (exampleMachine guardExampleIo).gic_cpu_map 1 = 2 ∧
    (gic_raise_softirq (fun c => c == 1) 3 (exampleMachine guardExampleIo)).trace =
      [Event.write 1 GIC_DIST_SOFTINT 0 ((2 <<< 16) ||| 3),
        Event.write 1 GIC_DIST_SOFTINT 0 ((2 <<< 16) ||| 3)] := by
  decide

/-! ## Cascaded instances -/

/-- C20, as the code has it: `gic_handle_cascade_irq` claims one ID from the
child instance; for the ID 1023 it calls no handler at all, for an ID below
32 or above 1020 it calls the bad-interrupt handler only, and for every ID in
32..1020 (whatever `gic_irqs` of the child is) it dispatches to the IRQ
handle of the ID. -/
theorem gic_handle_cascade_irq_classification (chip_data : Nat) (m : Machine) :
    (gic_handle_cascade_irq chip_data m).trace =
      m.trace ++
        [Event.chained_irq_enter, Event.read (m.gic_data chip_data).cpu_base GIC_CPU_INTACK 0] ++
        (if claim_id (m.intack (m.gic_data chip_data).cpu_base
            (m.intack_pos (m.gic_data chip_data).cpu_base)) = 1023 then []
         else if claim_id (m.intack (m.gic_data chip_data).cpu_base
              (m.intack_pos (m.gic_data chip_data).cpu_base)) < 32 ∨
            1020 < claim_id (m.intack (m.gic_data chip_data).cpu_base
              (m.intack_pos (m.gic_data chip_data).cpu_base)) then
          [Event.handle_bad_irq]
         else
          [Event.generic_handle_irq (claim_id (m.intack (m.gic_data chip_data).cpu_base
            (m.intack_pos (m.gic_data chip_data).cpu_base)))]) ++
        [Event.chained_irq_exit] := by
  have hv := (readl_relaxed_claim (m.gic_data chip_data).cpu_base 0 (chained_irq_enter m)).1
  have hid : (readl_relaxed (m.gic_data chip_data).cpu_base GIC_CPU_INTACK 0
      (chained_irq_enter m)).1 &&& GICC_IAR_INT_ID_MASK =
      claim_id (m.intack (m.gic_data chip_data).cpu_base
        (m.intack_pos (m.gic_data chip_data).cpu_base)) := by
    rw [hv]; simp [claim_id, u32, chained_irq_enter]
  unfold gic_handle_cascade_irq
  simp only [show (chained_irq_enter m).gic_data = m.gic_data from rfl, hid, GICC_INT_SPURIOUS]
  split
  · simp [chained_irq_exit, chained_irq_enter]
  · split
    · simp [chained_irq_exit, handle_bad_irq, chained_irq_enter]
    · simp [chained_irq_exit, generic_handle_irq, chained_irq_enter]

/-- C20 as stated fails twice on the example satellite instance (64
sources): the claimed ID 1023 gets no call of the bad-interrupt handler, and
the claimed ID 100, outside `[32, gic_irqs)`, is dispatched. -/
theorem gic_handle_cascade_irq_counterexample :
    ((claimExampleMachine [1023]).gic_data 1).gic_irqs = 64 ∧
    (gic_handle_cascade_irq 1 (claimExampleMachine [1023])).trace =
      [Event.chained_irq_enter, Event.read 4 GIC_CPU_INTACK 0, Event.chained_irq_exit] ∧
    (gic_handle_cascade_irq 1 (claimExampleMachine [100])).trace =
      [Event.chained_irq_enter, Event.read 4 GIC_CPU_INTACK 0, Event.generic_handle_irq 100,
        Event.chained_irq_exit] := by
  decide

/-! ## Per-CPU save and restore -/

/-- The effect of `gic_cpu_if_up`: one read and one write of the CPU
interface control register. -/
theorem gic_cpu_if_up_spec (gic : Nat) (m : Machine) :
    (gic_cpu_if_up gic m).gic_data = m.gic_data ∧
    (gic_cpu_if_up gic m).gic_cpu_map = m.gic_cpu_map ∧
    (∀ b r w, (gic_cpu_if_up gic m).io b r w =
      if b = (m.gic_data gic).cpu_base ∧ r = GIC_CPU_CTRL ∧ w = 0 then
        cpu_ctrl_value gic m (m.io (m.gic_data gic).cpu_base GIC_CPU_CTRL 0)
      else m.io b r w) ∧
    (gic_cpu_if_up gic m).trace =
      m.trace ++ [Event.read (m.gic_data gic).cpu_base GIC_CPU_CTRL 0,
        Event.write (m.gic_data gic).cpu_base GIC_CPU_CTRL 0
          (cpu_ctrl_value gic m (m.io (m.gic_data gic).cpu_base GIC_CPU_CTRL 0))] := by
  unfold gic_cpu_if_up
  have hv : (readl_relaxed (m.gic_data gic).cpu_base GIC_CPU_CTRL 0 m).1 =
      u32 (m.io (m.gic_data gic).cpu_base GIC_CPU_CTRL 0) :=
    readl_relaxed_val _ _ _ _ (by decide)
  simp only [hv, readl_relaxed_gic_data]
  have hval : u32 ((if (m.gic_data gic).fiq_enable = true then
        u32 (m.io (m.gic_data gic).cpu_base GIC_CPU_CTRL 0) &&& GICC_DIS_BYPASS_MASK ||| 0x1f
      else u32 (m.io (m.gic_data gic).cpu_base GIC_CPU_CTRL 0) &&& GICC_DIS_BYPASS_MASK) |||
        (if gic = 0 ∧ m.supports_deactivate = true then GIC_CPU_CTRL_EOImodeNS else 0) |||
        GICC_ENABLE) =
      cpu_ctrl_value gic m (m.io (m.gic_data gic).cpu_base GIC_CPU_CTRL 0) := rfl
  refine ⟨by simp, by simp, ?_, ?_⟩
  · intro b r w
    rw [writel_relaxed_io, readl_relaxed_io, hval]
    rfl
  · rw [writel_relaxed_trace, readl_relaxed_trace, hval, List.append_assoc]
    rfl

theorem cpu_ctrl_value_enable (gic : Nat) (m : Machine) (old : Nat) :
    (cpu_ctrl_value gic m old).testBit 0 = true := by
  unfold cpu_ctrl_value
  rw [testBit_u32, Nat.testBit_or]
  have : GICC_ENABLE.testBit 0 = true := by decide
  simp [this]

theorem clear_set_loop_io (base : Nat) (clear set : Reg) (n : Nat) (f : Nat → Machine → Nat)
    (hf : ∀ i (m1 m2 : Machine), m1.gic_data = m2.gic_data → f i m1 = f i m2)
    (hstore : clear.store = set.store)
    (hclr : ∀ old v, clear.written old v = old &&& not32 v)
    (hset : ∀ old v, set.written old v = old ||| v) (m : Machine) (b : Nat) (r : Reg) (w : Nat) :
    (clear_set_loop base clear set n f m).io b r w =
      if b = base ∧ r = set.store ∧ w < n then u32 (f w m) else m.io b r w :=
  (clear_set_loop_spec base clear set n f hf hstore hclr hset m).2.1 b r w

@[simp] theorem clear_set_loop_gic_data (base : Nat) (clear set : Reg) (n : Nat)
    (f : Nat → Machine → Nat) (m : Machine) :
    (clear_set_loop base clear set n f m).gic_data = m.gic_data := by
  unfold clear_set_loop
  exact forLoop_induct (fun i m =>
      writel_relaxed (f i (writel_relaxed GICD_INT_EN_CLR_X32 base clear i m)) base set i
        (writel_relaxed GICD_INT_EN_CLR_X32 base clear i m))
    (fun _ m' => m'.gic_data = m.gic_data) 0 n m (Nat.zero_le _) rfl
    (fun i st _ _ h => by simpa using h)

theorem forLoop_supports_deactivate (n : Nat) (body : Nat → Machine → Machine)
    (hbody : ∀ i m, (body i m).supports_deactivate = m.supports_deactivate) (m : Machine) :
    (forLoop 0 n body m).2.supports_deactivate = m.supports_deactivate :=
  forLoop_induct body (fun _ m' => m'.supports_deactivate = m.supports_deactivate) 0 n m
    (Nat.zero_le _) rfl (fun i st _ _ h => (hbody i st).trans h)

@[simp] theorem write_loop_supports_deactivate (base : Nat) (R : Reg) (n : Nat)
    (f : Nat → Machine → Nat) (m : Machine) :
    (write_loop base R n f m).supports_deactivate = m.supports_deactivate := by
  unfold write_loop
  exact forLoop_supports_deactivate n _ (fun i m => by simp) m

@[simp] theorem clear_set_loop_supports_deactivate (base : Nat) (clear set : Reg) (n : Nat)
    (f : Nat → Machine → Nat) (m : Machine) :
    (clear_set_loop base clear set n f m).supports_deactivate = m.supports_deactivate := by
  unfold clear_set_loop
  exact forLoop_supports_deactivate n _ (fun i m => by simp) m

theorem cpu_ctrl_value_congr (gic : Nat) (m m' : Machine) (hg : m'.gic_data = m.gic_data)
    (hs : m'.supports_deactivate = m.supports_deactivate) :
    cpu_ctrl_value gic m' = cpu_ctrl_value gic m := by
  funext old
  unfold cpu_ctrl_value
  rw [hg, hs]

/-- What `gic_cpu_restore` leaves in the registers when both bases are
mapped, in terms of the registers before it and of the per-CPU saved arrays;
the driver data are unchanged. -/
theorem gic_cpu_restore_spec (gic cpu : Nat) (m : Machine)
    (hd : (m.gic_data gic).dist_base ≠ 0) (hc : (m.gic_data gic).cpu_base ≠ 0) :
    (gic_cpu_restore gic cpu m).gic_data = m.gic_data ∧
    (∀ b r w, (gic_cpu_restore gic cpu m).io b r w =
      if b = (m.gic_data gic).cpu_base ∧ r = GIC_CPU_CTRL ∧ w = 0 then
        cpu_ctrl_value gic m (m.io (m.gic_data gic).cpu_base GIC_CPU_CTRL 0)
      else if b = (m.gic_data gic).cpu_base ∧ r = GIC_CPU_PRIMASK ∧ w = 0 then
        GICC_INT_PRI_THRESHOLD
      else if b = (m.gic_data gic).dist_base ∧ r = GIC_DIST_PRI ∧ w < 8 then
        GICD_INT_DEF_PRI_X4
      else if b = (m.gic_data gic).dist_base ∧ r = GIC_DIST_CONFIG ∧ w < 2 then
        u32 ((m.gic_data gic).saved_ppi_conf (ppi_slot (m.gic_data gic) cpu) w)
      else if b = (m.gic_data gic).dist_base ∧ r = GIC_DIST_ACTIVE_SET ∧ w < 1 then
        u32 ((m.gic_data gic).saved_ppi_active (ppi_slot (m.gic_data gic) cpu) w)
      else if b = (m.gic_data gic).dist_base ∧ r = GIC_DIST_ENABLE_SET ∧ w < 1 then
        u32 ((m.gic_data gic).saved_ppi_enable (ppi_slot (m.gic_data gic) cpu) w)
      else m.io b r w) := by
  unfold gic_cpu_restore
  rw [if_neg (by tauto)]
  have hn1 : DIV_ROUND_UP 32 32 = 1 := by decide
  have hn2 : DIV_ROUND_UP 32 16 = 2 := by decide
  have hn8 : DIV_ROUND_UP 32 4 = 8 := by decide
  have hthr : u32 GICC_INT_PRI_THRESHOLD = GICC_INT_PRI_THRESHOLD := by decide
  simp only [hn1, hn2, hn8]
  refine ⟨?_, ?_⟩
  · rw [(gic_cpu_if_up_spec _ _).1]
    simp
  · intro b r w
    rw [(gic_cpu_if_up_spec _ _).2.2.1, writel_relaxed_io,
      write_loop_io _ GIC_DIST_PRI _ (fun _ _ => GICD_INT_DEF_PRI_X4) (fun _ _ _ _ => rfl),
      write_loop_io _ GIC_DIST_CONFIG _
        (fun i m' => (m'.gic_data gic).saved_ppi_conf (ppi_slot (m.gic_data gic) cpu) i)
        (fun i m1 m2 h => by simp only [h]),
      clear_set_loop_io _ GIC_DIST_ACTIVE_CLEAR GIC_DIST_ACTIVE_SET _
        (fun i m' => (m'.gic_data gic).saved_ppi_active (ppi_slot (m.gic_data gic) cpu) i)
        (fun i m1 m2 h => by simp only [h]) rfl (fun _ _ => rfl) (fun _ _ => rfl),
      clear_set_loop_io _ GIC_DIST_ENABLE_CLEAR GIC_DIST_ENABLE_SET _
        (fun i m' => (m'.gic_data gic).saved_ppi_enable (ppi_slot (m.gic_data gic) cpu) i)
        (fun i m1 m2 h => by simp only [h]) rfl (fun _ _ => rfl) (fun _ _ => rfl)]
    simp only [writel_relaxed_gic_data, write_loop_gic_data, clear_set_loop_gic_data,
      writel_relaxed_io, u32_DEF_PRI, hthr,
      write_loop_io _ GIC_DIST_PRI _ (fun _ _ => GICD_INT_DEF_PRI_X4) (fun _ _ _ _ => rfl),
      write_loop_io _ GIC_DIST_CONFIG _
        (fun i m' => (m'.gic_data gic).saved_ppi_conf (ppi_slot (m.gic_data gic) cpu) i)
        (fun i m1 m2 h => by simp only [h]),
      clear_set_loop_io _ GIC_DIST_ACTIVE_CLEAR GIC_DIST_ACTIVE_SET _
        (fun i m' => (m'.gic_data gic).saved_ppi_active (ppi_slot (m.gic_data gic) cpu) i)
        (fun i m1 m2 h => by simp only [h]) rfl (fun _ _ => rfl) (fun _ _ => rfl),
      clear_set_loop_io _ GIC_DIST_ENABLE_CLEAR GIC_DIST_ENABLE_SET _
        (fun i m' => (m'.gic_data gic).saved_ppi_enable (ppi_slot (m.gic_data gic) cpu) i)
        (fun i m1 m2 h => by simp only [h]) rfl (fun _ _ => rfl) (fun _ _ => rfl)]
    rw [cpu_ctrl_value_congr gic m _ (by simp) (by simp)]
    cases r <;> simp [Reg.store, Reg.written]

/-- The register accesses of `gic_cpu_restore` with both bases mapped, in
program order: each of the enable and active words is cleared with all-ones
before the saved word is set. -/
theorem gic_cpu_restore_trace (gic cpu : Nat) (m : Machine)
    (hd : (m.gic_data gic).dist_base ≠ 0) (hc : (m.gic_data gic).cpu_base ≠ 0) :
    (gic_cpu_restore gic cpu m).trace =
      m.trace ++
        [Event.write (m.gic_data gic).dist_base GIC_DIST_ENABLE_CLEAR 0 GICD_INT_EN_CLR_X32,
          Event.write (m.gic_data gic).dist_base GIC_DIST_ENABLE_SET 0
            (u32 ((m.gic_data gic).saved_ppi_enable (ppi_slot (m.gic_data gic) cpu) 0)),
          Event.write (m.gic_data gic).dist_base GIC_DIST_ACTIVE_CLEAR 0 GICD_INT_EN_CLR_X32,
          Event.write (m.gic_data gic).dist_base GIC_DIST_ACTIVE_SET 0
            (u32 ((m.gic_data gic).saved_ppi_active (ppi_slot (m.gic_data gic) cpu) 0)),
          Event.write (m.gic_data gic).dist_base GIC_DIST_CONFIG 0
            (u32 ((m.gic_data gic).saved_ppi_conf (ppi_slot (m.gic_data gic) cpu) 0)),
          Event.write (m.gic_data gic).dist_base GIC_DIST_CONFIG 1
            (u32 ((m.gic_data gic).saved_ppi_conf (ppi_slot (m.gic_data gic) cpu) 1))] ++
        (List.range 8).map (fun i =>
          Event.write (m.gic_data gic).dist_base GIC_DIST_PRI i GICD_INT_DEF_PRI_X4) ++
        [Event.write (m.gic_data gic).cpu_base GIC_CPU_PRIMASK 0 GICC_INT_PRI_THRESHOLD,
          Event.read (m.gic_data gic).cpu_base GIC_CPU_CTRL 0,
          Event.write (m.gic_data gic).cpu_base GIC_CPU_CTRL 0
            (cpu_ctrl_value gic m (m.io (m.gic_data gic).cpu_base GIC_CPU_CTRL 0))] := by
  unfold gic_cpu_restore
  rw [if_neg (by tauto)]
  have hn1 : DIV_ROUND_UP 32 32 = 1 := by decide
  have hn2 : DIV_ROUND_UP 32 16 = 2 := by decide
  have hn8 : DIV_ROUND_UP 32 4 = 8 := by decide
  have hthr : u32 GICC_INT_PRI_THRESHOLD = GICC_INT_PRI_THRESHOLD := by decide
  have hall : u32 GICD_INT_EN_CLR_X32 = GICD_INT_EN_CLR_X32 := by decide
  simp only [hn1, hn2, hn8]
  rw [(gic_cpu_if_up_spec _ _).2.2.2, cpu_ctrl_value_congr gic m _ (by simp) (by simp)]
  have hio : (writel_relaxed GICC_INT_PRI_THRESHOLD (m.gic_data gic).cpu_base GIC_CPU_PRIMASK 0
      (write_loop (m.gic_data gic).dist_base GIC_DIST_PRI 8 (fun _ _ => GICD_INT_DEF_PRI_X4)
        (write_loop (m.gic_data gic).dist_base GIC_DIST_CONFIG 2
          (fun i m' => (m'.gic_data gic).saved_ppi_conf (ppi_slot (m.gic_data gic) cpu) i)
          (clear_set_loop (m.gic_data gic).dist_base GIC_DIST_ACTIVE_CLEAR GIC_DIST_ACTIVE_SET 1
            (fun i m' => (m'.gic_data gic).saved_ppi_active (ppi_slot (m.gic_data gic) cpu) i)
            (clear_set_loop (m.gic_data gic).dist_base GIC_DIST_ENABLE_CLEAR
              GIC_DIST_ENABLE_SET 1
              (fun i m' => (m'.gic_data gic).saved_ppi_enable (ppi_slot (m.gic_data gic) cpu) i)
              m))))).io (m.gic_data gic).cpu_base GIC_CPU_CTRL 0 =
      m.io (m.gic_data gic).cpu_base GIC_CPU_CTRL 0 := by
    rw [writel_relaxed_io,
      write_loop_io _ GIC_DIST_PRI _ (fun _ _ => GICD_INT_DEF_PRI_X4) (fun _ _ _ _ => rfl),
      write_loop_io _ GIC_DIST_CONFIG _
        (fun i m' => (m'.gic_data gic).saved_ppi_conf (ppi_slot (m.gic_data gic) cpu) i)
        (fun i m1 m2 h => by simp only [h]),
      clear_set_loop_io _ GIC_DIST_ACTIVE_CLEAR GIC_DIST_ACTIVE_SET _
        (fun i m' => (m'.gic_data gic).saved_ppi_active (ppi_slot (m.gic_data gic) cpu) i)
        (fun i m1 m2 h => by simp only [h]) rfl (fun _ _ => rfl) (fun _ _ => rfl),
      clear_set_loop_io _ GIC_DIST_ENABLE_CLEAR GIC_DIST_ENABLE_SET _
        (fun i m' => (m'.gic_data gic).saved_ppi_enable (ppi_slot (m.gic_data gic) cpu) i)
        (fun i m1 m2 h => by simp only [h]) rfl (fun _ _ => rfl) (fun _ _ => rfl)]
    simp [Reg.store]
  simp only [writel_relaxed_gic_data, write_loop_gic_data, clear_set_loop_gic_data]
  rw [hio, writel_relaxed_trace,
    write_loop_trace _ GIC_DIST_PRI _ (fun _ _ => GICD_INT_DEF_PRI_X4) (fun _ _ _ _ => rfl),
    write_loop_trace _ GIC_DIST_CONFIG _
      (fun i m' => (m'.gic_data gic).saved_ppi_conf (ppi_slot (m.gic_data gic) cpu) i)
      (fun i m1 m2 h => by simp only [h]),
    (clear_set_loop_spec _ GIC_DIST_ACTIVE_CLEAR GIC_DIST_ACTIVE_SET _
      (fun i m' => (m'.gic_data gic).saved_ppi_active (ppi_slot (m.gic_data gic) cpu) i)
      (fun i m1 m2 h => by simp only [h]) rfl (fun _ _ => rfl) (fun _ _ => rfl) _).2.2,
    (clear_set_loop_spec _ GIC_DIST_ENABLE_CLEAR GIC_DIST_ENABLE_SET _
      (fun i m' => (m'.gic_data gic).saved_ppi_enable (ppi_slot (m.gic_data gic) cpu) i)
      (fun i m1 m2 h => by simp only [h]) rfl (fun _ _ => rfl) (fun _ _ => rfl) _).2.2]
  simp only [clear_set_loop_gic_data, u32_DEF_PRI, hall, hthr]
  simp [List.range_succ]

/-- What `gic_cpu_save` does with both bases mapped: the registers are
unchanged, the scalar fields of every instance are kept, and the slot of the
executing CPU in the per-CPU saved arrays of the instance holds the enable
word, the active word and the two config words of sources 0-31. -/
theorem gic_cpu_save_spec (gic cpu : Nat) (m : Machine)
    (hd : (m.gic_data gic).dist_base ≠ 0) (hc : (m.gic_data gic).cpu_base ≠ 0) :
    (gic_cpu_save gic cpu m).io = m.io ∧
    ((gic_cpu_save gic cpu m).gic_data gic).dist_base = (m.gic_data gic).dist_base ∧
    ((gic_cpu_save gic cpu m).gic_data gic).cpu_base = (m.gic_data gic).cpu_base ∧
    ((gic_cpu_save gic cpu m).gic_data gic).is_percpu = (m.gic_data gic).is_percpu ∧
    ((gic_cpu_save gic cpu m).gic_data gic).fiq_enable = (m.gic_data gic).fiq_enable ∧
    (∀ w, ((gic_cpu_save gic cpu m).gic_data gic).saved_ppi_enable
        (ppi_slot (m.gic_data gic) cpu) w =
      if w < 1 then u32 (m.io (m.gic_data gic).dist_base GIC_DIST_ENABLE_SET w)
      else (m.gic_data gic).saved_ppi_enable (ppi_slot (m.gic_data gic) cpu) w) ∧
    (∀ w, ((gic_cpu_save gic cpu m).gic_data gic).saved_ppi_active
        (ppi_slot (m.gic_data gic) cpu) w =
      if w < 1 then u32 (m.io (m.gic_data gic).dist_base GIC_DIST_ACTIVE_SET w)
      else (m.gic_data gic).saved_ppi_active (ppi_slot (m.gic_data gic) cpu) w) ∧
    (∀ w, ((gic_cpu_save gic cpu m).gic_data gic).saved_ppi_conf
        (ppi_slot (m.gic_data gic) cpu) w =
      if w < 2 then u32 (m.io (m.gic_data gic).dist_base GIC_DIST_CONFIG w)
      else (m.gic_data gic).saved_ppi_conf (ppi_slot (m.gic_data gic) cpu) w) := by
  have e1 := fun m' => save_loop_spec (m.gic_data gic).dist_base GIC_DIST_ENABLE_SET (by decide)
    1 gic
    (fun g => g.saved_ppi_enable (ppi_slot (m.gic_data gic) cpu))
    (fun g a =>
      { g with saved_ppi_enable := upd g.saved_ppi_enable (ppi_slot (m.gic_data gic) cpu) a })
    (fun _ _ => upd_same _ _ _) (fun g => by simp only [upd_self])
    (fun _ _ _ => by simp only [upd_upd]) m'
  have e2 := fun m' => save_loop_spec (m.gic_data gic).dist_base GIC_DIST_ACTIVE_SET (by decide)
    1 gic
    (fun g => g.saved_ppi_active (ppi_slot (m.gic_data gic) cpu))
    (fun g a =>
      { g with saved_ppi_active := upd g.saved_ppi_active (ppi_slot (m.gic_data gic) cpu) a })
    (fun _ _ => upd_same _ _ _) (fun g => by simp only [upd_self])
    (fun _ _ _ => by simp only [upd_upd]) m'
  have e3 := fun m' => save_loop_spec (m.gic_data gic).dist_base GIC_DIST_CONFIG (by decide)
    2 gic
    (fun g => g.saved_ppi_conf (ppi_slot (m.gic_data gic) cpu))
    (fun g a =>
      { g with saved_ppi_conf := upd g.saved_ppi_conf (ppi_slot (m.gic_data gic) cpu) a })
    (fun _ _ => upd_same _ _ _) (fun g => by simp only [upd_self])
    (fun _ _ _ => by simp only [upd_upd]) m'
  have hn1 : DIV_ROUND_UP 32 32 = 1 := by decide
  have hn2 : DIV_ROUND_UP 32 16 = 2 := by decide
  unfold gic_cpu_save
  rw [if_neg (by tauto)]
  simp only [hn1, hn2]
  simp only [(e3 _).2.1, (e2 _).2.1, (e1 _).2.1, save_loop_io, Reg.store]
  clear e1 e2 e3
  refine ⟨trivial, ?_, ?_, ?_, ?_, ?_, ?_, ?_⟩
  · simp [upd]
  · simp [upd]
  · simp [upd]
  · simp [upd]
  · intro w; simp [upd]
  · intro w; simp [upd]
  · intro w; simp [upd]

theorem u32_u32 (v : Nat) : u32 (u32 v) = u32 v := by
  unfold u32
  exact Nat.mod_mod _ _

/-- C16: with both bases mapped, let the driver data be as `gic_cpu_save` on
the CPU `cpu` left them and let the registers hold anything (`m2`). After
`gic_cpu_restore` on the same CPU the enable word and the active word of
sources 0-31 and the two config words of sources 0-31 are the values the
save captured from `m`; the priority-mask register holds the fixed
threshold; the enable bit of the CPU interface control register is set; and
the accesses are, in order, clear with all-ones then set for the enable word,
the same for the active word, the two config words, the eight priority
words, the priority mask, and the read and write of the control register. -/
theorem gic_cpu_save_restore_round_trip (gic cpu : Nat) (m m2 : Machine)
    (hd : (m.gic_data gic).dist_base ≠ 0) (hc : (m.gic_data gic).cpu_base ≠ 0)
    (h2 : m2.gic_data = (gic_cpu_save gic cpu m).gic_data) :
    (gic_cpu_restore gic cpu m2).io (m.gic_data gic).dist_base GIC_DIST_ENABLE_SET 0 =
      u32 (m.io (m.gic_data gic).dist_base GIC_DIST_ENABLE_SET 0) ∧
    (gic_cpu_restore gic cpu m2).io (m.gic_data gic).dist_base GIC_DIST_ACTIVE_SET 0 =
      u32 (m.io (m.gic_data gic).dist_base GIC_DIST_ACTIVE_SET 0) ∧
    (∀ w, w < 2 →
      (gic_cpu_restore gic cpu m2).io (m.gic_data gic).dist_base GIC_DIST_CONFIG w =
        u32 (m.io (m.gic_data gic).dist_base GIC_DIST_CONFIG w)) ∧
    (gic_cpu_restore gic cpu m2).io (m.gic_data gic).cpu_base GIC_CPU_PRIMASK 0 =
      GICC_INT_PRI_THRESHOLD ∧
    ((gic_cpu_restore gic cpu m2).io (m.gic_data gic).cpu_base GIC_CPU_CTRL 0).testBit 0 = true ∧
    (gic_cpu_restore gic cpu m2).trace =
      m2.trace ++
        [Event.write (m.gic_data gic).dist_base GIC_DIST_ENABLE_CLEAR 0 0xffffffff,
          Event.write (m.gic_data gic).dist_base GIC_DIST_ENABLE_SET 0
            (u32 (m.io (m.gic_data gic).dist_base GIC_DIST_ENABLE_SET 0)),
          Event.write (m.gic_data gic).dist_base GIC_DIST_ACTIVE_CLEAR 0 0xffffffff,
          Event.write (m.gic_data gic).dist_base GIC_DIST_ACTIVE_SET 0
            (u32 (m.io (m.gic_data gic).dist_base GIC_DIST_ACTIVE_SET 0)),
          Event.write (m.gic_data gic).dist_base GIC_DIST_CONFIG 0
            (u32 (m.io (m.gic_data gic).dist_base GIC_DIST_CONFIG 0)),
          Event.write (m.gic_data gic).dist_base GIC_DIST_CONFIG 1
            (u32 (m.io (m.gic_data gic).dist_base GIC_DIST_CONFIG 1))] ++
        (List.range 8).map (fun i =>
          Event.write (m.gic_data gic).dist_base GIC_DIST_PRI i 0xa0a0a0a0) ++
        [Event.write (m.gic_data gic).cpu_base GIC_CPU_PRIMASK 0 GICC_INT_PRI_THRESHOLD,
          Event.read (m.gic_data gic).cpu_base GIC_CPU_CTRL 0,
          Event.write (m.gic_data gic).cpu_base GIC_CPU_CTRL 0
            (cpu_ctrl_value gic m2 (m2.io (m.gic_data gic).cpu_base GIC_CPU_CTRL 0))] := by
  obtain ⟨_, s1, s2, s3, _, s5, s6, s7⟩ := gic_cpu_save_spec gic cpu m hd hc
  have hd2 : (m2.gic_data gic).dist_base = (m.gic_data gic).dist_base := by rw [h2, s1]
  have hc2 : (m2.gic_data gic).cpu_base = (m.gic_data gic).cpu_base := by rw [h2, s2]
  have hslot : ppi_slot (m2.gic_data gic) cpu = ppi_slot (m.gic_data gic) cpu := by
    unfold ppi_slot
    rw [h2, s3]
  have R := (gic_cpu_restore_spec gic cpu m2 (by rw [hd2]; exact hd) (by rw [hc2]; exact hc)).2
  have T := gic_cpu_restore_trace gic cpu m2 (by rw [hd2]; exact hd) (by rw [hc2]; exact hc)
  rw [hd2, hc2, hslot, h2] at T
  simp only [hd2, hc2, hslot] at R
  rw [h2] at R
  refine ⟨?_, ?_, ?_, ?_, ?_, ?_⟩
  · rw [R, s5]
    simp [u32_u32]
  · rw [R, s6]
    simp [u32_u32]
  · intro w hw
    rw [R, s7]
    simp [u32_u32, hw]
  · rw [R]
    simp
  · rw [R, if_pos ⟨rfl, rfl, rfl⟩]
    exact cpu_ctrl_value_enable _ _ _
  · rw [T, s5, s6, s7, s7]
    simp [u32_u32, GICD_INT_EN_CLR_X32, GICD_INT_DEF_PRI_X4]

/-- C16 on the example primary instance and CPU 0: the save runs on registers
whose banked enable, active and config words are not zero, then every
register reads all-ones, then the restore runs and the four words are again
what the save captured. -/
theorem gic_cpu_save_restore_round_trip_witness :
    ((exampleMachine ppiExampleIo).gic_data 0).dist_base ≠ 0 ∧
    ((exampleMachine ppiExampleIo).gic_data 0).cpu_base ≠ 0 ∧
    (gic_cpu_restore 0 0
        { gic_cpu_save 0 0 (exampleMachine ppiExampleIo) with
          io := fun _ _ _ => 0xffffffff }).io 1 GIC_DIST_ENABLE_SET 0 = 0x8001 ∧
    (gic_cpu_restore 0 0
        { gic_cpu_save 0 0 (exampleMachine ppiExampleIo) with
          io := fun _ _ _ => 0xffffffff }).io 1 GIC_DIST_ACTIVE_SET 0 = 0x2 ∧
    (gic_cpu_restore 0 0
        { gic_cpu_save 0 0 (exampleMachine ppiExampleIo) with
          io := fun _ _ _ => 0xffffffff }).io 1 GIC_DIST_CONFIG 0 = 0xaaaaaaaa ∧
    (gic_cpu_restore 0 0
        { gic_cpu_save 0 0 (exampleMachine ppiExampleIo) with
          io := fun _ _ _ => 0xffffffff }).io 1 GIC_DIST_CONFIG 1 = 0x55540000 ∧
    (gic_cpu_restore 0 0
        { gic_cpu_save 0 0 (exampleMachine ppiExampleIo) with
          io := fun _ _ _ => 0xffffffff }).io 2 GIC_CPU_PRIMASK 0 = 0xf0 ∧
    ((gic_cpu_restore 0 0
        { gic_cpu_save 0 0 (exampleMachine ppiExampleIo) with
          io := fun _ _ _ => 0xffffffff }).io 2 GIC_CPU_CTRL 0).testBit 0 = true :=
  ⟨by decide, by decide,
    (gic_cpu_save_restore_round_trip 0 0 (exampleMachine ppiExampleIo)
      { gic_cpu_save 0 0 (exampleMachine ppiExampleIo) with io := fun _ _ _ => 0xffffffff }
      (by decide) (by decide) rfl).1,
    (gic_cpu_save_restore_round_trip 0 0 (exampleMachine ppiExampleIo)
      { gic_cpu_save 0 0 (exampleMachine ppiExampleIo) with io := fun _ _ _ => 0xffffffff }
      (by decide) (by decide) rfl).2.1,
    (gic_cpu_save_restore_round_trip 0 0 (exampleMachine ppiExampleIo)
      { gic_cpu_save 0 0 (exampleMachine ppiExampleIo) with io := fun _ _ _ => 0xffffffff }
      (by decide) (by decide) rfl).2.2.1 0 (by decide),
    (gic_cpu_save_restore_round_trip 0 0 (exampleMachine ppiExampleIo)
      { gic_cpu_save 0 0 (exampleMachine ppiExampleIo) with io := fun _ _ _ => 0xffffffff }
      (by decide) (by decide) rfl).2.2.1 1 (by decide),
    (gic_cpu_save_restore_round_trip 0 0 (exampleMachine ppiExampleIo)
      { gic_cpu_save 0 0 (exampleMachine ppiExampleIo) with io := fun _ _ _ => 0xffffffff }
      (by decide) (by decide) rfl).2.2.2.1,
    (gic_cpu_save_restore_round_trip 0 0 (exampleMachine ppiExampleIo)
      { gic_cpu_save 0 0 (exampleMachine ppiExampleIo) with io := fun _ _ _ => 0xffffffff }
      (by decide) (by decide) rfl).2.2.2.2.1⟩

/-! ## Power transitions of an instance without per-CPU interfaces -/

/-- C15, amended: for an instance without per-CPU interfaces, on the
power-on notification `gic_notifier` runs `gic_dist_restore` first and
`gic_cpu_restore` second, and on the power-off notification it runs
`gic_cpu_save` first and `gic_dist_save` second; it returns `NOTIFY_OK`, and
under `CONFIG_TEGRA_APE_AGIC` it clears, respectively sets, the suspended
flag afterwards. -/
theorem gic_notifier_power_order (agic : Bool) (pon poff gic cpu : Nat) (m : Machine)
    (hp : (m.gic_data gic).is_percpu = false) (hne : pon ≠ poff) :
    gic_notifier agic pon poff gic cpu pon m =
      (NOTIFY_OK,
        if agic then
          { gic_cpu_restore gic cpu (gic_dist_restore gic m) with tegra_agic_suspended := false }
        else gic_cpu_restore gic cpu (gic_dist_restore gic m)) ∧
    gic_notifier agic pon poff gic cpu poff m =
      (NOTIFY_OK,
        if agic then
          { gic_dist_save gic (gic_cpu_save gic cpu m) with tegra_agic_suspended := true }
        else gic_dist_save gic (gic_cpu_save gic cpu m)) := by
  have hne' : ¬ (poff = pon) := fun h => hne h.symm
  constructor
  · unfold gic_notifier
    simp only [hp, Bool.false_eq_true, if_false, if_true]
  · unfold gic_notifier
    simp only [hp, Bool.false_eq_true, if_false, if_true, hne']

/-- C15, amended, on the example satellite instance `gic_data[1]` with the
command tags 6 (power on) and 7 (power off). -/
theorem gic_notifier_power_order_witness :
    ((exampleMachine guardExampleIo).gic_data 1).is_percpu = false ∧ (6 : Nat) ≠ 7 ∧
    gic_notifier true 6 7 1 0 6 (exampleMachine guardExampleIo) =
      (NOTIFY_OK,
        { gic_cpu_restore 1 0 (gic_dist_restore 1 (exampleMachine guardExampleIo)) with
          tegra_agic_suspended := false }) ∧
    gic_notifier true 6 7 1 0 7 (exampleMachine guardExampleIo) =
      (NOTIFY_OK,
        { gic_dist_save 1 (gic_cpu_save 1 0 (exampleMachine guardExampleIo)) with
          tegra_agic_suspended := true }) :=
  ⟨by decide, by decide,
    gic_notifier_power_order true 6 7 1 0 (exampleMachine guardExampleIo) (by decide)
      (by decide)⟩

/-- C15 as stated fails on the example satellite instance `gic_data[1]`
(distributor at base 3, CPU interface at base 4, no per-CPU interfaces): the
first register access of the power-on notification is the write that
disables the distributor, which is the first access of `gic_dist_restore`,
whereas `gic_cpu_restore` begins with the enable-clear write; the first
access of the power-off notification is the read of the enable word of
sources 0-31, which is the first access of `gic_cpu_save`, whereas
`gic_dist_save` begins with the read of config word 0. -/
theorem gic_notifier_first_access_counterexample :
    ((exampleMachine guardExampleIo).gic_data 1).is_percpu = false ∧
    (gic_notifier true 6 7 1 0 6 (exampleMachine guardExampleIo)).2.trace.head? =
      some (Event.write 3 GIC_DIST_CTRL 0 0) ∧
    (gic_dist_restore 1 (exampleMachine guardExampleIo)).trace.head? =
      some (Event.write 3 GIC_DIST_CTRL 0 0) ∧
    (gic_cpu_restore 1 0 (exampleMachine guardExampleIo)).trace.head? =
      some (Event.write 3 GIC_DIST_ENABLE_CLEAR 0 0xffffffff) ∧
    (gic_notifier true 6 7 1 0 7 (exampleMachine guardExampleIo)).2.trace.head? =
      some (Event.read 3 GIC_DIST_ENABLE_SET 0) ∧
    (gic_cpu_save 1 0 (exampleMachine guardExampleIo)).trace.head? =
      some (Event.read 3 GIC_DIST_ENABLE_SET 0) ∧
    (gic_dist_save 1 (exampleMachine guardExampleIo)).trace.head? =
      some (Event.read 3 GIC_DIST_CONFIG 0) := by
  have hb : ((exampleMachine guardExampleIo).gic_data 1).dist_base ≠ 0 := by decide
  have hc : ((exampleMachine guardExampleIo).gic_data 1).cpu_base ≠ 0 := by decide
  have hg := (gic_dist_restore_spec 1 (exampleMachine guardExampleIo) hb).1
  have t1 := gic_dist_restore_trace 1 (exampleMachine guardExampleIo) hb
  have t2 := gic_cpu_restore_trace 1 0 (gic_dist_restore 1 (exampleMachine guardExampleIo))
    (by rw [hg]; exact hb) (by rw [hg]; exact hc)
  have t3 := gic_cpu_restore_trace 1 0 (exampleMachine guardExampleIo) hb hc
  have hon : (gic_notifier true 6 7 1 0 6 (exampleMachine guardExampleIo)).2.trace =
      (gic_cpu_restore 1 0 (gic_dist_restore 1 (exampleMachine guardExampleIo))).trace := rfl
  have h0 : (exampleMachine guardExampleIo).trace = [] := rfl
  refine ⟨by decide, ?_, ?_, ?_, by decide, by decide, by decide⟩
  · rw [hon, t2, t1, h0]
    rfl
  · rw [t1, h0]
    rfl
  · rw [t3, h0]
    rfl

/-! ## The probe of the interface mask -/

theorem cpumask_fold_testBit (w j : Nat) :
    (cpumask_fold w).testBit j =
      (w.testBit j || w.testBit (j + 8) || w.testBit (j + 16) || w.testBit (j + 24)) := by
  unfold cpumask_fold
  simp only [Nat.testBit_or, Nat.testBit_shiftRight]
  have e1 : 16 + j = j + 16 := by omega
  have e2 : 8 + j = j + 8 := by omega
  have e3 : 16 + (8 + j) = j + 24 := by omega
  rw [e3, e2, e1]
  cases w.testBit j <;> cases w.testBit (j + 8) <;> cases w.testBit (j + 16) <;>
    cases w.testBit (j + 24) <;> rfl

/-- The low byte of the fold is the OR of the four bytes of the word. -/
theorem u8_cpumask_fold (w : Nat) :
    u8 (cpumask_fold w) = byteOf w 0 ||| byteOf w 1 ||| byteOf w 2 ||| byteOf w 3 := by
  apply Nat.eq_of_testBit_eq
  intro j
  simp only [testBit_u8, Nat.testBit_or, byteOf, Nat.testBit_shiftRight]
  by_cases hj : j < 8
  · rw [cpumask_fold_testBit w j]
    have e1 : 8 * 0 + j = j := by omega
    have e2 : 8 * 1 + j = j + 8 := by omega
    have e3 : 8 * 2 + j = j + 16 := by omega
    have e4 : 8 * 3 + j = j + 24 := by omega
    rw [e1, e2, e3, e4]
    simp [hj]
  · simp [hj]

theorem cpumask_fold_zero : cpumask_fold 0 = 0 := by decide

theorem cpumask_fold_eq_zero (w : Nat) (h : cpumask_fold w = 0) : w = 0 := by
  apply Nat.eq_of_testBit_eq
  intro j
  have h1 : (cpumask_fold w).testBit j = false := by rw [h]; simp
  unfold cpumask_fold at h1
  simp only [Nat.testBit_or, Bool.or_eq_false_iff] at h1
  rw [h1.1.1]
  simp

/-- A word below `2 ^ 32` is zero as soon as the low byte of its fold is. -/
theorem u8_cpumask_fold_eq_zero (w : Nat) (hw : w < 2 ^ 32) (h : u8 (cpumask_fold w) = 0) :
    w = 0 := by
  apply Nat.eq_of_testBit_eq
  intro p
  rw [Nat.zero_testBit]
  by_cases hp : p < 32
  · have h1 : (u8 (cpumask_fold w)).testBit (p % 8) = false := by rw [h]; simp
    have h8 : p % 8 < 8 := Nat.mod_lt _ (by norm_num)
    rw [testBit_u8, cpumask_fold_testBit w _] at h1
    simp only [h8, decide_True, Bool.true_and, Bool.or_eq_false_iff] at h1
    obtain ⟨⟨⟨a, b⟩, c⟩, d⟩ := h1
    have hcases : p = p % 8 ∨ p = p % 8 + 8 ∨ p = p % 8 + 16 ∨ p = p % 8 + 24 := by omega
    rcases hcases with e | e | e | e
    · rw [e]; exact a
    · rw [e]; exact b
    · rw [e]; exact c
    · rw [e]; exact d
  · apply Nat.testBit_eq_false_of_lt
    calc w < 2 ^ 32 := hw
      _ ≤ 2 ^ p := Nat.pow_le_pow_right (by norm_num) (by omega)

theorem range_reads_succ (base s n : Nat) :
    (List.range (n + 1)).map (fun i => Event.read base GIC_DIST_TARGET (s + i)) =
      Event.read base GIC_DIST_TARGET s ::
        (List.range n).map (fun i => Event.read base GIC_DIST_TARGET (s + 1 + i)) := by
  rw [List.range_succ_eq_map, List.map_cons, List.map_map]
  congr 1
  apply List.map_congr_left
  intro i _
  show Event.read base GIC_DIST_TARGET (s + (i + 1)) = Event.read base GIC_DIST_TARGET (s + 1 + i)
  congr 1
  omega

/-- The scan of `gic_get_cpumask`, started at the word `s` with `k` words
left: it stops at the first non-zero word and yields its fold, after reading
the words up to it in increasing order; when all `k` words are zero it reads
them all and yields 0. -/
theorem gic_get_cpumask_loop_scan (base : Nat) :
    ∀ (k s : Nat) (m : Machine),
      (∀ j, j < k → target_word m base (s + j) ≠ 0 →
        (∀ i, i < j → target_word m base (s + i) = 0) →
        (gic_get_cpumask_loop base k (4 * s) 0 m).1 = cpumask_fold (target_word m base (s + j)) ∧
        (gic_get_cpumask_loop base k (4 * s) 0 m).2.trace =
          m.trace ++ (List.range (j + 1)).map (fun i => Event.read base GIC_DIST_TARGET (s + i))) ∧
      ((∀ j, j < k → target_word m base (s + j) = 0) →
        (gic_get_cpumask_loop base k (4 * s) 0 m).1 = 0 ∧
        (gic_get_cpumask_loop base k (4 * s) 0 m).2.trace =
          m.trace ++ (List.range k).map (fun i => Event.read base GIC_DIST_TARGET (s + i)))
  | 0, s, m => by
    refine ⟨fun j hj => absurd hj (Nat.not_lt_zero _), fun _ => ?_⟩
    simp [gic_get_cpumask_loop]
  | k + 1, s, m => by
    have hidx : 4 * s / 4 = s := by omega
    have hv : (readl_relaxed base GIC_DIST_TARGET s m).1 = target_word m base s :=
      readl_relaxed_val _ _ _ _ (by decide)
    have hnext : 4 * s + 4 = 4 * (s + 1) := by omega
    have hw : ∀ x, target_word (readl_relaxed base GIC_DIST_TARGET s m).2 base x =
        target_word m base x := by
      intro x
      unfold target_word
      rw [readl_relaxed_io]
    unfold gic_get_cpumask_loop
    simp only [hidx, hv, hnext]
    have hfold : (target_word m base s ||| target_word m base s >>> 16 |||
        (target_word m base s ||| target_word m base s >>> 16) >>> 8) =
        cpumask_fold (target_word m base s) := rfl
    rw [hfold]
    by_cases hz : cpumask_fold (target_word m base s) ≠ 0
    · rw [if_pos hz]
      have hne : target_word m base s ≠ 0 := by
        intro h0
        rw [h0] at hz
        exact hz cpumask_fold_zero
      refine ⟨?_, ?_⟩
      · intro j _ _ hbefore
        have hj0 : j = 0 := by
          by_contra hj
          exact hne (by simpa using hbefore 0 (by omega))
        subst hj0
        simp [List.range_succ]
      · intro hall
        exact absurd (by simpa using hall 0 (by omega)) hne
    · rw [if_neg hz]
      have hz0 : cpumask_fold (target_word m base s) = 0 := by
        by_contra h; exact hz h
      have hs0 : target_word m base s = 0 := cpumask_fold_eq_zero _ hz0
      rw [hz0]
      obtain ⟨ihA, ihB⟩ := gic_get_cpumask_loop_scan base k (s + 1)
        (readl_relaxed base GIC_DIST_TARGET s m).2
      simp only [hw] at ihA ihB
      refine ⟨?_, ?_⟩
      · intro j hj hjne hbefore
        have hjpos : j ≠ 0 := by
          intro h0
          subst h0
          exact hjne (by simpa using hs0)
        obtain ⟨j', rfl⟩ : ∃ j', j = j' + 1 := ⟨j - 1, by omega⟩
        have e1 : s + 1 + j' = s + (j' + 1) := by omega
        have := ihA j' (by omega) (by rw [e1]; exact hjne) (by
          intro i hi
          have e2 : s + 1 + i = s + (i + 1) := by omega
          rw [e2]
          exact hbefore (i + 1) (by omega))
        rw [e1] at this
        refine ⟨this.1, ?_⟩
        rw [this.2, readl_relaxed_trace, range_reads_succ base s (j' + 1)]
        simp
      · intro hall
        have := ihB (by
          intro j hj
          have e2 : s + 1 + j = s + (j + 1) := by omega
          rw [e2]
          exact hall (j + 1) (by omega))
        refine ⟨this.1, ?_⟩
        rw [this.2, readl_relaxed_trace, range_reads_succ base s k]
        simp

/-- C18: `gic_get_cpumask` reads the target words at the byte offsets 0, 4,
..., 28 in increasing order up to the first non-zero one and returns the OR
of the four bytes of that word; when the eight words are all zero it reads
them all and returns 0; so the result, which fits 8 bits, is zero exactly
when every scanned word is zero. -/
theorem gic_get_cpumask_scan (gic : Nat) (m : Machine) :
    (∀ j, j < 8 → target_word m (m.gic_data gic).dist_base j ≠ 0 →
      (∀ i, i < j → target_word m (m.gic_data gic).dist_base i = 0) →
      (gic_get_cpumask gic m).1 =
        byteOf (target_word m (m.gic_data gic).dist_base j) 0 |||
          byteOf (target_word m (m.gic_data gic).dist_base j) 1 |||
          byteOf (target_word m (m.gic_data gic).dist_base j) 2 |||
          byteOf (target_word m (m.gic_data gic).dist_base j) 3 ∧
      (gic_get_cpumask gic m).2.trace =
        m.trace ++ (List.range (j + 1)).map (fun i =>
          Event.read (m.gic_data gic).dist_base GIC_DIST_TARGET i)) ∧
    ((∀ j, j < 8 → target_word m (m.gic_data gic).dist_base j = 0) →
      (gic_get_cpumask gic m).1 = 0 ∧
      (gic_get_cpumask gic m).2.trace =
        m.trace ++ (List.range 8).map (fun i =>
          Event.read (m.gic_data gic).dist_base GIC_DIST_TARGET i)) ∧
    ((gic_get_cpumask gic m).1 = 0 ↔
      ∀ j, j < 8 → target_word m (m.gic_data gic).dist_base j = 0) ∧
    (gic_get_cpumask gic m).1 < 256 := by
  have hn : DIV_ROUND_UP 32 4 = 8 := by decide
  have h40 : (0 : Nat) = 4 * 0 := rfl
  obtain ⟨hA, hB⟩ := gic_get_cpumask_loop_scan (m.gic_data gic).dist_base 8 0 m
  simp only [Nat.zero_add] at hA hB
  have hval : (gic_get_cpumask gic m).1 =
      u8 (gic_get_cpumask_loop (m.gic_data gic).dist_base 8 (4 * 0) 0 m).1 := by
    unfold gic_get_cpumask
    rw [hn]
  have htr : (gic_get_cpumask gic m).2.trace =
      (gic_get_cpumask_loop (m.gic_data gic).dist_base 8 (4 * 0) 0 m).2.trace := by
    unfold gic_get_cpumask
    rw [hn]
  have partA : ∀ j, j < 8 → target_word m (m.gic_data gic).dist_base j ≠ 0 →
      (∀ i, i < j → target_word m (m.gic_data gic).dist_base i = 0) →
      (gic_get_cpumask gic m).1 =
        byteOf (target_word m (m.gic_data gic).dist_base j) 0 |||
          byteOf (target_word m (m.gic_data gic).dist_base j) 1 |||
          byteOf (target_word m (m.gic_data gic).dist_base j) 2 |||
          byteOf (target_word m (m.gic_data gic).dist_base j) 3 ∧
      (gic_get_cpumask gic m).2.trace =
        m.trace ++ (List.range (j + 1)).map (fun i =>
          Event.read (m.gic_data gic).dist_base GIC_DIST_TARGET i) := by
    intro j hj hne hbefore
    obtain ⟨a, b⟩ := hA j hj hne hbefore
    exact ⟨by rw [hval, a, u8_cpumask_fold], by rw [htr, b]⟩
  have partB : (∀ j, j < 8 → target_word m (m.gic_data gic).dist_base j = 0) →
      (gic_get_cpumask gic m).1 = 0 ∧
      (gic_get_cpumask gic m).2.trace =
        m.trace ++ (List.range 8).map (fun i =>
          Event.read (m.gic_data gic).dist_base GIC_DIST_TARGET i) := by
    intro hall
    obtain ⟨a, b⟩ := hB hall
    exact ⟨by rw [hval, a]; rfl, by rw [htr, b]⟩
  refine ⟨partA, partB, ⟨?_, fun hall => (partB hall).1⟩, ?_⟩
  · intro h0
    by_contra hex
    have hex' : ∃ j, j < 8 ∧ target_word m (m.gic_data gic).dist_base j ≠ 0 := by
      by_contra hno
      apply hex
      intro j hj
      by_contra hjne
      exact hno ⟨j, hj, hjne⟩
    classical
    let j := Nat.find hex'
    have hjs : j < 8 ∧ target_word m (m.gic_data gic).dist_base j ≠ 0 := Nat.find_spec hex'
    have hmin : ∀ i, i < j → target_word m (m.gic_data gic).dist_base i = 0 := by
      intro i hi
      by_contra hne
      exact Nat.find_min hex' hi ⟨by omega, hne⟩
    obtain ⟨a, _⟩ := hA j hjs.1 hjs.2 hmin
    rw [hval, a] at h0
    exact hjs.2 (u8_cpumask_fold_eq_zero _ (u32_lt _) h0)
  · rw [hval]
    exact Nat.mod_lt _ (by norm_num)

/-! ## Population of the CPU interface map -/

/-- The loop of `gic_cpu_init` over the map: every entry below 8 other than
the entry of `cpu` loses the bits of `cpu_mask`; nothing else changes. -/
theorem gic_cpu_init_map_spec (cpu cpu_mask : Nat) (m : Machine) (i : Nat) :
    (gic_cpu_init_map cpu cpu_mask m).gic_cpu_map i =
      if i < 8 ∧ i ≠ cpu then u8 (u8 (m.gic_cpu_map i) &&& not32 cpu_mask)
      else m.gic_cpu_map i := by
  unfold gic_cpu_init_map
  have key := forLoop_induct (fun i m =>
      if i ≠ cpu then
        { m with gic_cpu_map := upd m.gic_cpu_map i (u8 (u8 (m.gic_cpu_map i) &&& not32 cpu_mask)) }
      else m)
    (fun k m' => ∀ i, m'.gic_cpu_map i =
      if i < k ∧ i ≠ cpu then u8 (u8 (m.gic_cpu_map i) &&& not32 cpu_mask)
      else m.gic_cpu_map i) 0 NR_GIC_CPU_IF m (Nat.zero_le _)
    (by intro i; simp)
    (by
      intro k st _ _ h i
      beta_reduce
      by_cases hk : k ≠ cpu
      · rw [if_pos hk]
        show upd st.gic_cpu_map k (u8 (u8 (st.gic_cpu_map k) &&& not32 cpu_mask)) i = _
        unfold upd
        by_cases hik : i = k
        · subst hik
          rw [if_pos rfl, h i]
          simp [hk]
        · rw [if_neg hik, h i]
          have e : (i < k + 1) = (i < k) := by
            apply propext; constructor <;> intro h' <;> omega
          simp only [e]
      · rw [if_neg hk, h i]
        have hk' : k = cpu := by
          by_contra h'; exact hk h'
        by_cases hik : i = k
        · subst hik
          simp [hk']
        · have e : (i < k + 1) = (i < k) := by
            apply propext; constructor <;> intro h' <;> omega
          simp only [e])
  exact key i

theorem gic_get_cpumask_loop_gic_cpu_map (base : Nat) :
    ∀ (k i mask : Nat) (m : Machine),
      (gic_get_cpumask_loop base k i mask m).2.gic_cpu_map = m.gic_cpu_map
  | 0, _, _, _ => rfl
  | k + 1, i, _, m => by
    unfold gic_get_cpumask_loop
    simp only []
    split
    · simp
    · rw [gic_get_cpumask_loop_gic_cpu_map base k]
      simp

/-- The function `gic_cpu_init` returns on the primary instance when the CPU
number is below 8, and on every other instance; the map it leaves is the one
its map loop leaves, respectively the one it found. -/
theorem gic_cpu_init_some
    (gic_cpu_config : Nat → (Nat → Reg → Nat → Nat) × List Event →
      (Nat → Reg → Nat → Nat) × List Event)
    (gic cpu : Nat) (m : Machine) :
    (gic = 0 → cpu < 8 →
      ∃ m', gic_cpu_init gic_cpu_config gic cpu m = some m' ∧
        m'.gic_cpu_map =
          (gic_cpu_init_map cpu (gic_get_cpumask gic m).1
            { (gic_get_cpumask gic m).2 with
              gic_cpu_map := upd (gic_get_cpumask gic m).2.gic_cpu_map cpu
                (u8 (gic_get_cpumask gic m).1) }).gic_cpu_map) ∧
    (gic ≠ 0 →
      ∃ m', gic_cpu_init gic_cpu_config gic cpu m = some m' ∧
        m'.gic_cpu_map = m.gic_cpu_map) := by
  constructor
  · intro hg hc
    have hnc : ¬ (cpu ≥ NR_GIC_CPU_IF) := by
      unfold NR_GIC_CPU_IF
      omega
    unfold gic_cpu_init
    simp only [hg, if_true, hnc, if_false]
    refine ⟨_, rfl, ?_⟩
    rw [(gic_cpu_if_up_spec _ _).2.1, writel_relaxed_gic_cpu_map]
    split <;> simp
  · intro hg
    unfold gic_cpu_init
    simp only [hg, if_false]
    refine ⟨_, rfl, ?_⟩
    rw [(gic_cpu_if_up_spec _ _).2.1, writel_relaxed_gic_cpu_map]
    split <;> simp

/-- C19: on a logical CPU `c < 8`, `gic_cpu_init` of the primary instance
returns, and afterwards the map entry of `c` is the mask that
`gic_get_cpumask` returned, every other entry below 8 is its previous value
(a `u8`) with the bits of the mask cleared and shares no bit with the entry
of `c`, and the entries from 8 on are as before; `gic_cpu_init` of any other
instance returns and leaves the map unchanged. -/
theorem gic_cpu_init_map_population
    (gic_cpu_config : Nat → (Nat → Reg → Nat → Nat) × List Event →
      (Nat → Reg → Nat → Nat) × List Event)
    (c : Nat) (m : Machine) (hc : c < 8) :
    (∃ m', gic_cpu_init gic_cpu_config 0 c m = some m' ∧
      m'.gic_cpu_map c = (gic_get_cpumask 0 m).1 ∧
      (∀ i, i < 8 → i ≠ c →
        m'.gic_cpu_map i = u8 (m.gic_cpu_map i) &&& not32 (gic_get_cpumask 0 m).1 ∧
        (∀ b, (m'.gic_cpu_map i).testBit b =
          ((u8 (m.gic_cpu_map i)).testBit b && !((gic_get_cpumask 0 m).1).testBit b)) ∧
        m'.gic_cpu_map i &&& m'.gic_cpu_map c = 0) ∧
      (∀ i, 8 ≤ i → i ≠ c → m'.gic_cpu_map i = m.gic_cpu_map i)) ∧
    (∀ gic cpu, gic ≠ 0 →
      ∃ m', gic_cpu_init gic_cpu_config gic cpu m = some m' ∧ m'.gic_cpu_map = m.gic_cpu_map) := by
  have hmask : (gic_get_cpumask 0 m).1 < 256 := by
    unfold gic_get_cpumask
    exact Nat.mod_lt _ (by norm_num)
  have hu8 : u8 (gic_get_cpumask 0 m).1 = (gic_get_cpumask 0 m).1 := Nat.mod_eq_of_lt hmask
  have hmap : (gic_get_cpumask 0 m).2.gic_cpu_map = m.gic_cpu_map := by
    unfold gic_get_cpumask
    exact gic_get_cpumask_loop_gic_cpu_map _ _ _ _ m
  have hdisj : ∀ x, (x &&& not32 (gic_get_cpumask 0 m).1) &&& (gic_get_cpumask 0 m).1 = 0 := by
    intro x
    apply Nat.eq_of_testBit_eq
    intro b
    simp only [Nat.testBit_and, testBit_not32, Nat.zero_testBit]
    cases ((gic_get_cpumask 0 m).1).testBit b <;> simp
  have hand : ∀ x, u8 (u8 x &&& not32 (gic_get_cpumask 0 m).1) =
      u8 x &&& not32 (gic_get_cpumask 0 m).1 := by
    intro x
    apply Nat.eq_of_testBit_eq
    intro b
    simp only [testBit_u8, Nat.testBit_and, testBit_not32]
    cases decide (b < 8) <;> simp
  refine ⟨?_, fun gic cpu hg => (gic_cpu_init_some gic_cpu_config gic cpu m).2 hg⟩
  obtain ⟨m', h1, h2⟩ := (gic_cpu_init_some gic_cpu_config 0 c m).1 rfl hc
  have hentry : ∀ i, m'.gic_cpu_map i =
      if i < 8 ∧ i ≠ c then u8 (m.gic_cpu_map i) &&& not32 (gic_get_cpumask 0 m).1
      else if i = c then (gic_get_cpumask 0 m).1 else m.gic_cpu_map i := by
    intro i
    rw [h2, gic_cpu_init_map_spec]
    show (if i < 8 ∧ i ≠ c then
        u8 (u8 (upd (gic_get_cpumask 0 m).2.gic_cpu_map c (u8 (gic_get_cpumask 0 m).1) i) &&&
          not32 (gic_get_cpumask 0 m).1)
      else upd (gic_get_cpumask 0 m).2.gic_cpu_map c (u8 (gic_get_cpumask 0 m).1) i) = _
    unfold upd
    rw [hmap, hu8]
    by_cases hi : i < 8 ∧ i ≠ c
    · rw [if_pos hi, if_pos hi, if_neg hi.2, hand]
    · rw [if_neg hi, if_neg hi]
  have hcc : m'.gic_cpu_map c = (gic_get_cpumask 0 m).1 := by
    rw [hentry, if_neg (by tauto), if_pos rfl]
  refine ⟨m', h1, hcc, ?_, ?_⟩
  · intro i hi hne
    have hv : m'.gic_cpu_map i = u8 (m.gic_cpu_map i) &&& not32 (gic_get_cpumask 0 m).1 := by
      rw [hentry, if_pos ⟨hi, hne⟩]
    refine ⟨hv, ?_, ?_⟩
    · intro b
      rw [hv, Nat.testBit_and, testBit_not32, testBit_u8]
      by_cases hb : b < 8
      · have hb32 : b < 32 := by omega
        simp [hb, hb32]
      · simp [hb]
    · rw [hv, hcc]
      exact hdisj _
  · intro i hi hne
    rw [hentry, if_neg (by omega), if_neg hne]

/-- C19 on the example machine and CPU 0, with a CPU configuration routine
that leaves the registers alone. -/
theorem gic_cpu_init_map_population_witness :
    (0 : Nat) < 8 ∧
    (∃ m', gic_cpu_init (fun _ x => x) 0 0 (exampleMachine guardExampleIo) = some m' ∧
      m'.gic_cpu_map 0 = (gic_get_cpumask 0 (exampleMachine guardExampleIo)).1) ∧
    (gic_get_cpumask 0 (exampleMachine guardExampleIo)).1 = 1 :=
  ⟨by decide,
    (gic_cpu_init_map_population (fun _ x => x) 0 (exampleMachine guardExampleIo)
      (by decide)).1.imp (fun _ h => ⟨h.1, h.2.1⟩),
    by decide⟩

/-! ## State set and get -/

/-- The test `(word & mask) != 0` of `gic_peek_irq` reads the bit of the
source. -/
theorem peek_test_eq_testBit (x k : Nat) :
    ((u32 x &&& u32 (1 <<< (k % 32))) != 0) = x.testBit (k % 32) := by
  have hlt : k % 32 < 32 := Nat.mod_lt _ (by norm_num)
  rw [u32_one_shiftLeft_mod, Nat.one_shiftLeft, Nat.and_two_pow, testBit_u32]
  simp only [hlt, decide_True, Bool.true_and]
  cases x.testBit (k % 32)
  · simp
  · have h2 : 2 ^ (k % 32) ≠ 0 := by positivity
    simp [h2]

/-- A permitted `gic_poke_irq` on a write-1-to-set / write-1-to-clear pair
`S`, `C`: the bit of the source in the bank of the pair becomes `v` when the
set register (`v` true) or the clear register (`v` false) is written, the
bits of every other source keep their value, and every other bank is
untouched. -/
theorem gic_poke_irq_pair (S C : Reg) (hS : S.store = S) (hC : C.store = S)
    (hset : ∀ old v, S.written old v = old ||| v)
    (hclr : ∀ old v, C.written old v = old &&& not32 v)
    (d : irq_data) (v : Bool) (m : Machine) (hp : poke_permitted d m = true) :
    (gic_poke_irq d (if v then S else C) m).gic_data = m.gic_data ∧
    (∀ b irq, ((gic_poke_irq d (if v then S else C) m).io b S (irq / 32)).testBit (irq % 32) =
      if b = (m.gic_data d.chip_data).dist_base ∧ irq = (gic_irq d) then v
      else (m.io b S (irq / 32)).testBit (irq % 32)) ∧
    (∀ b r w, r ≠ S → (gic_poke_irq d (if v then S else C) m).io b r w = m.io b r w) := by
  have key : ∀ (R : Reg), R.store = S →
      (∀ old x, (R.written old x).testBit ((gic_irq d) % 32) =
        if (x.testBit ((gic_irq d) % 32)) then v else old.testBit ((gic_irq d) % 32)) →
      (∀ old k, k ≠ (gic_irq d) % 32 → k < 32 →
        (R.written old (u32 (1 <<< ((gic_irq d) % 32)))).testBit k = old.testBit k) →
      (gic_poke_irq d R m).gic_data = m.gic_data ∧
      (∀ b irq, ((gic_poke_irq d R m).io b S (irq / 32)).testBit (irq % 32) =
        if b = (m.gic_data d.chip_data).dist_base ∧ irq = (gic_irq d) then v
        else (m.io b S (irq / 32)).testBit (irq % 32)) ∧
      (∀ b r w, r ≠ S → (gic_poke_irq d R m).io b r w = m.io b r w) := by
    intro R hst hown hother
    obtain ⟨e1, _, e3, _⟩ := gic_poke_irq_effect d R m
    rw [hp, if_pos rfl] at e3
    refine ⟨e1, ?_, ?_⟩
    · intro b irq
      rw [e3, writel_relaxed_io, hst]
      have hlt : irq % 32 < 32 := Nat.mod_lt _ (by norm_num)
      by_cases hb : b = (m.gic_data d.chip_data).dist_base
      · by_cases hw : irq / 32 = (gic_irq d) / 32
        · rw [if_pos ⟨hb, rfl, hw⟩, u32_u32]
          by_cases hi : irq = (gic_irq d)
          · subst hi
            rw [if_pos ⟨hb, rfl⟩, hown, testBit_u32, testBit_one_shiftLeft]
            simp [hlt]
          · rw [if_neg (fun hc => hi hc.2)]
            exact hother _ _ (by omega) hlt
        · have hi : irq ≠ (gic_irq d) := by intro hc; exact hw (by rw [hc])
          rw [if_neg (fun hc => hw hc.2.2), if_neg (fun hc => hi hc.2)]
      · rw [if_neg (fun hc => hb hc.1), if_neg (fun hc => hb hc.1)]
    · intro b r w hr
      rw [e3, writel_relaxed_io, hst, if_neg (fun hc => hr hc.2.1)]
  have hlt : (gic_irq d) % 32 < 32 := Nat.mod_lt _ (by norm_num)
  cases v
  · simp only [Bool.false_eq_true, if_false]
    apply key C hC
    · intro old x
      rw [hclr, Nat.testBit_and, testBit_not32]
      cases x.testBit ((gic_irq d) % 32) <;> simp [hlt]
    · intro old k hk hk32
      have hne : ¬ ((gic_irq d) % 32 = k) := fun h => hk h.symm
      rw [hclr, Nat.testBit_and, testBit_not32, testBit_u32, testBit_one_shiftLeft]
      simp [hk32, hne]
  · simp only [if_true]
    apply key S hS
    · intro old x
      rw [hset, Nat.testBit_or]
      cases x.testBit ((gic_irq d) % 32) <;> simp
    · intro old k hk hk32
      have hne : ¬ ((gic_irq d) % 32 = k) := fun h => hk h.symm
      rw [hset, Nat.testBit_or, testBit_u32, testBit_one_shiftLeft]
      simp [hne]

/-- The result of `gic_peek_irq` on a set register is the bit of the source
in the bank. -/
theorem gic_peek_irq_val (S : Reg) (hS : S.store = S) (hne : S ≠ GIC_CPU_INTACK) (d : irq_data)
    (m : Machine) :
    (gic_peek_irq d S m).1 =
      (m.io (m.gic_data d.chip_data).dist_base S ((gic_irq d) / 32)).testBit ((gic_irq d) % 32) := by
  unfold gic_peek_irq
  simp only [gic_irq, gic_dist_base]
  rw [readl_relaxed_val _ _ _ _ hne, hS, peek_test_eq_testBit]

/-- C11: for a source (the hardware index as `gic_irq` returns it, an
`unsigned int`) on which the targeting guard permits the write, a kind among
pending, active and masked, and a boolean `v`: `gic_irq_set_irqchip_state`
returns 0, and `gic_irq_get_irqchip_state` run after it returns 0 and yields
`v` (for masked, the enable bit of the source is then `!v`); the pending,
active and enable bits of every other source, on every distributor, are as
before. -/
theorem gic_irqchip_state_round_trip (d : irq_data) (which : Nat) (v val0 : Bool) (m : Machine)
    (hw : which = IRQCHIP_STATE_PENDING ∨ which = IRQCHIP_STATE_ACTIVE ∨
      which = IRQCHIP_STATE_MASKED)
    (hp : poke_permitted d m = true) :
    (gic_irq_set_irqchip_state d which v m).1 = 0 ∧
    (gic_irq_get_irqchip_state d which val0 (gic_irq_set_irqchip_state d which v m).2).1 = 0 ∧
    (gic_irq_get_irqchip_state d which val0 (gic_irq_set_irqchip_state d which v m).2).2.1 = v ∧
    (which = IRQCHIP_STATE_MASKED →
      enable_bit (gic_irq_set_irqchip_state d which v m).2 (m.gic_data d.chip_data).dist_base
        (gic_irq d) = !v) ∧
    (∀ b irq, ¬ (b = (m.gic_data d.chip_data).dist_base ∧ irq = (gic_irq d)) →
      pending_bit (gic_irq_set_irqchip_state d which v m).2 b irq = pending_bit m b irq ∧
      active_bit (gic_irq_set_irqchip_state d which v m).2 b irq = active_bit m b irq ∧
      enable_bit (gic_irq_set_irqchip_state d which v m).2 b irq = enable_bit m b irq) := by
  rcases hw with hw | hw | hw
  · subst hw
    obtain ⟨p1, p2, p3⟩ := gic_poke_irq_pair GIC_DIST_PENDING_SET GIC_DIST_PENDING_CLEAR rfl rfl
      (fun _ _ => rfl) (fun _ _ => rfl) d v m hp
    have hs : gic_irq_set_irqchip_state d IRQCHIP_STATE_PENDING v m =
        (0, gic_poke_irq d (if v then GIC_DIST_PENDING_SET else GIC_DIST_PENDING_CLEAR) m) := rfl
    have hg : ∀ m', gic_irq_get_irqchip_state d IRQCHIP_STATE_PENDING val0 m' =
        (0, (gic_peek_irq d GIC_DIST_PENDING_SET m').1,
          (gic_peek_irq d GIC_DIST_PENDING_SET m').2) := fun _ => rfl
    rw [hs, hg]
    refine ⟨rfl, rfl, ?_, fun h => absurd h (by decide), ?_⟩
    · show (gic_peek_irq d GIC_DIST_PENDING_SET _).1 = v
      rw [gic_peek_irq_val _ rfl (by decide), p1, p2, if_pos ⟨rfl, rfl⟩]
    · intro b irq hne
      refine ⟨?_, ?_, ?_⟩
      · show (_ : Nat).testBit _ = (_ : Nat).testBit _
        rw [p2, if_neg hne]
      · show (_ : Nat).testBit _ = (_ : Nat).testBit _
        rw [p3 _ _ _ (by decide)]
      · show (_ : Nat).testBit _ = (_ : Nat).testBit _
        rw [p3 _ _ _ (by decide)]
  · subst hw
    obtain ⟨p1, p2, p3⟩ := gic_poke_irq_pair GIC_DIST_ACTIVE_SET GIC_DIST_ACTIVE_CLEAR rfl rfl
      (fun _ _ => rfl) (fun _ _ => rfl) d v m hp
    have hs : gic_irq_set_irqchip_state d IRQCHIP_STATE_ACTIVE v m =
        (0, gic_poke_irq d (if v then GIC_DIST_ACTIVE_SET else GIC_DIST_ACTIVE_CLEAR) m) := rfl
    have hg : ∀ m', gic_irq_get_irqchip_state d IRQCHIP_STATE_ACTIVE val0 m' =
        (0, (gic_peek_irq d GIC_DIST_ACTIVE_SET m').1,
          (gic_peek_irq d GIC_DIST_ACTIVE_SET m').2) := fun _ => rfl
    rw [hs, hg]
    refine ⟨rfl, rfl, ?_, fun h => absurd h (by decide), ?_⟩
    · show (gic_peek_irq d GIC_DIST_ACTIVE_SET _).1 = v
      rw [gic_peek_irq_val _ rfl (by decide), p1, p2, if_pos ⟨rfl, rfl⟩]
    · intro b irq hne
      refine ⟨?_, ?_, ?_⟩
      · show (_ : Nat).testBit _ = (_ : Nat).testBit _
        rw [p3 _ _ _ (by decide)]
      · show (_ : Nat).testBit _ = (_ : Nat).testBit _
        rw [p2, if_neg hne]
      · show (_ : Nat).testBit _ = (_ : Nat).testBit _
        rw [p3 _ _ _ (by decide)]
  · subst hw
    obtain ⟨p1, p2, p3⟩ := gic_poke_irq_pair GIC_DIST_ENABLE_SET GIC_DIST_ENABLE_CLEAR rfl rfl
      (fun _ _ => rfl) (fun _ _ => rfl) d (!v) m hp
    have hreg : (if (!v) = true then GIC_DIST_ENABLE_SET else GIC_DIST_ENABLE_CLEAR) =
        (if v = true then GIC_DIST_ENABLE_CLEAR else GIC_DIST_ENABLE_SET) := by
      cases v <;> rfl
    rw [hreg] at p1 p2 p3
    have hs : gic_irq_set_irqchip_state d IRQCHIP_STATE_MASKED v m =
        (0, gic_poke_irq d (if v then GIC_DIST_ENABLE_CLEAR else GIC_DIST_ENABLE_SET) m) := rfl
    have hg : ∀ m', gic_irq_get_irqchip_state d IRQCHIP_STATE_MASKED val0 m' =
        (0, !(gic_peek_irq d GIC_DIST_ENABLE_SET m').1,
          (gic_peek_irq d GIC_DIST_ENABLE_SET m').2) := fun _ => rfl
    rw [hs, hg]
    refine ⟨rfl, rfl, ?_, fun _ => ?_, ?_⟩
    · show (!(gic_peek_irq d GIC_DIST_ENABLE_SET _).1) = v
      rw [gic_peek_irq_val _ rfl (by decide), p1, p2, if_pos ⟨rfl, rfl⟩]
      simp
    · show (_ : Nat).testBit _ = _
      rw [p2, if_pos ⟨rfl, rfl⟩]
    · intro b irq hne
      refine ⟨?_, ?_, ?_⟩
      · show (_ : Nat).testBit _ = (_ : Nat).testBit _
        rw [p3 _ _ _ (by decide)]
      · show (_ : Nat).testBit _ = (_ : Nat).testBit _
        rw [p3 _ _ _ (by decide)]
      · show (_ : Nat).testBit _ = (_ : Nat).testBit _
        rw [p2, if_neg hne]

/-- C11 on the example machine: source 32 of the primary instance, kind
masked, value true. -/
theorem gic_irqchip_state_round_trip_witness :
    (IRQCHIP_STATE_MASKED = IRQCHIP_STATE_PENDING ∨ IRQCHIP_STATE_MASKED = IRQCHIP_STATE_ACTIVE ∨
      IRQCHIP_STATE_MASKED = IRQCHIP_STATE_MASKED) ∧
    poke_permitted ⟨32, 0, 0, false⟩ (exampleMachine guardExampleIo) = true ∧
    enable_bit (exampleMachine guardExampleIo) 1 32 = true ∧
    (gic_irq_get_irqchip_state ⟨32, 0, 0, false⟩ IRQCHIP_STATE_MASKED false
      (gic_irq_set_irqchip_state ⟨32, 0, 0, false⟩ IRQCHIP_STATE_MASKED true
        (exampleMachine guardExampleIo)).2).2.1 = true :=
  ⟨by decide, by decide, by decide,
    (gic_irqchip_state_round_trip ⟨32, 0, 0, false⟩ IRQCHIP_STATE_MASKED true false
      (exampleMachine guardExampleIo) (by decide) (by decide)).2.2.1⟩

/-! ## Forwarding to a guest -/

/-- C21: `gic_irq_set_vcpu_affinity` on a source whose handler data is not
`NULL` returns `-EINVAL` and leaves the interrupt's data, the forwarded flag
included, as they were; on a source whose handler data is `NULL` it returns
0, the forwarded flag is afterwards set exactly when `vcpu` is not `NULL`, and
the other fields are as they were. -/
theorem gic_irq_set_vcpu_affinity_cascading (d : irq_data) (vcpu : Nat) :
    (d.handler_data ≠ 0 →
      (gic_irq_set_vcpu_affinity d vcpu).1 = -EINVAL ∧
      (gic_irq_set_vcpu_affinity d vcpu).2 = d) ∧
    (d.handler_data = 0 →
      (gic_irq_set_vcpu_affinity d vcpu).1 = 0 ∧
      ((gic_irq_set_vcpu_affinity d vcpu).2.forwarded_to_vcpu = true ↔ vcpu ≠ 0) ∧
      (gic_irq_set_vcpu_affinity d vcpu).2.hwirq = d.hwirq ∧
      (gic_irq_set_vcpu_affinity d vcpu).2.chip_data = d.chip_data ∧
      (gic_irq_set_vcpu_affinity d vcpu).2.handler_data = d.handler_data) := by
  unfold gic_irq_set_vcpu_affinity cascading_gic_irq
  constructor
  · intro h
    simp [h]
  · intro h
    by_cases hv : vcpu = 0
    · simp [h, hv]
    · simp [h, hv]

/-! ## The number of sources -/

theorem and_0x1f_le (t : Nat) : t &&& 0x1f ≤ 31 := Nat.and_le_right

/-- C23: `__gic_init_bases` on an instance number within `gic_data` returns
and, with `t` the value read from the interrupt-count-type register, sets
`gic_irqs` to `min (32 * ((t & 0x1f) + 1)) 1020`; so `gic_irqs` lies in
32..1020 and is a multiple of 32 unless it was capped to 1020. -/
theorem gic_init_bases_gic_irqs (MAX_GIC_NR gic_nr dist_base cpu_base : Nat) (is_percpu : Bool)
    (m : Machine) (h : gic_nr < MAX_GIC_NR) :
    ∃ m', __gic_init_bases MAX_GIC_NR gic_nr dist_base cpu_base is_percpu m = some m' ∧
      (m'.gic_data gic_nr).gic_irqs =
        min (32 * ((u32 (m.io dist_base GIC_DIST_CTR 0) &&& 0x1f) + 1)) 1020 ∧
      32 ≤ (m'.gic_data gic_nr).gic_irqs ∧ (m'.gic_data gic_nr).gic_irqs ≤ 1020 ∧
      (32 * ((u32 (m.io dist_base GIC_DIST_CTR 0) &&& 0x1f) + 1) ≤ 1020 →
        (m'.gic_data gic_nr).gic_irqs % 32 = 0) ∧
      ((m'.gic_data gic_nr).gic_irqs % 32 = 0 ∨ (m'.gic_data gic_nr).gic_irqs = 1020) ∧
      (m'.gic_data gic_nr).dist_base = dist_base ∧
      (m'.gic_data gic_nr).cpu_base = cpu_base ∧
      (m'.gic_data gic_nr).is_percpu = is_percpu := by
  have hle := and_0x1f_le (u32 (m.io dist_base GIC_DIST_CTR 0))
  unfold __gic_init_bases
  rw [if_neg (by omega)]
  refine ⟨_, rfl, ?_⟩
  simp only [set_gic_gic_data, readl_relaxed_gic_data, upd_same, set_gic_io,
    readl_relaxed_val _ _ _ _ (show GIC_DIST_CTR ≠ GIC_CPU_INTACK by decide), Reg.store]
  generalize u32 (m.io dist_base GIC_DIST_CTR 0) &&& 0x1f = c at hle ⊢
  refine ⟨?_, ?_, ?_, ?_, ?_, trivial, trivial, trivial⟩
  · split <;> omega
  · split <;> omega
  · split <;> omega
  · intro hc
    rw [if_neg (by omega)]
    omega
  · split
    · right; rfl
    · left; omega

/-- C23 on the example machine whose count register reads 1: instance 0 gets
64 sources. -/
theorem gic_init_bases_gic_irqs_witness :
    (0 : Nat) < 1 ∧
    ∃ m', __gic_init_bases 1 0 1 2 true
        (exampleMachine (fun _ r _ => if r = GIC_DIST_CTR then 1 else 0)) = some m' ∧
      (m'.gic_data 0).gic_irqs = 64 :=
  ⟨by decide,
    (gic_init_bases_gic_irqs 1 0 1 2 true
      (exampleMachine (fun _ r _ => if r = GIC_DIST_CTR then 1 else 0)) (by decide)).imp
      (fun _ hm => ⟨hm.1, hm.2.1.trans (by decide)⟩)⟩

/-! ## The interface ID of a logical CPU -/

theorem single_bit_iff (e : Nat) (he : e < 256) (hne : e ≠ 0) :
    (e &&& u32 (e + 2 ^ 32 - 1) = 0) ↔ ∃ i, i < 8 ∧ e = 1 <<< i := by
  interval_cases e
  · exact absurd rfl hne
  all_goals decide

/-- C24: `gic_get_cpu_id` returns either `-1` or an interface ID `i` below 8
such that the map entry of the CPU is exactly `1 << i`. It returns `-1` for
every CPU number of 8 or more, and for every map entry that is `1 << i` for
no `i` below 8, be it an entry with more than one bit set or the entry 0
(there `__ffs` gives `0xffffffff`, which the `int` result turns into `-1`);
for the entry `1 << i` of a CPU number below 8 it returns `i`. -/
theorem gic_get_cpu_id_result (cpu : Nat) (m : Machine) :
    (gic_get_cpu_id cpu m = -1 ∨
      ∃ i, i < 8 ∧ cpu < 8 ∧ u8 (m.gic_cpu_map cpu) = 1 <<< i ∧
        gic_get_cpu_id cpu m = (i : Nat)) ∧
    (8 ≤ cpu → gic_get_cpu_id cpu m = -1) ∧
    ((∀ i, i < 8 → u8 (m.gic_cpu_map cpu) ≠ 1 <<< i) → gic_get_cpu_id cpu m = -1) ∧
    (cpu < 8 → ∀ i, i < 8 → u8 (m.gic_cpu_map cpu) = 1 <<< i →
      gic_get_cpu_id cpu m = (i : Nat)) := by
  have hlt : u8 (m.gic_cpu_map cpu) < 256 := Nat.mod_lt _ (by norm_num)
  have hge : 8 ≤ cpu → gic_get_cpu_id cpu m = -1 := by
    intro h
    unfold gic_get_cpu_id NR_GIC_CPU_IF
    rw [if_pos h]
  have hone : cpu < 8 → ∀ i, i < 8 → u8 (m.gic_cpu_map cpu) = 1 <<< i →
      gic_get_cpu_id cpu m = (i : Nat) := by
    intro h i hi he
    unfold gic_get_cpu_id NR_GIC_CPU_IF
    rw [if_neg (by omega)]
    simp only [he]
    interval_cases i <;> decide
  have hnone : (∀ i, i < 8 → u8 (m.gic_cpu_map cpu) ≠ 1 <<< i) → gic_get_cpu_id cpu m = -1 := by
    intro hno
    by_cases h : 8 ≤ cpu
    · exact hge h
    · unfold gic_get_cpu_id NR_GIC_CPU_IF
      rw [if_neg h]
      by_cases hz : u8 (m.gic_cpu_map cpu) = 0
      · simp only [hz]
        decide
      · have := (single_bit_iff _ hlt hz).not.mpr (fun ⟨i, hi, he⟩ => hno i hi he)
        simp only []
        rw [if_pos this]
  refine ⟨?_, hge, hnone, hone⟩
  by_cases h : 8 ≤ cpu
  · exact Or.inl (hge h)
  · by_cases hex : ∃ i, i < 8 ∧ u8 (m.gic_cpu_map cpu) = 1 <<< i
    · obtain ⟨i, hi, he⟩ := hex
      exact Or.inr ⟨i, hi, by omega, he, hone (by omega) i hi he⟩
    · exact Or.inl (hnone (fun i hi he => hex ⟨i, hi, he⟩))

/-! ## End of interrupt and deactivation in the claim loop -/

/-- One iteration of the claim loop in split EOI/deactivate mode on a value
whose ID is below 1021: the loop goes on from a machine whose trace has grown
by the events of the iteration. -/
theorem gic_handle_irq_step_split (fuel : Nat) (m : Machine)
    (hsd : m.supports_deactivate = true)
    (h : claim_id (m.intack (m.gic_data 0).cpu_base (m.intack_pos (m.gic_data 0).cpu_base)) < 1021) :
    ∃ m2, gic_handle_irq (fuel + 1) m = gic_handle_irq fuel m2 ∧
      m2.gic_data = m.gic_data ∧ m2.intack = m.intack ∧
      m2.intack_pos (m.gic_data 0).cpu_base = m.intack_pos (m.gic_data 0).cpu_base + 1 ∧
      m2.supports_deactivate = true ∧
      m2.trace = m.trace ++ split_mode_events (m.gic_data 0).cpu_base
        (m.intack (m.gic_data 0).cpu_base (m.intack_pos (m.gic_data 0).cpu_base)) := by
  obtain ⟨hv, hpos⟩ := readl_relaxed_claim (m.gic_data 0).cpu_base 0 m
  have hid : (readl_relaxed (m.gic_data 0).cpu_base GIC_CPU_INTACK 0 m).1 &&& GICC_IAR_INT_ID_MASK =
      claim_id (m.intack (m.gic_data 0).cpu_base (m.intack_pos (m.gic_data 0).cpu_base)) := by
    rw [hv]; simp [claim_id, u32]
  rw [gic_handle_irq_succ]
  simp only [hid]
  by_cases h15 : 15 < claim_id
      (m.intack (m.gic_data 0).cpu_base (m.intack_pos (m.gic_data 0).cpu_base))
  · have hsm : split_mode_events (m.gic_data 0).cpu_base
        (m.intack (m.gic_data 0).cpu_base (m.intack_pos (m.gic_data 0).cpu_base)) =
        [Event.read (m.gic_data 0).cpu_base GIC_CPU_INTACK 0,
          Event.write (m.gic_data 0).cpu_base GIC_CPU_EOI 0
            (u32 (m.intack (m.gic_data 0).cpu_base (m.intack_pos (m.gic_data 0).cpu_base))),
          Event.handle_domain_irq (claim_id
            (m.intack (m.gic_data 0).cpu_base (m.intack_pos (m.gic_data 0).cpu_base)))] := by
      unfold split_mode_events
      rw [if_pos ⟨h15, h⟩]
    rw [if_pos ⟨h15, h⟩, hsm]
    refine ⟨_, rfl, ?_, ?_, ?_, ?_, ?_⟩
    · simp [handle_domain_irq, hsd]
    · simp [handle_domain_irq, hsd]
    · simp [handle_domain_irq, hsd, hpos]
    · simp [handle_domain_irq, hsd]
    · simp [handle_domain_irq, hsd, hv, u32_u32]
  · have hsm : split_mode_events (m.gic_data 0).cpu_base
        (m.intack (m.gic_data 0).cpu_base (m.intack_pos (m.gic_data 0).cpu_base)) =
        [Event.read (m.gic_data 0).cpu_base GIC_CPU_INTACK 0,
          Event.write (m.gic_data 0).cpu_base GIC_CPU_EOI 0
            (u32 (m.intack (m.gic_data 0).cpu_base (m.intack_pos (m.gic_data 0).cpu_base))),
          Event.write (m.gic_data 0).cpu_base GIC_CPU_DEACTIVATE 0
            (u32 (m.intack (m.gic_data 0).cpu_base (m.intack_pos (m.gic_data 0).cpu_base))),
          Event.handle_IPI (claim_id
            (m.intack (m.gic_data 0).cpu_base (m.intack_pos (m.gic_data 0).cpu_base)))] := by
      unfold split_mode_events
      rw [if_neg (fun hc => h15 hc.1), if_pos (by omega)]
    rw [if_neg (fun hc => h15 hc.1), if_pos (by omega), hsm]
    refine ⟨_, rfl, ?_, ?_, ?_, ?_, ?_⟩
    · simp [handle_IPI, hsd]
    · simp [handle_IPI, hsd]
    · simp [handle_IPI, hsd, hpos]
    · simp [handle_IPI, hsd]
    · simp [handle_IPI, hsd, hv, u32_u32]

/-- C25: in split EOI/deactivate mode, when the claim register yields `k`
values with an ID below 1021 followed by a value with an ID of 1021 or more,
`gic_handle_irq` returns and its accesses and handler calls are, for each
claimed value in turn: the claim read; for an ID in 16..1020 the write of the
whole value to the end-of-interrupt register and then the generic handler,
with no write to the deactivate register; for an ID in 0..15 the write of
the whole value to the end-of-interrupt register, then to the deactivate
register, and then the IPI handler; and for the last value the claim read
alone. -/
theorem gic_handle_irq_split_mode (k : Nat) :
    ∀ (fuel : Nat) (m : Machine),
      m.supports_deactivate = true →
      1021 ≤ claim_id
        (m.intack (m.gic_data 0).cpu_base (m.intack_pos (m.gic_data 0).cpu_base + k)) →
      (∀ j, j < k → claim_id
        (m.intack (m.gic_data 0).cpu_base (m.intack_pos (m.gic_data 0).cpu_base + j)) < 1021) →
      k < fuel →
      ∃ m', gic_handle_irq fuel m = some m' ∧
        m'.trace = m.trace ++ (List.range (k + 1)).flatMap (fun j =>
          split_mode_events (m.gic_data 0).cpu_base
            (m.intack (m.gic_data 0).cpu_base (m.intack_pos (m.gic_data 0).cpu_base + j))) := by
  induction k with
  | zero =>
    intro fuel m _ hspur _ hfuel
    obtain ⟨f, rfl⟩ : ∃ f, fuel = f + 1 := ⟨fuel - 1, by omega⟩
    obtain ⟨m', h1, _, h3⟩ := gic_handle_irq_stop f m (by simpa using hspur)
    refine ⟨m', h1, ?_⟩
    have h0 : ¬ (claim_id (m.intack (m.gic_data 0).cpu_base
        (m.intack_pos (m.gic_data 0).cpu_base)) < 1021) := by
      have := hspur
      simp only [Nat.add_zero] at this
      omega
    rw [h3]
    simp only [List.range_succ, List.range_zero, List.nil_append, List.flatMap_singleton,
      Nat.add_zero, split_mode_events]
    rw [if_neg (fun hc => h0 hc.2), if_neg (by omega)]
  | succ k ih =>
    intro fuel m hsd hspur hreal hfuel
    obtain ⟨f, rfl⟩ : ∃ f, fuel = f + 1 := ⟨fuel - 1, by omega⟩
    obtain ⟨m2, e1, e2, e3, e4, e5, e6⟩ :=
      gic_handle_irq_step_split f m hsd (by simpa using hreal 0 (by omega))
    have hshift : ∀ j, m2.intack (m2.gic_data 0).cpu_base
        (m2.intack_pos (m2.gic_data 0).cpu_base + j) =
        m.intack (m.gic_data 0).cpu_base (m.intack_pos (m.gic_data 0).cpu_base + (j + 1)) := by
      intro j
      rw [e2, e3, e4]
      congr 1
      omega
    obtain ⟨m', i1, i2⟩ := ih f m2 e5
      (by rw [hshift]; exact hspur)
      (fun j hj => by rw [hshift]; exact hreal (j + 1) (by omega))
      (by omega)
    refine ⟨m', by rw [e1, i1], ?_⟩
    rw [i2, e6, List.append_assoc]
    congr 1
    rw [List.range_succ_eq_map (k + 1), List.flatMap_cons, List.flatMap_map]
    simp only [Nat.add_zero]
    congr 1
    apply List.flatMap_congr
    intro j _
    show split_mode_events (m2.gic_data 0).cpu_base _ = split_mode_events (m.gic_data 0).cpu_base _
    rw [hshift j, e2]

/-- C25 on the claimed values `[0x442, 0x407, 1023]` (IDs 66 and 7 with a
source CPU field in the upper bits): the whole value is written, once to the
end-of-interrupt register for ID 66, and to the end-of-interrupt and then the
deactivate register for ID 7. -/
theorem gic_handle_irq_split_mode_witness :
    ∃ m', gic_handle_irq 3 (claimExampleMachine [0x442, 0x407, 1023]) = some m' ∧
      m'.trace =
        [Event.read 2 GIC_CPU_INTACK 0, Event.write 2 GIC_CPU_EOI 0 0x442,
          Event.handle_domain_irq 66,
          Event.read 2 GIC_CPU_INTACK 0, Event.write 2 GIC_CPU_EOI 0 0x407,
          Event.write 2 GIC_CPU_DEACTIVATE 0 0x407, Event.handle_IPI 7,
          Event.read 2 GIC_CPU_INTACK 0] := by
  obtain ⟨m', h1, h2⟩ :=
    gic_handle_irq_split_mode 2 3 (claimExampleMachine [0x442, 0x407, 1023]) (by decide)
      (by decide) (by intro j hj; interval_cases j <;> decide) (by decide)
  exact ⟨m', h1, h2.trans (by decide)⟩

/-! ## The drain of the pending signals on migration -/

theorem and_0xff_eq_u8 (x : Nat) : x &&& 0xff = u8 x := by
  unfold u8
  exact Nat.and_pow_two_sub_one_eq_mod x 8

theorem writel_relaxed_softint_io (v base w : Nat) (m : Machine) :
    (writel_relaxed v base GIC_DIST_SOFTINT w m).io = m.io := by
  funext b r x
  rw [writel_relaxed_io]
  split <;> rfl

theorem u32_softint_value (new_cpu_id j : Nat) (hnew : new_cpu_id < 8) (hj : j < 16) :
    u32 ((1 <<< (new_cpu_id + 16)) ||| j) = (1 <<< (new_cpu_id + 16)) ||| j := by
  interval_cases new_cpu_id <;> interval_cases j <;> decide

/-- The inner loop of the pending-signal drain: one software-interrupt write
per non-zero pending byte of the word, in increasing order of the signal; no
register changes its stored value. -/
theorem gic_migrate_target_sgi_inner (base new_cpu_id w val : Nat) (m0 : Machine)
    (hnew : new_cpu_id < 8) (hw : w < 4) :
    (forLoop (4 * w) (4 * w + 4) (fun j (s : Nat × Machine) =>
        ((s.1 >>> 8,
          if s.1 &&& 0xff ≠ 0 then
            writel_relaxed ((1 <<< (new_cpu_id + 16)) ||| j) base GIC_DIST_SOFTINT 0 s.2
          else s.2) : Nat × Machine)) (val, m0)).2.2.gic_data = m0.gic_data ∧
    (forLoop (4 * w) (4 * w + 4) (fun j (s : Nat × Machine) =>
        ((s.1 >>> 8,
          if s.1 &&& 0xff ≠ 0 then
            writel_relaxed ((1 <<< (new_cpu_id + 16)) ||| j) base GIC_DIST_SOFTINT 0 s.2
          else s.2) : Nat × Machine)) (val, m0)).2.2.io = m0.io ∧
    (forLoop (4 * w) (4 * w + 4) (fun j (s : Nat × Machine) =>
        ((s.1 >>> 8,
          if s.1 &&& 0xff ≠ 0 then
            writel_relaxed ((1 <<< (new_cpu_id + 16)) ||| j) base GIC_DIST_SOFTINT 0 s.2
          else s.2) : Nat × Machine)) (val, m0)).2.2.trace =
      m0.trace ++ sgi_reissue_events base new_cpu_id w val := by
  have h4 : 4 * w + 4 - 4 * w = 4 := by omega
  have e0 : val &&& 0xff = byteOf val 0 := by
    rw [and_0xff_eq_u8]; rfl
  have e1 : (val >>> 8) &&& 0xff = byteOf val 1 := by
    rw [and_0xff_eq_u8]; rfl
  have e2 : (val >>> 8 >>> 8) &&& 0xff = byteOf val 2 := by
    rw [and_0xff_eq_u8, ← Nat.shiftRight_add]; rfl
  have e3 : (val >>> 8 >>> 8 >>> 8) &&& 0xff = byteOf val 3 := by
    rw [and_0xff_eq_u8, ← Nat.shiftRight_add, ← Nat.shiftRight_add]; rfl
  have v0 := u32_softint_value new_cpu_id (4 * w) hnew (by omega)
  have v1 := u32_softint_value new_cpu_id (4 * w + 1) hnew (by omega)
  have v2 := u32_softint_value new_cpu_id (4 * w + 2) hnew (by omega)
  have v3 := u32_softint_value new_cpu_id (4 * w + 3) hnew (by omega)
  simp only [forLoop, h4, forLoopAux, e0, e1, e2, e3, Nat.add_assoc, Nat.reduceAdd]
  unfold sgi_reissue_events
  by_cases c0 : byteOf val 0 = 0 <;> by_cases c1 : byteOf val 1 = 0 <;>
    by_cases c2 : byteOf val 2 = 0 <;> by_cases c3 : byteOf val 3 = 0 <;>
    simp [c0, c1, c2, c3, List.range_succ, v0, v1, v2, v3, writel_relaxed_softint_io]

/-- The pending-signal loop of `gic_migrate_target`: for each of the four
pending-signal words in turn, the read of the word and, when it is not zero,
the write of the word to the pending-clear register and the re-issue
writes. -/
theorem gic_migrate_target_sgi_trace (base new_cpu_id : Nat) (m : Machine)
    (hnew : new_cpu_id < 8) :
    (gic_migrate_target_sgi base new_cpu_id m).trace =
      m.trace ++ (List.range 4).flatMap (fun w =>
        sgi_word_events base new_cpu_id w (u32 (m.io base GIC_DIST_SGI_PENDING_SET w))) := by
  unfold gic_migrate_target_sgi
  have key := forLoop_induct (fun w m =>
      if (readl_relaxed base GIC_DIST_SGI_PENDING_SET w m).1 = 0 then
        (readl_relaxed base GIC_DIST_SGI_PENDING_SET w m).2
      else
        (forLoop (4 * w) (4 * w + 4) (fun j (s : Nat × Machine) =>
          ((s.1 >>> 8,
            if s.1 &&& 0xff ≠ 0 then
              writel_relaxed ((1 <<< (new_cpu_id + 16)) ||| j) base GIC_DIST_SOFTINT 0 s.2
            else s.2) : Nat × Machine))
          ((readl_relaxed base GIC_DIST_SGI_PENDING_SET w m).1,
            writel_relaxed (readl_relaxed base GIC_DIST_SGI_PENDING_SET w m).1 base
              GIC_DIST_SGI_PENDING_CLEAR w
              (readl_relaxed base GIC_DIST_SGI_PENDING_SET w m).2)).2.2)
    (fun w' m' =>
      (∀ x, w' ≤ x → m'.io base GIC_DIST_SGI_PENDING_SET x =
        m.io base GIC_DIST_SGI_PENDING_SET x) ∧
      m'.trace = m.trace ++ (List.range w').flatMap (fun w =>
        sgi_word_events base new_cpu_id w (u32 (m.io base GIC_DIST_SGI_PENDING_SET w))))
    0 4 m (by norm_num) ⟨fun _ _ => rfl, by simp⟩
    (by
      intro w st _ hw4 ⟨h2, h3⟩
      have hv : (readl_relaxed base GIC_DIST_SGI_PENDING_SET w st).1 =
          u32 (m.io base GIC_DIST_SGI_PENDING_SET w) := by
        rw [readl_relaxed_val _ _ _ _ (by decide)]
        show u32 (st.io base GIC_DIST_SGI_PENDING_SET w) = _
        rw [h2 w (le_refl _)]
      beta_reduce
      rw [hv]
      by_cases hz : u32 (m.io base GIC_DIST_SGI_PENDING_SET w) = 0
      · rw [if_pos hz]
        refine ⟨fun x hx => by rw [readl_relaxed_io]; exact h2 x (by omega), ?_⟩
        rw [readl_relaxed_trace, h3, List.range_succ, List.flatMap_append,
          List.flatMap_singleton, List.append_assoc]
        unfold sgi_word_events
        rw [if_pos hz]
      · rw [if_neg hz]
        obtain ⟨_, i2, i3⟩ := gic_migrate_target_sgi_inner base new_cpu_id w
          (u32 (m.io base GIC_DIST_SGI_PENDING_SET w))
          (writel_relaxed (u32 (m.io base GIC_DIST_SGI_PENDING_SET w)) base
            GIC_DIST_SGI_PENDING_CLEAR w
            (readl_relaxed base GIC_DIST_SGI_PENDING_SET w st).2) hnew hw4
        refine ⟨?_, ?_⟩
        · intro x hx
          rw [i2, writel_relaxed_io, if_neg (by omega), readl_relaxed_io]
          exact h2 x (by omega)
        · rw [i3, writel_relaxed_trace, readl_relaxed_trace, h3, List.range_succ,
            List.flatMap_append, List.flatMap_singleton, u32_u32]
          unfold sgi_word_events
          rw [if_neg hz]
          simp)
  exact key.2

/-- The target loop of `gic_migrate_target` accesses neither a pending-signal
register nor the software-interrupt register. -/
theorem gic_migrate_target_loop_events (base gic_irqs mask ror : Nat) (m : Machine) :
    ∃ evs, (gic_migrate_target_loop base gic_irqs mask ror m).trace = m.trace ++ evs ∧
      ∀ e, e ∈ evs → e.isSgiAccess = false := by
  unfold gic_migrate_target_loop forLoop
  have key := forLoopAux_induct (fun i m =>
      if (readl_relaxed base GIC_DIST_TARGET i m).1 &&& mask ≠ 0 then
        writel_relaxed
          (((readl_relaxed base GIC_DIST_TARGET i m).1 &&&
              not32 ((readl_relaxed base GIC_DIST_TARGET i m).1 &&& mask)) |||
            ror32 ((readl_relaxed base GIC_DIST_TARGET i m).1 &&& mask) ror)
          base GIC_DIST_TARGET i (readl_relaxed base GIC_DIST_TARGET i m).2
      else (readl_relaxed base GIC_DIST_TARGET i m).2)
    (fun _ m' => ∃ evs, m'.trace = m.trace ++ evs ∧ ∀ e, e ∈ evs → e.isSgiAccess = false)
    (DIV_ROUND_UP gic_irqs 4 - 8) 8 m ⟨[], by simp, by simp⟩
    (by
      intro i st _ _ ⟨evs, h1, h2⟩
      beta_reduce
      split
      · refine ⟨evs ++ [Event.read base GIC_DIST_TARGET i,
          Event.write base GIC_DIST_TARGET i
            (u32 (((readl_relaxed base GIC_DIST_TARGET i st).1 &&&
                not32 ((readl_relaxed base GIC_DIST_TARGET i st).1 &&& mask)) |||
              ror32 ((readl_relaxed base GIC_DIST_TARGET i st).1 &&& mask) ror))], ?_, ?_⟩
        · rw [writel_relaxed_trace, readl_relaxed_trace, h1]
          simp
        · intro e he
          rcases List.mem_append.mp he with h | h
          · exact h2 e h
          · simp only [List.mem_cons, List.mem_singleton, List.not_mem_nil, or_false] at h
            rcases h with h | h <;> subst h <;> rfl
      · refine ⟨evs ++ [Event.read base GIC_DIST_TARGET i], ?_, ?_⟩
        · rw [readl_relaxed_trace, h1]
          simp
        · intro e he
          rcases List.mem_append.mp he with h | h
          · exact h2 e h
          · simp only [List.mem_singleton] at h
            subst h
            rfl)
  exact key

theorem byteOf_zero (k : Nat) : byteOf 0 k = 0 := by
  unfold byteOf u8
  simp

theorem filter_softint_word_events (base new_cpu_id w val : Nat) :
    (sgi_word_events base new_cpu_id w val).filter (Event.isWriteTo GIC_DIST_SOFTINT) =
      sgi_reissue_events base new_cpu_id w val := by
  unfold sgi_word_events sgi_reissue_events
  by_cases hz : val = 0
  · subst hz
    simp [byteOf_zero, Event.isWriteTo]
  · rw [if_neg hz]
    by_cases c0 : byteOf val 0 = 0 <;> by_cases c1 : byteOf val 1 = 0 <;>
      by_cases c2 : byteOf val 2 = 0 <;> by_cases c3 : byteOf val 3 = 0 <;>
      simp [c0, c1, c2, c3, List.range_succ, Event.isWriteTo]

/-- C26: on a mapped primary instance and for `new_cpu_id` in 0..7, the
accesses of `gic_migrate_target` are first accesses that touch neither a
pending-signal register nor the software-interrupt register, and then, for
each of the four pending-signal words in increasing order: the read of the
word and, when it is not zero, the write of the word to the matching
pending-clear register followed by one software-interrupt write of
`(1 << (new_cpu_id + 16)) | j` for each signal `j` of the word whose pending
byte is not zero, in increasing order of `j`. So the software-interrupt
writes of the whole call are exactly one per signal `j` in 0..15 with a
non-zero pending byte, in increasing order of `j`. -/
theorem gic_migrate_target_sgi_drain (cpu new_cpu_id : Nat) (m : Machine)
    (hbase : (m.gic_data 0).dist_base ≠ 0) (hnew : new_cpu_id < 8) :
    ∃ pre, (∀ e, e ∈ pre → e.isSgiAccess = false) ∧
      (gic_migrate_target cpu new_cpu_id m).trace =
        m.trace ++ pre ++ (List.range 4).flatMap (fun w =>
          sgi_word_events (m.gic_data 0).dist_base new_cpu_id w
            (u32 (m.io (m.gic_data 0).dist_base GIC_DIST_SGI_PENDING_SET w))) ∧
      ((pre ++ (List.range 4).flatMap (fun w =>
          sgi_word_events (m.gic_data 0).dist_base new_cpu_id w
            (u32 (m.io (m.gic_data 0).dist_base GIC_DIST_SGI_PENDING_SET w)))).filter
          (Event.isWriteTo GIC_DIST_SOFTINT) =
        (List.range 16).flatMap (fun j =>
          if byteOf (u32 (m.io (m.gic_data 0).dist_base GIC_DIST_SGI_PENDING_SET (j / 4)))
              (j % 4) ≠ 0 then
            [Event.write (m.gic_data 0).dist_base GIC_DIST_SOFTINT 0
              ((1 <<< (new_cpu_id + 16)) ||| j)]
          else [])) := by
  unfold gic_migrate_target
  rw [if_neg hbase]
  simp only []
  obtain ⟨_, _, l3, _⟩ := gic_migrate_target_loop_spec (m.gic_data 0).dist_base
    (m.gic_data 0).gic_irqs (u32 (0x01010101 <<< __ffs (u8 (m.gic_cpu_map cpu))))
    (u32 (__ffs (u8 (m.gic_cpu_map cpu)) + 2 ^ 32 - u32 new_cpu_id) &&& 31)
    { m with gic_cpu_map := upd m.gic_cpu_map cpu (u8 (1 <<< new_cpu_id)) }
  obtain ⟨pre, t1, t2⟩ := gic_migrate_target_loop_events (m.gic_data 0).dist_base
    (m.gic_data 0).gic_irqs (u32 (0x01010101 <<< __ffs (u8 (m.gic_cpu_map cpu))))
    (u32 (__ffs (u8 (m.gic_cpu_map cpu)) + 2 ^ 32 - u32 new_cpu_id) &&& 31)
    { m with gic_cpu_map := upd m.gic_cpu_map cpu (u8 (1 <<< new_cpu_id)) }
  have hio : ∀ w, (gic_migrate_target_loop (m.gic_data 0).dist_base (m.gic_data 0).gic_irqs
      (u32 (0x01010101 <<< __ffs (u8 (m.gic_cpu_map cpu))))
      (u32 (__ffs (u8 (m.gic_cpu_map cpu)) + 2 ^ 32 - u32 new_cpu_id) &&& 31)
      { m with gic_cpu_map := upd m.gic_cpu_map cpu (u8 (1 <<< new_cpu_id)) }).io
        (m.gic_data 0).dist_base GIC_DIST_SGI_PENDING_SET w =
      m.io (m.gic_data 0).dist_base GIC_DIST_SGI_PENDING_SET w := by
    intro w
    rw [l3, if_neg (by simp)]
  refine ⟨pre, t2, ?_, ?_⟩
  · rw [gic_migrate_target_sgi_trace _ _ _ hnew, t1]
    simp only [hio]
  · have hpre : pre.filter (Event.isWriteTo GIC_DIST_SOFTINT) = [] := by
      rw [List.filter_eq_nil_iff]
      intro e he
      have := t2 e he
      cases e <;> simp_all [Event.isSgiAccess, Event.isWriteTo]
    rw [List.filter_append, hpre, List.nil_append]
    simp [List.range_succ, List.filter_append, filter_softint_word_events, sgi_reissue_events]

/-- C26 on the example machine with the signals 1, 2 and 12 pending,
migrating to interface 5: word 0 and word 3 are written to their
pending-clear registers and the three signals are re-issued in order. -/
theorem gic_migrate_target_sgi_drain_witness :
    ∃ pre, (∀ e, e ∈ pre → e.isSgiAccess = false) ∧
      (gic_migrate_target 0 5 (exampleMachine sgiExampleIo)).trace =
        pre ++
          [Event.read 1 GIC_DIST_SGI_PENDING_SET 0,
            Event.write 1 GIC_DIST_SGI_PENDING_CLEAR 0 0x00010100,
            Event.write 1 GIC_DIST_SOFTINT 0 0x200001,
            Event.write 1 GIC_DIST_SOFTINT 0 0x200002,
            Event.read 1 GIC_DIST_SGI_PENDING_SET 1,
            Event.read 1 GIC_DIST_SGI_PENDING_SET 2,
            Event.read 1 GIC_DIST_SGI_PENDING_SET 3,
            Event.write 1 GIC_DIST_SGI_PENDING_CLEAR 3 1,
            Event.write 1 GIC_DIST_SOFTINT 0 0x20000c] := by
  obtain ⟨pre, h1, h2, _⟩ :=
    gic_migrate_target_sgi_drain 0 5 (exampleMachine sgiExampleIo) (by decide) (by decide)
  have e : (List.range 4).flatMap (fun w =>
      sgi_word_events ((exampleMachine sgiExampleIo).gic_data 0).dist_base 5 w
        (u32 ((exampleMachine sgiExampleIo).io ((exampleMachine sgiExampleIo).gic_data 0).dist_base
          GIC_DIST_SGI_PENDING_SET w))) =
      [Event.read 1 GIC_DIST_SGI_PENDING_SET 0,
        Event.write 1 GIC_DIST_SGI_PENDING_CLEAR 0 0x00010100,
        Event.write 1 GIC_DIST_SOFTINT 0 0x200001,
        Event.write 1 GIC_DIST_SOFTINT 0 0x200002,
        Event.read 1 GIC_DIST_SGI_PENDING_SET 1,
        Event.read 1 GIC_DIST_SGI_PENDING_SET 2,
        Event.read 1 GIC_DIST_SGI_PENDING_SET 3,
        Event.write 1 GIC_DIST_SGI_PENDING_CLEAR 3 1,
        Event.write 1 GIC_DIST_SOFTINT 0 0x20000c] := by decide
  refine ⟨pre, h1, ?_⟩
  rw [h2, e]
  rfl

/-! ## Priority reset, unmapped instances, bounds and termination -/

/-- C27: after `gic_dist_restore` on a mapped instance every priority word
below `ceil(gic_irqs / 4)` holds `GICD_INT_DEF_PRI_X4` whatever it held, the
first access of the restore is the write of 0 to the distributor control
register and the last one the write of 1, or of 3 with FIQ support, to the
same register, every access in between being a register write; on an
instance whose distributor base is not mapped `gic_dist_save` and
`gic_dist_restore` leave the whole machine, trace and saved arrays included,
as it was. -/
theorem gic_dist_restore_priority_reset (gic : Nat) (m : Machine) :
    ((m.gic_data gic).dist_base ≠ 0 →
      (∀ i, i < DIV_ROUND_UP (m.gic_data gic).gic_irqs 4 →
        (gic_dist_restore gic m).io (m.gic_data gic).dist_base GIC_DIST_PRI i =
          GICD_INT_DEF_PRI_X4) ∧
      ∃ mid, (∀ e, e ∈ mid → e.isWrite = true) ∧
        (gic_dist_restore gic m).trace =
          m.trace ++ Event.write (m.gic_data gic).dist_base GIC_DIST_CTRL 0 0 :: mid ++
            [Event.write (m.gic_data gic).dist_base GIC_DIST_CTRL 0
              (if (m.gic_data gic).fiq_enable then 3 else 1)]) ∧
    ((m.gic_data gic).dist_base = 0 →
      gic_dist_save gic m = m ∧ gic_dist_restore gic m = m) := by
  constructor
  · intro hb
    constructor
    · intro i hi
      rw [(gic_dist_restore_spec gic m hb).2]
      simp [hi]
    · rw [gic_dist_restore_trace gic m hb]
      refine ⟨(List.range (DIV_ROUND_UP (m.gic_data gic).gic_irqs 16)).map (fun i =>
          Event.write (m.gic_data gic).dist_base GIC_DIST_CONFIG i
            (u32 ((m.gic_data gic).saved_spi_conf i))) ++
        (List.range (DIV_ROUND_UP (m.gic_data gic).gic_irqs 4)).map (fun i =>
          Event.write (m.gic_data gic).dist_base GIC_DIST_PRI i GICD_INT_DEF_PRI_X4) ++
        (List.range (DIV_ROUND_UP (m.gic_data gic).gic_irqs 4)).map (fun i =>
          Event.write (m.gic_data gic).dist_base GIC_DIST_TARGET i
            (u32 ((m.gic_data gic).saved_spi_target i))) ++
        (if 0 < DIV_ROUND_UP (m.gic_data gic).gic_irqs 32 then
          [Event.write (m.gic_data gic).dist_base GIC_DIST_ENABLE_CLEAR 0 GICD_INT_EN_CLR_X32] ++
            (List.range (DIV_ROUND_UP (m.gic_data gic).gic_irqs 32)).map (fun i =>
              Event.write (m.gic_data gic).dist_base GIC_DIST_IGROUP i
                (u32 ((m.gic_data gic).saved_spi_group i))) ++
            (List.range (DIV_ROUND_UP (m.gic_data gic).gic_irqs 32)).map (fun i =>
              Event.write (m.gic_data gic).dist_base GIC_DIST_ENABLE_SET i
                (u32 ((m.gic_data gic).saved_spi_enable i)))
         else []) ++
        (List.range (DIV_ROUND_UP (m.gic_data gic).gic_irqs 32)).flatMap (fun i =>
          [Event.write (m.gic_data gic).dist_base GIC_DIST_ACTIVE_CLEAR i GICD_INT_EN_CLR_X32,
            Event.write (m.gic_data gic).dist_base GIC_DIST_ACTIVE_SET i
              (u32 ((m.gic_data gic).saved_spi_active i))]), ?_, ?_⟩
      · intro e he
        simp only [List.mem_append, List.mem_map, List.mem_flatMap, List.mem_range, List.mem_cons,
          List.mem_singleton, List.not_mem_nil, or_false] at he
        rcases he with (((h | h) | h) | h) | h
        · obtain ⟨i, _, rfl⟩ := h; rfl
        · obtain ⟨i, _, rfl⟩ := h; rfl
        · obtain ⟨i, _, rfl⟩ := h; rfl
        · split at h
          · simp only [List.mem_append, List.mem_map, List.mem_range, List.mem_cons,
              List.mem_singleton, List.not_mem_nil, or_false] at h
            rcases h with (h | h) | h
            · subst h; rfl
            · obtain ⟨i, _, rfl⟩ := h; rfl
            · obtain ⟨i, _, rfl⟩ := h; rfl
          · exact absurd h (List.not_mem_nil _)
        · obtain ⟨i, _, h⟩ := h
          rcases h with h | h <;> subst h <;> rfl
      · simp only [List.append_assoc, List.cons_append, List.nil_append, List.singleton_append]
  · intro hb
    unfold gic_dist_save gic_dist_restore
    simp [hb]

/-- The register accesses of `gic_dist_save` on a mapped instance, in program
order: the reads of the config, target, enable, active and group words. -/
theorem gic_dist_save_trace (gic : Nat) (m : Machine) (hb : (m.gic_data gic).dist_base ≠ 0) :
    (gic_dist_save gic m).trace =
      m.trace ++
        (List.range (DIV_ROUND_UP (m.gic_data gic).gic_irqs 16)).map (fun i =>
          Event.read (m.gic_data gic).dist_base GIC_DIST_CONFIG i) ++
        (List.range (DIV_ROUND_UP (m.gic_data gic).gic_irqs 4)).map (fun i =>
          Event.read (m.gic_data gic).dist_base GIC_DIST_TARGET i) ++
        (List.range (DIV_ROUND_UP (m.gic_data gic).gic_irqs 32)).map (fun i =>
          Event.read (m.gic_data gic).dist_base GIC_DIST_ENABLE_SET i) ++
        (List.range (DIV_ROUND_UP (m.gic_data gic).gic_irqs 32)).map (fun i =>
          Event.read (m.gic_data gic).dist_base GIC_DIST_ACTIVE_SET i) ++
        (List.range (DIV_ROUND_UP (m.gic_data gic).gic_irqs 32)).map (fun i =>
          Event.read (m.gic_data gic).dist_base GIC_DIST_IGROUP i) := by
  have e1 := fun m' => (save_loop_spec (m.gic_data gic).dist_base GIC_DIST_CONFIG (by decide)
    (DIV_ROUND_UP (m.gic_data gic).gic_irqs 16) gic
    (fun g => g.saved_spi_conf) (fun g a => { g with saved_spi_conf := a })
    (fun _ _ => rfl) (fun _ => rfl) (fun _ _ _ => rfl) m').2.2
  have e2 := fun m' => (save_loop_spec (m.gic_data gic).dist_base GIC_DIST_TARGET (by decide)
    (DIV_ROUND_UP (m.gic_data gic).gic_irqs 4) gic
    (fun g => g.saved_spi_target) (fun g a => { g with saved_spi_target := a })
    (fun _ _ => rfl) (fun _ => rfl) (fun _ _ _ => rfl) m').2.2
  have e3 := fun m' => (save_loop_spec (m.gic_data gic).dist_base GIC_DIST_ENABLE_SET (by decide)
    (DIV_ROUND_UP (m.gic_data gic).gic_irqs 32) gic
    (fun g => g.saved_spi_enable) (fun g a => { g with saved_spi_enable := a })
    (fun _ _ => rfl) (fun _ => rfl) (fun _ _ _ => rfl) m').2.2
  have e4 := fun m' => (save_loop_spec (m.gic_data gic).dist_base GIC_DIST_ACTIVE_SET (by decide)
    (DIV_ROUND_UP (m.gic_data gic).gic_irqs 32) 0
    (fun g => g.saved_spi_active) (fun g a => { g with saved_spi_active := a })
    (fun _ _ => rfl) (fun _ => rfl) (fun _ _ _ => rfl) m').2.2
  have e5 := fun m' => (save_loop_spec (m.gic_data gic).dist_base GIC_DIST_IGROUP (by decide)
    (DIV_ROUND_UP (m.gic_data gic).gic_irqs 32) gic
    (fun g => g.saved_spi_group) (fun g a => { g with saved_spi_group := a })
    (fun _ _ => rfl) (fun _ => rfl) (fun _ _ _ => rfl) m').2.2
  unfold gic_dist_save
  rw [if_neg hb]
  simp only [e5, e4, e3, e2, e1]

theorem div_round_up_bounds (n : Nat) (h : n ≤ 1020) :
    DIV_ROUND_UP n 32 ≤ 32 ∧ DIV_ROUND_UP n 16 ≤ 64 ∧ DIV_ROUND_UP n 4 ≤ 255 := by
  unfold DIV_ROUND_UP
  omega

/-- C28: for an instance with `gic_irqs <= 1020`, the saved arrays have the
declared lengths 32 (enable, active, group), 64 (config) and 255 (target);
every access of `gic_dist_save` and of `gic_dist_restore` that goes with a
saved array has its index below the declared length of that array;
`gic_dist_save` leaves the saved words at or beyond the declared lengths as
they were; and the enable loop of `gic_dist_restore`, whose index is assigned
by the two loops nested in it, ends after one iteration of its body with the
index `ceil(gic_irqs / 32) + 1` (or at once with the index 0 when there is no
word), so that `gic_dist_restore`, a total function, returns. -/
theorem gic_dist_save_restore_bounds (gic : Nat) (m : Machine)
    (h : (m.gic_data gic).gic_irqs ≤ 1020) :
    (DIV_ROUND_UP 1020 32 = 32 ∧ DIV_ROUND_UP 1020 16 = 64 ∧ DIV_ROUND_UP 1020 4 = 255) ∧
    (∃ evs, (gic_dist_save gic m).trace = m.trace ++ evs ∧
      ∀ e, e ∈ evs → e.indexInBounds = true) ∧
    (∃ evs, (gic_dist_restore gic m).trace = m.trace ++ evs ∧
      ∀ e, e ∈ evs → e.indexInBounds = true) ∧
    (∀ i, (64 ≤ i → ((gic_dist_save gic m).gic_data gic).saved_spi_conf i =
        (m.gic_data gic).saved_spi_conf i) ∧
      (255 ≤ i → ((gic_dist_save gic m).gic_data gic).saved_spi_target i =
        (m.gic_data gic).saved_spi_target i) ∧
      (32 ≤ i → ((gic_dist_save gic m).gic_data gic).saved_spi_enable i =
        (m.gic_data gic).saved_spi_enable i) ∧
      (32 ≤ i → ((gic_dist_save gic m).gic_data gic).saved_spi_group i =
        (m.gic_data gic).saved_spi_group i) ∧
      (32 ≤ i → ((gic_dist_save gic m).gic_data 0).saved_spi_active i =
        (m.gic_data 0).saved_spi_active i)) ∧
    (∀ m' : Machine,
      (gic_dist_restore_enable gic (m.gic_data gic).dist_base
          (DIV_ROUND_UP (m.gic_data gic).gic_irqs 32) 0 m').1 =
        if 0 < DIV_ROUND_UP (m.gic_data gic).gic_irqs 32 then
          DIV_ROUND_UP (m.gic_data gic).gic_irqs 32 + 1
        else 0) := by
  obtain ⟨b32, b16, b4⟩ := div_round_up_bounds _ h
  refine ⟨by decide, ?_, ?_, ?_, ?_⟩
  · by_cases hb : (m.gic_data gic).dist_base = 0
    · refine ⟨[], ?_, by simp⟩
      unfold gic_dist_save
      simp [hb]
    · refine ⟨_, by rw [gic_dist_save_trace gic m hb]; simp only [List.append_assoc]; rfl, ?_⟩
      intro e he
      simp only [List.mem_append, List.mem_map, List.mem_range] at he
      rcases he with h1 | h1 | h1 | h1 | h1
      all_goals
        obtain ⟨i, hi, rfl⟩ := h1
        simp only [Event.indexInBounds, saved_array_length, decide_eq_true_eq]
        have d32 : DIV_ROUND_UP 1020 32 = 32 := by decide
        have d16 : DIV_ROUND_UP 1020 16 = 64 := by decide
        have d4 : DIV_ROUND_UP 1020 4 = 255 := by decide
        omega
  · by_cases hb : (m.gic_data gic).dist_base = 0
    · refine ⟨[], ?_, by simp⟩
      unfold gic_dist_restore
      simp [hb]
    · refine ⟨_, by rw [gic_dist_restore_trace gic m hb]; simp only [List.append_assoc]; rfl, ?_⟩
      have d32 : DIV_ROUND_UP 1020 32 = 32 := by decide
      have d16 : DIV_ROUND_UP 1020 16 = 64 := by decide
      have d4 : DIV_ROUND_UP 1020 4 = 255 := by decide
      intro e he
      simp only [List.mem_append, List.mem_map, List.mem_flatMap, List.mem_range, List.mem_cons,
        List.mem_singleton, List.not_mem_nil, or_false] at he
      rcases he with h1 | h1 | h1 | h1 | h1 | h1 | h1
      · subst h1; rfl
      · obtain ⟨i, hi, rfl⟩ := h1
        simp only [Event.indexInBounds, saved_array_length, decide_eq_true_eq]
        omega
      · obtain ⟨i, hi, rfl⟩ := h1
        rfl
      · obtain ⟨i, hi, rfl⟩ := h1
        simp only [Event.indexInBounds, saved_array_length, decide_eq_true_eq]
        omega
      · split at h1
        · simp only [List.mem_append, List.mem_map, List.mem_range, List.mem_cons,
            List.mem_singleton, List.not_mem_nil, or_false] at h1
          rcases h1 with h1 | h1 | h1
          · subst h1; rfl
          · obtain ⟨i, hi, rfl⟩ := h1
            simp only [Event.indexInBounds, saved_array_length, decide_eq_true_eq]
            omega
          · obtain ⟨i, hi, rfl⟩ := h1
            simp only [Event.indexInBounds, saved_array_length, decide_eq_true_eq]
            omega
        · exact absurd h1 (List.not_mem_nil _)
      · obtain ⟨i, hi, h1⟩ := h1
        rcases h1 with h1 | h1
        · subst h1; rfl
        · subst h1
          simp only [Event.indexInBounds, saved_array_length, decide_eq_true_eq]
          omega
      · subst h1; rfl
  · intro i
    by_cases hb : (m.gic_data gic).dist_base = 0
    · have hs : gic_dist_save gic m = m := by
        unfold gic_dist_save
        simp [hb]
      rw [hs]
      exact ⟨fun _ => rfl, fun _ => rfl, fun _ => rfl, fun _ => rfl, fun _ => rfl⟩
    · obtain ⟨_, _, s3, s4, s5, s6, s7, _⟩ := gic_dist_save_spec gic m hb
      refine ⟨fun hi => ?_, fun hi => ?_, fun hi => ?_, fun hi => ?_, fun hi => ?_⟩
      · rw [s3, if_neg (by omega)]
      · rw [s4, if_neg (by omega)]
      · rw [s5, if_neg (by omega)]
      · rw [s6, if_neg (by omega)]
      · rw [s7, if_neg (by omega)]
  · intro m'
    rw [gic_dist_restore_enable_eq]
    split <;> rfl

/-- C28 on the example primary instance (64 sources): the save reads and the
restore writes stay within the declared lengths. -/
theorem gic_dist_save_restore_bounds_witness :
    ((exampleMachine guardExampleIo).gic_data 0).gic_irqs ≤ 1020 ∧
    (∃ evs, (gic_dist_restore 0 (exampleMachine guardExampleIo)).trace =
        (exampleMachine guardExampleIo).trace ++ evs ∧
      ∀ e, e ∈ evs → e.indexInBounds = true) ∧
    (gic_dist_restore_enable 0 1 2 0 (exampleMachine guardExampleIo)).1 = 3 :=
  ⟨by decide,
    (gic_dist_save_restore_bounds 0 (exampleMachine guardExampleIo) (by decide)).2.2.1,
    ((gic_dist_save_restore_bounds 0 (exampleMachine guardExampleIo) (by decide)).2.2.2.2
      (exampleMachine guardExampleIo)).trans (by decide)⟩

/-! ## Translation of a firmware spec -/

theorem tegra_agic_route_interrupt_ret (ta : Option Nat) (irq cpu : Nat) (m : Machine)
    (r : Int × Machine) (h : tegra_agic_route_interrupt ta irq cpu m = some r) :
    r.1 = 0 ∨ r.1 = -EPERM := by
  unfold tegra_agic_route_interrupt at h
  cases ta with
  | none => simp at h
  | some a =>
    simp only [] at h
    split at h
    · simp at h
    · split at h
      · simp only [Option.some.injEq] at h
        subst h
        left; rfl
      · split at h
        · simp only [Option.some.injEq] at h
          subst h
          right; rfl
        · simp only [Option.some.injEq] at h
          subst h
          left; rfl

/-- C22, amended: with an `unsigned long` of at least 32 bits,
`gic_irq_domain_translate` on a device-tree node with fewer than 3 cells
returns `-EINVAL` and leaves the outputs alone; with 3 cells or more it
yields the hardware index `(cell1 + 16) mod 2 ^ 32`, plus 16 when `cell0` is
0, which is `cell1 + 32` for `cell0 = 0` and `cell1 + 16` otherwise whenever
`cell1 + 32 < 2 ^ 32`, and the trigger type `cell2 & 0xf`, and it returns 0
with the machine untouched unless the AGIC routing applies, in which case the
return value and the machine are those of `tegra_agic_route_interrupt` (0 or
`-EPERM`). On an irqchip node it returns `-EINVAL` unless exactly 2 cells are
given and otherwise yields `(cell0, cell1)` and returns 0. On a node of any
other type it returns `-EINVAL`. -/
theorem gic_irq_domain_translate_cells (agic : Bool) (BITS_PER_LONG : Nat) (ta : Option Nat)
    (gic : Nat) (fwspec : irq_fwspec) (hwirq type : Nat) (m : Machine)
    (hL : 32 ≤ BITS_PER_LONG) :
    (fwspec.fwnode = some FWNODE_OF → fwspec.param_count < 3 →
      gic_irq_domain_translate agic BITS_PER_LONG ta gic fwspec hwirq type m =
        some (-EINVAL, hwirq, type, m)) ∧
    (fwspec.fwnode = some FWNODE_OF → 3 ≤ fwspec.param_count →
      (¬ agic_route_path agic gic fwspec m →
        gic_irq_domain_translate agic BITS_PER_LONG ta gic fwspec hwirq type m =
          some (0, of_hwirq BITS_PER_LONG fwspec,
            u32 (fwspec.param 2) &&& IRQ_TYPE_SENSE_MASK, m)) ∧
      (agic_route_path agic gic fwspec m →
        gic_irq_domain_translate agic BITS_PER_LONG ta gic fwspec hwirq type m =
          (tegra_agic_route_interrupt ta (u32 (of_hwirq BITS_PER_LONG fwspec))
            (u32 (fwspec.param 3)) m).map (fun r =>
              (r.1, of_hwirq BITS_PER_LONG fwspec,
                u32 (fwspec.param 2) &&& IRQ_TYPE_SENSE_MASK, r.2)) ∧
        ∀ r, tegra_agic_route_interrupt ta (u32 (of_hwirq BITS_PER_LONG fwspec))
            (u32 (fwspec.param 3)) m = some r → r.1 = 0 ∨ r.1 = -EPERM) ∧
      (u32 (fwspec.param 1) + 32 < 2 ^ 32 →
        of_hwirq BITS_PER_LONG fwspec =
          if u32 (fwspec.param 0) = 0 then u32 (fwspec.param 1) + 32
          else u32 (fwspec.param 1) + 16)) ∧
    (fwspec.fwnode = some FWNODE_IRQCHIP → fwspec.param_count ≠ 2 →
      gic_irq_domain_translate agic BITS_PER_LONG ta gic fwspec hwirq type m =
        some (-EINVAL, hwirq, type, m)) ∧
    (fwspec.fwnode = some FWNODE_IRQCHIP → fwspec.param_count = 2 →
      gic_irq_domain_translate agic BITS_PER_LONG ta gic fwspec hwirq type m =
        some (0, u32 (fwspec.param 0), u32 (fwspec.param 1), m)) ∧
    (∀ t, fwspec.fwnode = some t → t ≠ FWNODE_OF → t ≠ FWNODE_IRQCHIP →
      gic_irq_domain_translate agic BITS_PER_LONG ta gic fwspec hwirq type m =
        some (-EINVAL, hwirq, type, m)) := by
  have hpow : 2 ^ 32 ≤ 2 ^ BITS_PER_LONG := Nat.pow_le_pow_right (by norm_num) hL
  have hmod : ∀ x, u32 x % 2 ^ BITS_PER_LONG = u32 x := by
    intro x
    exact Nat.mod_eq_of_lt (lt_of_lt_of_le (u32_lt x) hpow)
  have hhw : (if u32 (fwspec.param 0) = 0 then
        (u32 (u32 (fwspec.param 1) + 16) % 2 ^ BITS_PER_LONG + 16) % 2 ^ BITS_PER_LONG
      else u32 (u32 (fwspec.param 1) + 16) % 2 ^ BITS_PER_LONG) =
      of_hwirq BITS_PER_LONG fwspec := by
    unfold of_hwirq
    simp only [hmod]
  refine ⟨?_, ?_, ?_, ?_, ?_⟩
  · intro hn hc
    unfold gic_irq_domain_translate
    simp [hn, hc]
  · intro hn hc
    have hc' : ¬ fwspec.param_count < 3 := by omega
    refine ⟨?_, ?_, ?_⟩
    · intro hr
      unfold gic_irq_domain_translate
      simp only [hn, if_true, hc', if_false, hhw]
      cases hag : agic
      · simp
      · have hcond : ¬ ((m.gic_data gic).is_agic = true ∧ fwspec.param_count = 4 ∧
            u32 (fwspec.param 3) < (m.gic_data gic).num_interfaces) := by
          intro hcnd
          exact hr ⟨hag, hcnd⟩
        simp [hcond]
    · intro hr
      obtain ⟨hag, hcnd⟩ := hr
      refine ⟨?_, fun r h => tegra_agic_route_interrupt_ret _ _ _ _ r h⟩
      unfold gic_irq_domain_translate
      simp only [hn, if_true, hc', if_false, hhw, hag, hcnd, and_self]
      cases tegra_agic_route_interrupt ta (u32 (of_hwirq BITS_PER_LONG fwspec))
        (u32 (fwspec.param 3)) m <;> rfl
    · intro hno
      unfold of_hwirq
      have h1 : u32 (u32 (fwspec.param 1) + 16) = u32 (fwspec.param 1) + 16 :=
        Nat.mod_eq_of_lt (by omega)
      rw [h1]
      split
      · exact Nat.mod_eq_of_lt (by omega)
      · rfl
  · intro hn hc
    unfold gic_irq_domain_translate
    simp [hn, hc]
  · intro hn hc
    unfold gic_irq_domain_translate
    simp [hn, hc, hmod]
  · intro t hn h1 h2
    unfold gic_irq_domain_translate
    simp [hn, h1, h2]

/-- C22, amended, on the device-tree spec `<0 5 4>` with a 64-bit
`unsigned long` and the AGIC option off: shared peripheral 5 is the hardware
index 37 with the trigger type 4. -/
theorem gic_irq_domain_translate_cells_witness :
    (32 : Nat) ≤ 64 ∧
    gic_irq_domain_translate false 64 none 0 (exampleFwspec FWNODE_OF [0, 5, 4]) 0 0
        (exampleMachine guardExampleIo) =
      some (0, of_hwirq 64 (exampleFwspec FWNODE_OF [0, 5, 4]),
        u32 ((exampleFwspec FWNODE_OF [0, 5, 4]).param 2) &&& IRQ_TYPE_SENSE_MASK,
        exampleMachine guardExampleIo) ∧
    of_hwirq 64 (exampleFwspec FWNODE_OF [0, 5, 4]) = 37 ∧
    u32 ((exampleFwspec FWNODE_OF [0, 5, 4]).param 2) &&& IRQ_TYPE_SENSE_MASK = 4 :=
  ⟨by decide,
    ((gic_irq_domain_translate_cells false 64 none 0 (exampleFwspec FWNODE_OF [0, 5, 4]) 0 0
      (exampleMachine guardExampleIo) (by decide)).2.1 rfl (by decide)).1
      (fun h => absurd h.1 (by decide)),
    by decide, by decide⟩

/-- C22 as stated fails in two ways. The sum `cell1 + 16` is a `u32`: for the
device-tree spec `<1 0xfffffff0 4>` the hardware index is 0, not
`cell1 + 16`. And with the AGIC option on, for the 4-cell spec `<0 0 4 0>` on
the example AGIC instance, whose source 32 is enabled and routed to
interface 1, the function returns `-EPERM` although it has computed the
hardware index 32 and the type 4. -/
theorem gic_irq_domain_translate_counterexample :
    (gic_irq_domain_translate false 64 none 0 (exampleFwspec FWNODE_OF [1, 0xfffffff0, 4]) 7 7
        (exampleMachine guardExampleIo)).map (fun r => (r.1, r.2.1, r.2.2.1)) =
      some (0, 0, 4) ∧
    (0xfffffff0 : Nat) + 16 ≠ 0 ∧
    (agicExampleMachine.gic_data 1).is_agic = true ∧
    enable_bit agicExampleMachine 3 32 = true ∧
    (gic_irq_domain_translate true 64 (some 1) 1 (exampleFwspec FWNODE_OF [0, 0, 4, 0]) 7 7
        agicExampleMachine).map (fun r => (r.1, r.2.1, r.2.2.1)) =
      some (-EPERM, 32, 4) := by
  refine ⟨by decide, by decide, by decide, by decide, by decide⟩

end GIC
